import Mathlib

/-!
# mc-seed-marker: biome image renderer with hillshade

A shallow embedding of `src/wasm/build/main.c` (the WebAssembly renderer) and of
`src/cubiomes/cubiomes_wrapper.c` (the wrapper around the cubiomes library), and the
properties of the rendering pipeline and of the wrapper.

Modelling conventions.

* `int` is a 32-bit two's-complement integer: every `int` operation of the source is
  followed by `wrap32`.  `size_t` is the 32-bit unsigned integer of wasm32.
* `float` is IEEE-754 binary32 with round-to-nearest-even: a finite value is the exact
  rational it denotes, every arithmetic operation rounds its exact result with `roundQ`.
  The sign of zero is not represented (the only divisor of the program is `(float)scale`,
  whose zero is `+0`).
* A `malloc`ed region is a `Block`: its size and its contents.  An access outside of the
  block, or through a null pointer, is a fault and makes the enclosing function return
  `none`.  The contents that `malloc` hands out are arbitrary, given by a `Heap`.
* Allocation.  The `malloc` of `init_buffer` can fail, and then leaves a null
  `image_buffer` with the requested size recorded: for a request of more than `2^31`
  bytes the `Heap` says whether it fails.  A request of at most `2^31` bytes, the largest
  image whose dimensions fit 32-bit arithmetic, is assumed to succeed, and so are the
  `malloc`s of the scratch arrays `biomes` and `heights`, which are written as soon as
  they have a cell.
* The cubiomes library (`setupGenerator`, `applySeed`, `getBiomeAt`, `initBiomeColors`,
  the constant `MC_1_18`) is not part of the sources: it is a parameter, `World` for the
  renderer and `Cubiomes` for the wrapper.
-/

namespace SeedMarker

/-! ## Machine integers -/

/-- Reduction of an integer to the range of a 32-bit two's-complement `int`. -/
def wrap32 (n : Int) : Int := (n + 2147483648) % 4294967296 - 2147483648

/-- Reduction of an integer to the range of a 64-bit two's-complement `int64_t`. -/
def wrap64 (n : Int) : Int := (n + 9223372036854775808) % 18446744073709551616 - 9223372036854775808

/-- The `int` addition `a + b`. -/
def iadd (a b : Int) : Int := wrap32 (a + b)

/-- The `int` subtraction `a - b`. -/
def isub (a b : Int) : Int := wrap32 (a - b)

/-- The `int` multiplication `a * b`. -/
def imul (a b : Int) : Int := wrap32 (a * b)

/-- Conversion of an `int` to `size_t` (32-bit unsigned). -/
def to_size_t (n : Int) : Nat := (n % 4294967296).toNat

/-- The expression `b & 0xFF` on an `int`: the bitwise and of the 32-bit pattern of `b`
with `0xFF`. -/
def mask_ff (b : Int) : Int := ((to_size_t b &&& 255 : Nat) : Int)

/-- The `int` division `a / b`, which truncates toward zero; a zero divisor and
`INT_MIN / -1` are faults. -/
def idiv (a b : Int) : Option Int :=
  if b = 0 ∨ (a = -2147483648 ∧ b = -1) then none else some (Int.tdiv a b)

/-! ## IEEE-754 binary32 -/

/-- Values of the C type `float`. -/
inductive F32 where
  | fin (q : ℚ)
  | inf (neg : Bool)
  | nan

/-- Nearest integer, ties to the even one. -/
def roundEven (x : ℚ) : ℤ :=
  if x - ⌊x⌋ < 1 / 2 then ⌊x⌋
  else if 1 / 2 < x - ⌊x⌋ then ⌊x⌋ + 1
  else if ⌊x⌋ % 2 = 0 then ⌊x⌋ else ⌊x⌋ + 1

/-- Exponent of the binade of `x` in binary32: `⌊log₂ |x|⌋`, but `-126` in the subnormal
range. -/
def binade (x : ℚ) : ℤ := max (Int.log 2 |x|) (-126)

/-- Round-to-nearest-even onto the binary32 grid (24-bit significand, minimal exponent
`-126`), before the overflow check. -/
def roundQ (x : ℚ) : ℚ := roundEven (x / 2 ^ (binade x - 23)) * 2 ^ (binade x - 23)

/-- Rounding of an exact result to binary32: overflow gives an infinity. -/
def F32.round (x : ℚ) : F32 :=
  if (2 : ℚ) ^ 128 ≤ |roundQ x| then F32.inf (decide (roundQ x < 0)) else F32.fin (roundQ x)

/-- Conversion `(float)n` of an `int`. -/
def F32.ofInt (n : Int) : F32 := F32.round n

/-- Negation. -/
def F32.neg : F32 → F32
  | .fin q => .fin (-q)
  | .inf s => .inf (!s)
  | .nan => .nan

/-- The `float` addition. -/
def F32.add : F32 → F32 → F32
  | .fin a, .fin b => F32.round (a + b)
  | .fin _, .inf s => .inf s
  | .inf s, .fin _ => .inf s
  | .inf s, .inf t => if s = t then .inf s else .nan
  | .nan, _ => .nan
  | _, .nan => .nan

/-- The `float` subtraction. -/
def F32.sub (a b : F32) : F32 := F32.add a (F32.neg b)

/-- The `float` multiplication. -/
def F32.mul : F32 → F32 → F32
  | .fin a, .fin b => F32.round (a * b)
  | .fin a, .inf s => if a = 0 then .nan else .inf (xor (decide (a < 0)) s)
  | .inf s, .fin b => if b = 0 then .nan else .inf (xor s (decide (b < 0)))
  | .inf s, .inf t => .inf (xor s t)
  | .nan, _ => .nan
  | _, .nan => .nan

/-- The `float` division (a zero divisor is `+0`). -/
def F32.div : F32 → F32 → F32
  | .fin a, .fin b =>
    if b = 0 then (if a = 0 then .nan else .inf (decide (a < 0))) else F32.round (a / b)
  | .fin _, .inf _ => .fin 0
  | .inf s, .fin b => .inf (xor s (decide (b < 0)))
  | .inf _, .inf _ => .nan
  | .nan, _ => .nan
  | _, .nan => .nan

/-- The comparison `a < b` of two `float`s (false when one of them is NaN). -/
def F32.lt : F32 → F32 → Bool
  | .fin a, .fin b => decide (a < b)
  | .fin _, .inf s => !s
  | .inf s, .fin _ => s
  | .inf s, .inf t => s && !t
  | .nan, _ => false
  | _, .nan => false

/-- The conversion `(uint8_t)f`: truncation toward zero, then the low 8 bits (C leaves
the conversion of a value of 256 or more undefined; the compiled code converts to a 32-bit
integer and stores its low byte).  A value whose truncation does not fit a 32-bit unsigned
integer, an infinity or a NaN is a fault. -/
def F32.toU8 : F32 → Option Nat
  | .fin q => if -1 < q ∧ q < 4294967296 then some (⌊q⌋.toNat % 256) else none
  | _ => none

/-- The literal `0.95f`. -/
def c095 : F32 := F32.round (95 / 100)

/-! ## Memory -/

/-- A region handed out by `malloc`: number of cells and contents. -/
structure Block (α : Type) where
  size : Nat
  data : Nat → α

/-- The read `b[i]`. -/
def Block.read {α : Type} (b : Block α) (i : Int) : Option α :=
  if 0 ≤ i ∧ i.toNat < b.size then some (b.data i.toNat) else none

/-- The write `b[i] = v`. -/
def Block.write {α : Type} (b : Block α) (i : Int) (v : α) : Option (Block α) :=
  if 0 ≤ i ∧ i.toNat < b.size then some ⟨b.size, Function.update b.data i.toNat v⟩ else none

/-- The behaviour of `malloc` during one call: the contents of the regions that it hands
out for the image buffer and for the arrays `biomes` and `heights`, and, for a request of
`size > 2^31` bytes for the image buffer, whether it fails (`image_fails size`). -/
structure Heap where
  image : Nat → Nat
  biomes : Nat → Int
  heights : Nat → Int
  image_fails : Nat → Bool

/-- The statics `image_buffer` (`none` is `NULL`) and `image_buffer_size`. -/
structure Mem where
  image_buffer : Option (Block Nat)
  image_buffer_size : Nat

/-- The statics at program start. -/
def Mem.init : Mem := ⟨none, 0⟩

/-- The call `malloc(size)` of `init_buffer`: a region of `size` bytes, or `none` (a null
pointer) when the allocation fails. -/
def malloc_image (hp : Heap) (size : Nat) : Option (Block Nat) :=
  if size ≤ 2147483648 ∨ hp.image_fails size = false then
    some ⟨size, fun i => hp.image i % 256⟩
  else none

/-- The function `init_buffer`: frees the old buffer, records the size, allocates.  The
size is recorded also when the allocation fails. -/
def init_buffer (hp : Heap) (_m : Mem) (size : Nat) : Mem :=
  ⟨malloc_image hp size, size⟩

/-- The function `get_buffer`. -/
def get_buffer (m : Mem) : Option (Block Nat) := m.image_buffer

/-! ## The world model (cubiomes) -/

/-- The part of cubiomes the renderer uses.  `getBiomeAt mc seed scale x y z` is
`getBiomeAt(&g, scale, x, y, z)` for a generator `g` set up by
`setupGenerator(&g, mc, 0)` and `applySeed(&g, DIM_OVERWORLD, seed)`;
`biomeColors i k` is entry `[i][k]` of the table filled by `initBiomeColors`. -/
structure World where
  MC_1_18 : Int
  biomeColors : Nat → Nat → Nat
  color_lt : ∀ i k, biomeColors i k < 256
  getBiomeAt : Int → Int → Int → Int → Int → Int → Int

/-! ## The renderer -/

/-- The seed `((int64_t)seed_hi << 32) | seed_lo` of two `uint32_t` halves. -/
def seed64 (seed_lo seed_hi : Nat) : Int :=
  wrap64 ((((seed_hi % 4294967296) <<< 32) ||| (seed_lo % 4294967296) : Nat) : Int)

/-- The function `calculate_hillshade`. -/
def calculate_hillshade (hN hS hE hW : Int) (scale : F32) : F32 :=
  let d0 := F32.ofInt (iadd hN hW)
  let d1 := F32.ofInt (iadd hE hS)
  let mul := F32.div (F32.fin (1 / 4)) scale
  let light := F32.add (F32.fin 1) (F32.mul (F32.sub d1 d0) mul)
  let light := if F32.lt light (F32.fin (1 / 2)) then F32.fin (1 / 2) else light
  let light := if F32.lt (F32.fin (3 / 2)) light then F32.fin (3 / 2) else light
  light

/-- A loop `for (i = lo; i < lo + n; i++) body`, a fault in the body ends it. -/
def forRange {σ : Type} (body : Nat → σ → Option σ) : Nat → Nat → σ → Option σ
  | 0, _, s => some s
  | n + 1, i, s => (body i s).bind (forRange body n (i + 1))

/-- The probing loop `for (test_y = ...; test_y >= -64; test_y -= 4)` of the surface
estimate, entered at `test_y`; `biome test_y` is `getBiomeAt(&g, 1, world_x, test_y,
world_z)`.  The first argument bounds the number of iterations. -/
def surface_probe (biome : Int → Int) : Nat → Int → Int
  | 0, _ => 319
  | n + 1, test_y =>
    if test_y ≥ -64 then
      if biome test_y ≠ -1 then test_y else surface_probe biome n (test_y - 4)
    else 319

/-- The surface estimate of a column: the probing loop from `test_y = 319`, which ends
after 96 iterations at the latest. -/
def surface_y (W : World) (mc seed world_x world_z : Int) : Int :=
  surface_probe (fun test_y => W.getBiomeAt mc seed 1 world_x test_y world_z) 96 319

/-- The arrays `biomes` and `heights` (`none` is `NULL`). -/
structure Grids where
  biomes : Block Int
  heights : Option (Block Int)

/-- Body of the loops that fill the padded grid (cell `px`, `pz`). -/
def fill_cell (W : World) (mc seed scale y_level start_x start_z padded_width : Int)
    (pz px : Nat) (g : Grids) : Option Grids :=
  let world_x := iadd start_x (imul px scale)
  let world_z := iadd start_z (imul pz scale)
  let idx := iadd (imul pz padded_width) px
  (g.biomes.write idx (W.getBiomeAt mc seed scale world_x y_level world_z)).bind fun b =>
    match g.heights with
    | none => some ⟨b, none⟩
    | some h =>
      if mc ≥ W.MC_1_18 then
        (h.write idx 64).bind fun h1 =>
          (h1.write idx (surface_y W mc seed world_x world_z)).bind fun h2 =>
            some ⟨b, some h2⟩
      else
        (h.write idx 64).bind fun h1 => some ⟨b, some h1⟩

/-- The light multiplier of pixel `px`, `py` (the value of `light` when the colour
channels are multiplied). -/
def pixel_light (hts : Block Int) (padded_width scale shader_kind : Int) (py px : Nat) :
    Option F32 :=
  (hts.read (iadd (imul py padded_width) (iadd px 1))).bind fun hN =>
  (hts.read (iadd (imul (iadd py 2) padded_width) (iadd px 1))).bind fun hS =>
  (hts.read (iadd (imul (iadd py 1) padded_width) (iadd px 2))).bind fun hE =>
  (hts.read (iadd (imul (iadd py 1) padded_width) px)).bind fun hW =>
    let light := calculate_hillshade hN hS hE hW (F32.ofInt scale)
    if shader_kind = 2 then
      (hts.read (iadd (imul (iadd py 1) padded_width) (iadd px 1))).bind fun h =>
        if Int.tmod (Int.tdiv h 16) 2 = 0 then some (F32.mul light c095) else some light
    else some light

/-- The channel `(uint8_t)(c * light)`. -/
def shade_channel (c : Nat) (light : F32) : Option Nat :=
  F32.toU8 (F32.mul (F32.ofInt c) light)

/-- The colour of pixel `px`, `py`: the palette entry of its biome, shaded. -/
def pixel_color (W : World) (g : Grids) (padded_width scale shader_kind : Int)
    (py px : Nat) : Option (Nat × Nat × Nat) :=
  (g.biomes.read (iadd (imul (iadd py 1) padded_width) (iadd px 1))).bind fun biome =>
    let r := W.biomeColors (mask_ff biome).toNat 0
    let g_col := W.biomeColors (mask_ff biome).toNat 1
    let b := W.biomeColors (mask_ff biome).toNat 2
    match g.heights with
    | some hts =>
      if shader_kind > 0 then
        (pixel_light hts padded_width scale shader_kind py px).bind fun light =>
        (shade_channel r light).bind fun r1 =>
        (shade_channel g_col light).bind fun g1 =>
        (shade_channel b light).bind fun b1 => some (r1, g1, b1)
      else some (r, g_col, b)
    | none => some (r, g_col, b)

/-- Body of the loops that write the image (pixel `px`, `py`). -/
def write_pixel (W : World) (g : Grids) (width padded_width scale shader_kind : Int)
    (py px : Nat) (img : Block Nat) : Option (Block Nat) :=
  (pixel_color W g padded_width scale shader_kind py px).bind fun c =>
    let pixel_idx := imul (iadd (imul py width) px) 4
    (img.write (iadd pixel_idx 0) c.1).bind fun i1 =>
    (i1.write (iadd pixel_idx 1) c.2.1).bind fun i2 =>
    (i2.write (iadd pixel_idx 2) c.2.2).bind fun i3 =>
    i3.write (iadd pixel_idx 3) 255

/-- The byte count `img_size` of an image. -/
def img_size (width height : Int) : Nat := to_size_t (imul (imul width height) 4)

/-- The statics after the allocation check at the start of `generate_biome_image`. -/
def ensure_buffer (hp : Heap) (m : Mem) (width height : Int) : Mem :=
  if m.image_buffer.isNone ∨ m.image_buffer_size < img_size width height then
    init_buffer hp m (img_size width height)
  else m

/-- Number of `int` cells of `malloc(padded_width * padded_height * sizeof(int))`. -/
def grid_cells (padded_width padded_height : Int) : Nat :=
  (to_size_t (imul padded_width padded_height) * 4 % 4294967296) / 4

/-- The padded grid after the first pair of loops of `generate_biome_image`. -/
def fill_grid (W : World) (hp : Heap) (seed x z width height scale mc_version shader_kind
    y_level : Int) : Option Grids :=
  let padded_width := iadd width 2
  let padded_height := iadd height 2
  let biomes : Block Int := ⟨grid_cells padded_width padded_height, hp.biomes⟩
  let heights : Option (Block Int) :=
    if shader_kind > 0 then some ⟨grid_cells padded_width padded_height, hp.heights⟩ else none
  let start_x := isub x scale
  let start_z := isub z scale
  forRange (fun pz => forRange
      (fill_cell W mc_version seed scale y_level start_x start_z padded_width pz)
      padded_width.toNat 0)
    padded_height.toNat 0 ⟨biomes, heights⟩

/-- The function `generate_biome_image`: the statics after the call and the returned
byte count.  With a null `image_buffer` (after a failed allocation) the image loops
fault at their first pixel, and the call returns when they have no pixel. -/
def generate_biome_image (W : World) (hp : Heap) (m : Mem) (seed_lo seed_hi : Nat)
    (x z width height scale mc_version shader_kind y_level : Int) : Option (Mem × Nat) :=
  let m1 := ensure_buffer hp m width height
  (fill_grid W hp (seed64 seed_lo seed_hi) x z width height scale mc_version shader_kind
      y_level).bind fun g =>
    match m1.image_buffer with
    | none =>
      (forRange (fun _ => forRange (fun _ (_ : Unit) => (none : Option Unit)) width.toNat 0)
        height.toNat 0 ()).bind fun _ =>
        some (⟨none, m1.image_buffer_size⟩, img_size width height)
    | some buf =>
      (forRange (fun py => forRange
          (write_pixel W g width (iadd width 2) scale shader_kind py) width.toNat 0)
        height.toNat 0 buf).bind fun buf1 =>
        some (⟨some buf1, m1.image_buffer_size⟩, img_size width height)

/-- The function `get_biome_at`: a lookup with a generator of its own. -/
def get_biome_at (W : World) (seed_lo seed_hi : Nat) (x y z scale mc_version : Int) : Int :=
  W.getBiomeAt mc_version (seed64 seed_lo seed_hi) scale x y z

/-! ## The cubiomes wrapper (`cubiomes_wrapper.c`) -/

/-- The values of the constants of the cubiomes enum `MCVersion` that `parseVersion`
names (the enum is declared in `vendor/biomes.h`). -/
structure Versions where
  MC_1_18 : Int
  MC_1_19 : Int
  MC_1_19_2 : Int
  MC_1_19_4 : Int
  MC_1_20 : Int
  MC_1_20_6 : Int
  MC_1_21_1 : Int
  MC_1_21_3 : Int
  MC_1_21_WD : Int
  MC_NEWEST : Int

/-- The function `parseVersion`. -/
def parseVersion (V : Versions) (major minor patch : Int) : Int :=
  if major ≠ 1 then V.MC_NEWEST
  else if minor = 18 then V.MC_1_18
  else if minor = 19 then
    if patch ≥ 4 then V.MC_1_19_4
    else if patch ≥ 2 then V.MC_1_19_2
    else V.MC_1_19
  else if minor = 20 then
    if patch ≥ 6 then V.MC_1_20_6
    else V.MC_1_20
  else if minor = 21 then
    if patch ≥ 3 then V.MC_1_21_WD
    else if patch ≥ 1 then V.MC_1_21_3
    else V.MC_1_21_1
  else V.MC_NEWEST

/-- The cubiomes struct `Range`. -/
structure Range where
  scale : Int
  x : Int
  z : Int
  sx : Int
  sz : Int
  y : Int
  sy : Int

/-- The part of cubiomes the wrapper uses, for a type `γ` of generators (`Generator`) and
a type `σ` of surface-noise states (`SurfaceNoise`).  A function that writes through a
pointer returns the block it has written together with its `int` result; `getVariant`
returns its result together with the field `start` of the variant it fills in;
`getEndCityPieces` returns its count together with the field `type` of the pieces. -/
structure Cubiomes (γ σ : Type) where
  V : Versions
  LARGE_BIOMES : Nat
  Bastion : Int
  END_SHIP : Int
  mc : γ → Int
  seed : γ → Nat
  setupGenerator : γ → Int → Nat → γ
  applySeed : γ → Int → Nat → γ
  initSurfaceNoise : σ → Int → Nat → σ
  genBiomes : γ → Block Int → Range → Block Int × Int
  mapApproxHeight : Block F32 → Option (Block Int) → γ → σ → Int → Int → Int → Int →
    Block F32 × Int
  biome2str : Int → Int → String
  getBiomeAt : γ → Int → Int → Int → Int → Int
  getVariant : Int → Int → Nat → Int → Int → Int → Int × Int
  getEndCityPieces : Nat → Int → Int → Int × (Nat → Int)

/-- The statics `g`, `g_sn` and `initialized` of the wrapper. -/
structure Wrapper (γ σ : Type) where
  g : γ
  g_sn : σ
  initialized : Int

/-- The seed `((uint64_t)seedHi << 32) | seedLo` of two `uint32_t` halves. -/
def seed_u64 (seedLo seedHi : Nat) : Nat :=
  (((seedHi % 4294967296) <<< 32) % 18446744073709551616) ||| (seedLo % 4294967296)

/-- The function `cubiomes_init`. -/
def cubiomes_init {γ σ : Type} (L : Cubiomes γ σ) (s : Wrapper γ σ)
    (versionMajor versionMinor versionPatch largeBiomes : Int) : Wrapper γ σ :=
  let mc := parseVersion L.V versionMajor versionMinor versionPatch
  let flags := if largeBiomes ≠ 0 then L.LARGE_BIOMES else 0
  ⟨L.setupGenerator s.g mc flags, s.g_sn, 1⟩

/-- The function `cubiomes_set_seed`. -/
def cubiomes_set_seed {γ σ : Type} (L : Cubiomes γ σ) (s : Wrapper γ σ)
    (seedLo seedHi : Nat) (dimension : Int) : Wrapper γ σ :=
  if s.initialized = 0 then s
  else
    ⟨L.applySeed s.g dimension (seed_u64 seedLo seedHi),
      L.initSurfaceNoise s.g_sn dimension (seed_u64 seedLo seedHi), s.initialized⟩

/-- The function `cubiomes_gen_biomes`: the block behind `outPtr` (`none` is a null
pointer) after the call, and the returned `int`. -/
def cubiomes_gen_biomes {γ σ : Type} (L : Cubiomes γ σ) (s : Wrapper γ σ)
    (blockX blockZ width height scale yLevel : Int) (outPtr : Option (Block Int)) :
    Option (Option (Block Int) × Int) :=
  match outPtr with
  | none => some (none, -1)
  | some out =>
    if s.initialized = 0 then some (some out, -1)
    else
      (idiv blockX scale).bind fun rx =>
      (idiv blockZ scale).bind fun rz =>
        let r : Range := ⟨scale, rx, rz, width, height, yLevel, 0⟩
        some (some (L.genBiomes s.g out r).1, (L.genBiomes s.g out r).2)

/-- The function `cubiomes_gen_heightmap`: the block behind `outPtr` after the call, and
the returned `int`. -/
def cubiomes_gen_heightmap {γ σ : Type} (L : Cubiomes γ σ) (s : Wrapper γ σ)
    (quartX quartZ width height : Int) (outPtr : Option (Block F32)) :
    Option (Block F32) × Int :=
  match outPtr with
  | none => (none, -1)
  | some out =>
    if s.initialized = 0 then (some out, -1)
    else
      (some (L.mapApproxHeight out none s.g s.g_sn quartX quartZ width height).1,
        (L.mapApproxHeight out none s.g s.g_sn quartX quartZ width height).2)

/-- The function `cubiomes_biome_to_str`. -/
def cubiomes_biome_to_str {γ σ : Type} (L : Cubiomes γ σ) (s : Wrapper γ σ) (biomeId : Int) :
    String :=
  if s.initialized = 0 then "" else L.biome2str (L.mc s.g) biomeId

/-- The function `cubiomes_get_biome_at`. -/
def cubiomes_get_biome_at {γ σ : Type} (L : Cubiomes γ σ) (s : Wrapper γ σ)
    (blockX blockZ yLevel : Int) : Int :=
  if s.initialized = 0 then -1 else L.getBiomeAt s.g 1 blockX yLevel blockZ

/-- The function `cubiomes_get_mc_version`. -/
def cubiomes_get_mc_version {γ σ : Type} (L : Cubiomes γ σ) (s : Wrapper γ σ) : Int :=
  L.mc s.g

/-- The function `cubiomes_get_bastion_type`. -/
def cubiomes_get_bastion_type {γ σ : Type} (L : Cubiomes γ σ) (s : Wrapper γ σ)
    (blockX blockZ : Int) : Int :=
  if s.initialized = 0 then -1
  else
    let result := (L.getVariant L.Bastion (L.mc s.g) (L.seed s.g) blockX blockZ (-1)).1
    if result = 0 then -1
    else (L.getVariant L.Bastion (L.mc s.g) (L.seed s.g) blockX blockZ (-1)).2

/-- The function `cubiomes_end_city_has_ship`. -/
def cubiomes_end_city_has_ship {γ σ : Type} (L : Cubiomes γ σ) (s : Wrapper γ σ)
    (chunkX chunkZ : Int) : Int :=
  if s.initialized = 0 then -1
  else
    let count := (L.getEndCityPieces (L.seed s.g) chunkX chunkZ).1
    if count ≤ 0 then -1
    else if (List.range count.toNat).any
        (fun i => (L.getEndCityPieces (L.seed s.g) chunkX chunkZ).2 i == L.END_SHIP) then 1
    else 0

/-! ## Derived quantities, invariants and example inputs -/

/-- The value of `light` before the clamp, for a finite factor `mq`. -/
def light_raw (hN hS hE hW : Int) (mq : ℚ) : ℚ :=
  roundQ (1 + roundQ (roundQ (roundQ (iadd hE hS) - roundQ (iadd hN hW)) * mq))

/-- World coordinate of column (or row) `i` of the padded grid. -/
def cell_coord (origin scale : Int) (i : Nat) : Int := iadd (isub origin scale) (imul i scale)

/-- Biome id of cell `(i, j)` of the padded grid. -/
def cell_biome (W : World) (mc seed x z scale y_level : Int) (i j : Nat) : Int :=
  W.getBiomeAt mc seed scale (cell_coord x scale i) y_level (cell_coord z scale j)

/-- Height of cell `(i, j)` of the padded grid. -/
def cell_height (W : World) (mc seed x z scale : Int) (i j : Nat) : Int :=
  if mc ≥ W.MC_1_18 then surface_y W mc seed (cell_coord x scale i) (cell_coord z scale j)
  else 64

/-- The first `k` cells (row-major, rows of `pw` cells) of the arrays are filled. -/
structure GridInv (W : World) (mc seed x z scale y_level shader_kind : Int) (pw N k : Nat)
    (g : Grids) : Prop where
  bsize : g.biomes.size = N
  bdata : ∀ q, q < k → g.biomes.data q = cell_biome W mc seed x z scale y_level (q % pw) (q / pw)
  hsome : shader_kind > 0 → ∃ h, g.heights = some h ∧ h.size = N ∧
    ∀ q, q < k → h.data q = cell_height W mc seed x z scale (q % pw) (q / pw)
  hnone : ¬ shader_kind > 0 → g.heights = none

/-- The light multiplier of pixel `(px, py)` in terms of the heights of the padded grid. -/
def light_at (W : World) (mc seed x z scale shader_kind : Int) (px py : Nat) : F32 :=
  let light := calculate_hillshade
    (cell_height W mc seed x z scale (px + 1) py)
    (cell_height W mc seed x z scale (px + 1) (py + 2))
    (cell_height W mc seed x z scale (px + 2) (py + 1))
    (cell_height W mc seed x z scale px (py + 1)) (F32.ofInt scale)
  if shader_kind = 2 then
    if Int.tmod (Int.tdiv (cell_height W mc seed x z scale (px + 1) (py + 1)) 16) 2 = 0 then
      F32.mul light c095
    else light
  else light

/-- The colour of pixel `(px, py)` in terms of the world model. -/
def pixel_spec (W : World) (mc seed x z scale shader_kind y_level : Int) (px py : Nat) :
    Option (Nat × Nat × Nat) :=
  let biome := cell_biome W mc seed x z scale y_level (px + 1) (py + 1)
  if shader_kind > 0 then
    (shade_channel (W.biomeColors (biome % 256).toNat 0)
      (light_at W mc seed x z scale shader_kind px py)).bind fun r1 =>
    (shade_channel (W.biomeColors (biome % 256).toNat 1)
      (light_at W mc seed x z scale shader_kind px py)).bind fun g1 =>
    (shade_channel (W.biomeColors (biome % 256).toNat 2)
      (light_at W mc seed x z scale shader_kind px py)).bind fun b1 => some (r1, g1, b1)
  else
    some (W.biomeColors (biome % 256).toNat 0, W.biomeColors (biome % 256).toNat 1,
      W.biomeColors (biome % 256).toNat 2)

/-- The byte `(uint8_t)(c * light)` for a finite `light`. -/
def shade_q (c : Nat) (l : ℚ) : Nat := ⌊roundQ (c * l)⌋.toNat % 256

/-- The value `0.95f / 2`, the smallest multiplier of stepped shading. -/
def light_min : ℚ := 15938355 / 33554432

/-- The first `k` pixels (row-major, rows of `w` pixels) of the image are written, the
bytes behind them are those of `buf0`. -/
structure ImgInv (col : Nat → Nat → Nat × Nat × Nat) (w : Nat) (buf0 : Block Nat) (k : Nat)
    (buf : Block Nat) : Prop where
  size_eq : buf.size = buf0.size
  pix : ∀ p, p < k → buf.data (4 * p) = (col (p % w) (p / w)).1 ∧
    buf.data (4 * p + 1) = (col (p % w) (p / w)).2.1 ∧
    buf.data (4 * p + 2) = (col (p % w) (p / w)).2.2 ∧ buf.data (4 * p + 3) = 255
  rest : ∀ q, 4 * k ≤ q → buf.data q = buf0.data q

/-- Consistency of the statics: the recorded size is that of the buffer, and `0` as long
as there is no buffer. -/
def Mem.wf (m : Mem) : Prop :=
  match m.image_buffer with
  | none => m.image_buffer_size = 0
  | some b => b.size = m.image_buffer_size

/-- Weaker consistency of the statics, which every call keeps: a live buffer has the
recorded size. -/
def Mem.sized (m : Mem) : Prop := ∀ b, m.image_buffer = some b → b.size = m.image_buffer_size

/-- Dimensions for which the image and the padded grid fit 32-bit arithmetic. -/
def Fits (w h : Nat) : Prop := w * h ≤ 536870912 ∧ (w + 2) * (h + 2) < 1073741824

/-- The arguments of one call of `generate_biome_image`, with the contents of the regions
that `malloc` hands out during the call. -/
structure Call where
  hp : Heap
  seed_lo : Nat
  seed_hi : Nat
  x : Int
  z : Int
  width : Int
  height : Int
  scale : Int
  mc_version : Int
  shader_kind : Int
  y_level : Int

/-- One call of `generate_biome_image`. -/
def Call.run (W : World) (m : Mem) (c : Call) : Option (Mem × Nat) :=
  generate_biome_image W c.hp m c.seed_lo c.seed_hi c.x c.z c.width c.height c.scale
    c.mc_version c.shader_kind c.y_level

/-- A sequence of calls of `generate_biome_image`, each of which returns. -/
def run_calls (W : World) : Mem → List Call → Option Mem
  | m, [] => some m
  | m, c :: cs => (c.run W m).bind fun r => run_calls W r.1 cs

/-- A stub world model: biome id 1 everywhere. -/
def stubWorld : World :=
  ⟨22, fun i k => (i * 40 + k * 7 + 200) % 256, fun _ _ => Nat.mod_lt _ (by decide),
    fun _ _ _ _ _ _ => 1⟩

/-- Some contents of fresh regions. -/
def junkHeap : Heap := ⟨fun _ => 7, fun _ => 9, fun _ => 11, fun _ => false⟩

/-- A call for a 2×2 image of `stubWorld`. -/
def call_a : Call := ⟨junkHeap, 0, 0, 0, 0, ((2 : Nat) : Int), ((2 : Nat) : Int), 1, 22, 0, 64⟩

/-- A call for a 1×1 image of `stubWorld`. -/
def call_b : Call := ⟨junkHeap, 0, 0, 0, 0, ((1 : Nat) : Int), ((1 : Nat) : Int), 1, 22, 0, 64⟩

/-- A heap on which every request of more than `2^31` bytes for the image buffer
fails. -/
def fullHeap : Heap := ⟨fun _ => 7, fun _ => 9, fun _ => 11, fun _ => true⟩

/-- A call with `width = -1`, `height = 1`, which requests `4294967292` bytes, on
`fullHeap`. -/
def call_c : Call := ⟨fullHeap, 0, 0, 0, 0, -1, 1, 1, 22, 0, 64⟩

/-- Other contents of fresh regions. -/
def zeroHeap : Heap := ⟨fun _ => 0, fun _ => 0, fun _ => 0, fun _ => false⟩

/-- A world model with biome 2 at negative `x` and biome 1 elsewhere. -/
def signWorld : World :=
  ⟨22, fun i k => (i * 40 + k * 7 + 200) % 256, fun _ _ => Nat.mod_lt _ (by decide),
    fun _ _ _ x _ _ => if x < 0 then 2 else 1⟩

/-- The rounded factor `0.25f / (float)scale`. -/
def scale_mul (scale : Int) : ℚ := roundQ (1 / 4 / roundQ scale)

/-- The value of `calculate_hillshade` for an `int` scale. -/
def hillshade_q (hN hS hE hW scale : Int) : ℚ :=
  min (max (light_raw hN hS hE hW (scale_mul scale)) (1 / 2)) (3 / 2)

/-- A world model whose surface rises by 4 every 32 blocks toward the east. -/
def rampWorld : World :=
  ⟨22, fun _ k => 255 - k % 3, fun _ k => by show 255 - k % 3 < 256; omega,
    fun _ _ _ x y _ => if y ≤ 99 + 4 * (x / 32) then 1 else -1⟩

/-- A world model that is undefined everywhere. -/
def voidWorld : World :=
  ⟨22, fun i k => (i * 40 + k * 7 + 200) % 256, fun _ _ => Nat.mod_lt _ (by decide),
    fun _ _ _ _ _ _ => -1⟩

/-- Example values for the version constants. -/
def stubVersions : Versions := ⟨22, 24, 23, 24, 25, 25, 26, 27, 28, 28⟩

/-- A stub of the cubiomes library on trivial generator states. -/
def stubLib : Cubiomes Unit Unit :=
  { V := stubVersions
    LARGE_BIOMES := 1
    Bastion := 18
    END_SHIP := 12
    mc := fun _ => 22
    seed := fun _ => 0
    setupGenerator := fun g _ _ => g
    applySeed := fun g _ _ => g
    initSurfaceNoise := fun n _ _ => n
    genBiomes := fun _ out _ => (⟨out.size, fun _ => 1⟩, 0)
    mapApproxHeight := fun out _ _ _ _ _ _ _ => (⟨out.size, fun _ => F32.fin 64⟩, 0)
    biome2str := fun _ _ => "plains"
    getBiomeAt := fun _ _ _ _ _ => 1
    getVariant := fun _ _ _ _ _ _ => (1, 2)
    getEndCityPieces := fun _ _ _ => (1, fun _ => 12) }

/-- The statics of the wrapper at program start. -/
def Wrapper.init : Wrapper Unit Unit := ⟨(), (), 0⟩

theorem floor_le_roundEven (x : ℚ) : ⌊x⌋ ≤ roundEven x := by
  unfold roundEven; split_ifs <;> omega

theorem roundEven_le_floor_succ (x : ℚ) : roundEven x ≤ ⌊x⌋ + 1 := by
  unfold roundEven; split_ifs <;> omega

theorem roundEven_intCast (n : ℤ) : roundEven (n : ℚ) = n := by
  unfold roundEven; simp

theorem roundEven_mono {a b : ℚ} (h : a ≤ b) : roundEven a ≤ roundEven b := by
  have hf : ⌊a⌋ ≤ ⌊b⌋ := Int.floor_mono h
  rcases hf.lt_or_eq with hlt | heq
  · have h1 := roundEven_le_floor_succ a
    have h2 := floor_le_roundEven b
    omega
  · unfold roundEven
    rw [heq]
    split_ifs <;> first | omega | (exfalso; linarith)

theorem abs_roundEven_sub_le (x : ℚ) : |(roundEven x : ℚ) - x| ≤ 1 / 2 := by
  have h1 := Int.floor_le x
  have h2 := Int.lt_floor_add_one x
  rw [abs_le]
  unfold roundEven
  split_ifs <;> push_cast <;> constructor <;> linarith

theorem roundEven_neg (x : ℚ) : roundEven (-x) = -roundEven x := by
  have h1 := Int.floor_le x
  have h2 := Int.lt_floor_add_one x
  by_cases hx : x = ⌊x⌋
  · rw [hx, ← Int.cast_neg, roundEven_intCast, roundEven_intCast]
  · have hlt : (⌊x⌋ : ℚ) < x := lt_of_le_of_ne h1 (Ne.symm hx)
    have hfl : ⌊-x⌋ = -⌊x⌋ - 1 := by
      rw [Int.floor_eq_iff]; push_cast; constructor <;> linarith
    unfold roundEven
    rw [hfl]
    push_cast
    split_ifs <;> first | omega | (exfalso; linarith)

theorem roundEven_nonneg {x : ℚ} (h : 0 ≤ x) : 0 ≤ roundEven x :=
  le_trans (Int.floor_nonneg.2 h) (floor_le_roundEven x)

/-! ## Binades -/

theorem binade_ge (x : ℚ) : -126 ≤ binade x := le_max_right _ _

theorem binade_neg (x : ℚ) : binade (-x) = binade x := by
  unfold binade; rw [abs_neg]

theorem binade_eq {x : ℚ} (e : ℤ) (he : -126 ≤ e) (h1 : (2 : ℚ) ^ e ≤ |x|)
    (h2 : |x| < 2 ^ (e + 1)) : binade x = e := by
  have hpos : 0 < |x| := lt_of_lt_of_le (zpow_pos (by norm_num) e) h1
  have hlog : Int.log 2 |x| = e := by
    have ha : e ≤ Int.log 2 |x| := by
      rw [← Int.zpow_le_iff_le_log (by norm_num) hpos]; exact_mod_cast h1
    have hb : Int.log 2 |x| < e + 1 := by
      rw [← Int.lt_zpow_iff_log_lt (by norm_num) hpos]; exact_mod_cast h2
    omega
  unfold binade
  rw [hlog]; exact max_eq_left he

theorem binade_mono {a b : ℚ} (ha : 0 < a) (h : a ≤ b) : binade a ≤ binade b := by
  unfold binade
  have hb : 0 < b := lt_of_lt_of_le ha h
  rw [abs_of_pos ha, abs_of_pos hb]
  exact max_le_max (Int.log_mono_right ha h) le_rfl

theorem lt_zpow_binade (x : ℚ) : |x| < 2 ^ (binade x + 1) := by
  have h := Int.lt_zpow_succ_log_self (b := 2) (by norm_num) |x|
  have hle : Int.log 2 |x| + 1 ≤ binade x + 1 := by
    have := le_max_left (Int.log 2 |x|) (-126)
    unfold binade; omega
  calc |x| < ((2 : ℕ) : ℚ) ^ (Int.log 2 |x| + 1) := h
    _ = (2 : ℚ) ^ (Int.log 2 |x| + 1) := by norm_num
    _ ≤ 2 ^ (binade x + 1) := zpow_le_zpow_right₀ (by norm_num) hle

theorem zpow_binade_le {x : ℚ} (hx : x ≠ 0) (h : -126 < binade x) : (2 : ℚ) ^ binade x ≤ |x| := by
  have hpos : 0 < |x| := abs_pos.2 hx
  have hlog : binade x = Int.log 2 |x| := by
    unfold binade at h ⊢
    rcases max_cases (Int.log 2 |x|) (-126) with ⟨h1, _⟩ | ⟨h1, _⟩
    · exact h1
    · omega
  rw [hlog]
  have := Int.zpow_log_le_self (b := 2) (by norm_num) hpos
  exact_mod_cast this
/-! ## Rounding onto the binary32 grid -/

theorem ulp_pos (e : ℤ) : (0 : ℚ) < 2 ^ e := zpow_pos (by norm_num) e

theorem zpow_succ_eq (e : ℤ) : (2 : ℚ) ^ (e + 1) = ((16777216 : ℤ) : ℚ) * 2 ^ (e - 23) := by
  have h : e + 1 = 24 + (e - 23) := by ring
  rw [h, zpow_add₀ (by norm_num : (2 : ℚ) ≠ 0)]
  norm_num

theorem zpow_eq (e : ℤ) : (2 : ℚ) ^ e = ((8388608 : ℤ) : ℚ) * 2 ^ (e - 23) := by
  have h : e = 23 + (e - 23) := by ring
  nth_rewrite 1 [h]
  rw [zpow_add₀ (by norm_num : (2 : ℚ) ≠ 0)]
  norm_num

theorem grid_le {x u : ℚ} (hu : 0 < u) (n : ℤ) (h : x ≤ n * u) :
    (roundEven (x / u) : ℚ) * u ≤ n * u := by
  have h1 : x / u ≤ n := by rw [div_le_iff₀ hu]; exact h
  have h2 : roundEven (x / u) ≤ n := by
    have := roundEven_mono h1
    rwa [roundEven_intCast] at this
  have h3 : (roundEven (x / u) : ℚ) ≤ n := by exact_mod_cast h2
  exact mul_le_mul_of_nonneg_right h3 hu.le

theorem le_grid {x u : ℚ} (hu : 0 < u) (n : ℤ) (h : (n : ℚ) * u ≤ x) :
    (n : ℚ) * u ≤ roundEven (x / u) * u := by
  have h1 : (n : ℚ) ≤ x / u := by rw [le_div_iff₀ hu]; exact h
  have h2 : n ≤ roundEven (x / u) := by
    have := roundEven_mono h1
    rwa [roundEven_intCast] at this
  have h3 : (n : ℚ) ≤ roundEven (x / u) := by exact_mod_cast h2
  exact mul_le_mul_of_nonneg_right h3 hu.le

theorem roundQ_zero : roundQ 0 = 0 := by
  unfold roundQ
  rw [zero_div]
  have : roundEven 0 = 0 := by simpa using roundEven_intCast 0
  rw [this]; simp

theorem roundQ_neg (x : ℚ) : roundQ (-x) = -roundQ x := by
  unfold roundQ
  rw [binade_neg, neg_div, roundEven_neg]
  push_cast; ring

theorem roundQ_nonneg {x : ℚ} (h : 0 ≤ x) : 0 ≤ roundQ x := by
  unfold roundQ
  have h1 : 0 ≤ roundEven (x / 2 ^ (binade x - 23)) :=
    roundEven_nonneg (div_nonneg h (ulp_pos _).le)
  have h2 : (0 : ℚ) ≤ roundEven (x / 2 ^ (binade x - 23)) := by exact_mod_cast h1
  exact mul_nonneg h2 (ulp_pos _).le

theorem roundQ_mono_pos {a b : ℚ} (ha : 0 < a) (h : a ≤ b) : roundQ a ≤ roundQ b := by
  have hb : 0 < b := lt_of_lt_of_le ha h
  rcases (binade_mono ha h).lt_or_eq with hlt | heq
  · have hbe : -126 < binade b := lt_of_le_of_lt (binade_ge a) hlt
    have h1 : roundQ a ≤ 2 ^ (binade a + 1) := by
      rw [zpow_succ_eq]
      apply grid_le (ulp_pos _)
      rw [← zpow_succ_eq]
      have := lt_zpow_binade a
      rw [abs_of_pos ha] at this
      exact this.le
    have h2 : (2 : ℚ) ^ binade b ≤ roundQ b := by
      rw [zpow_eq]
      apply le_grid (ulp_pos _)
      rw [← zpow_eq]
      have := zpow_binade_le hb.ne' hbe
      rwa [abs_of_pos hb] at this
    have h3 : (2 : ℚ) ^ (binade a + 1) ≤ 2 ^ binade b :=
      zpow_le_zpow_right₀ (by norm_num) hlt
    linarith
  · unfold roundQ
    rw [heq]
    have hu := ulp_pos (binade b - 23)
    have h1 : a / 2 ^ (binade b - 23) ≤ b / 2 ^ (binade b - 23) :=
      div_le_div_of_nonneg_right h hu.le
    have h2 := roundEven_mono h1
    have h3 : (roundEven (a / 2 ^ (binade b - 23)) : ℚ) ≤ roundEven (b / 2 ^ (binade b - 23)) := by
      exact_mod_cast h2
    exact mul_le_mul_of_nonneg_right h3 hu.le

theorem roundQ_mono {a b : ℚ} (ha : 0 ≤ a) (h : a ≤ b) : roundQ a ≤ roundQ b := by
  rcases ha.lt_or_eq with hlt | heq
  · exact roundQ_mono_pos hlt h
  · rw [← heq, roundQ_zero]; exact roundQ_nonneg (heq ▸ h)

theorem roundQ_exact {x : ℚ} (e n : ℤ) (he : -126 ≤ e) (h1 : (2 : ℚ) ^ e ≤ |x|)
    (h2 : |x| < 2 ^ (e + 1)) (hx : x = n * 2 ^ (e - 23)) : roundQ x = x := by
  unfold roundQ
  rw [binade_eq e he h1 h2]
  have : x / 2 ^ (e - 23) = n := by
    rw [hx]; field_simp
  rw [this, roundEven_intCast, ← hx]

theorem roundQ_abs (x : ℚ) : |roundQ x| = roundQ |x| := by
  rcases le_total 0 x with h | h
  · rw [abs_of_nonneg h, abs_of_nonneg (roundQ_nonneg h)]
  · have h' : 0 ≤ -x := by linarith
    have := roundQ_nonneg h'
    rw [roundQ_neg] at this
    rw [abs_of_nonpos h, abs_of_nonpos (by linarith), roundQ_neg]

theorem roundQ_abs_le {x B : ℚ} (hB : roundQ B = B) (h : |x| ≤ B) : |roundQ x| ≤ B := by
  rw [roundQ_abs, ← hB]
  exact roundQ_mono (abs_nonneg x) h

theorem roundQ_le {x B : ℚ} (hB : roundQ B = B) (h0 : 0 ≤ x) (h : x ≤ B) : roundQ x ≤ B := by
  rw [← hB]; exact roundQ_mono h0 h

theorem le_roundQ {x B : ℚ} (hB : roundQ B = B) (h0 : 0 ≤ B) (h : B ≤ x) : B ≤ roundQ x := by
  rw [← hB]; exact roundQ_mono h0 h

theorem roundQ_pow (k : ℤ) (hk : -126 ≤ k) : roundQ (2 ^ k) = 2 ^ k := by
  have hp := ulp_pos k
  apply roundQ_exact k 8388608 hk
  · rw [abs_of_pos hp]
  · rw [abs_of_pos hp]; exact zpow_lt_zpow_right₀ (by norm_num) (by omega)
  · exact zpow_eq k

theorem roundQ_one : roundQ 1 = 1 := by simpa using roundQ_pow 0 (by norm_num)

/-! ## Finite `float` arithmetic -/

theorem round_fin {x : ℚ} (h : |x| ≤ 2 ^ (127 : ℤ)) : F32.round x = F32.fin (roundQ x) := by
  have h1 := roundQ_abs_le (roundQ_pow 127 (by norm_num)) h
  have h2 : ¬ ((2 : ℚ) ^ 128 ≤ |roundQ x|) := by
    intro h3
    have : (2 : ℚ) ^ (127 : ℤ) < 2 ^ 128 := by norm_num
    linarith
  unfold F32.round
  rw [if_neg h2]

theorem roundQ_half : roundQ (1 / 2) = 1 / 2 := by
  simpa using roundQ_pow (-1) (by norm_num)

theorem roundQ_quarter : roundQ (1 / 4) = 1 / 4 := by
  have := roundQ_pow (-2) (by norm_num)
  norm_num at this ⊢
  exact this

theorem roundQ_three_halves : roundQ (3 / 2) = 3 / 2 := by
  apply roundQ_exact 0 12582912 (by norm_num) <;> norm_num [abs_of_pos]

theorem roundEven_eq {x : ℚ} (n : ℤ) (h1 : (n : ℚ) - 1 / 2 < x) (h2 : x < n + 1 / 2) :
    roundEven x = n := by
  have h := abs_le.1 (abs_roundEven_sub_le x)
  have h3 : ((roundEven x - n : ℤ) : ℚ) < 1 := by push_cast; linarith [h.2]
  have h4 : ((-1 : ℤ) : ℚ) < ((roundEven x - n : ℤ) : ℚ) := by push_cast; linarith [h.1]
  have h5 : roundEven x - n < 1 := by exact_mod_cast h3
  have h6 : -1 < roundEven x - n := by exact_mod_cast h4
  omega

theorem roundQ_eval {x : ℚ} (e n : ℤ) (he : -126 ≤ e) (h1 : (2 : ℚ) ^ e ≤ |x|)
    (h2 : |x| < 2 ^ (e + 1)) (hlo : ((n : ℚ) - 1 / 2) * 2 ^ (e - 23) < x)
    (hhi : x < ((n : ℚ) + 1 / 2) * 2 ^ (e - 23)) : roundQ x = n * 2 ^ (e - 23) := by
  unfold roundQ
  rw [binade_eq e he h1 h2]
  have hu := ulp_pos (e - 23)
  rw [roundEven_eq n ((lt_div_iff₀ hu).2 hlo) ((div_lt_iff₀ hu).2 hhi)]

theorem c095_eq : c095 = F32.fin (15938355 / 16777216) := by
  have h : roundQ (95 / 100) = 15938355 / 16777216 := by
    rw [roundQ_eval (-1) 15938355 (by norm_num)] <;> norm_num [abs_of_pos]
  unfold c095
  rw [round_fin (by norm_num [abs_of_pos]), h]

theorem wrap32_range (n : Int) : -2147483648 ≤ wrap32 n ∧ wrap32 n < 2147483648 := by
  unfold wrap32; omega

theorem wrap32_id {n : Int} (h1 : -2147483648 ≤ n) (h2 : n < 2147483648) : wrap32 n = n := by
  unfold wrap32; omega

theorem abs_cast_wrap32_le (n : Int) : |((wrap32 n : Int) : ℚ)| ≤ 2147483648 := by
  have h := wrap32_range n
  rw [abs_le]
  constructor
  · have : ((-2147483648 : Int) : ℚ) ≤ ((wrap32 n : Int) : ℚ) := by exact_mod_cast h.1
    simpa using this
  · have : ((wrap32 n : Int) : ℚ) ≤ ((2147483648 : Int) : ℚ) := by exact_mod_cast h.2.le
    simpa using this

theorem roundQ_pow31 : roundQ 2147483648 = 2147483648 := by
  have := roundQ_pow 31 (by norm_num)
  norm_num at this ⊢
  exact this

theorem ofInt_wrap32 (n : Int) :
    F32.ofInt (wrap32 n) = F32.fin (roundQ (wrap32 n)) ∧ |roundQ (wrap32 n)| ≤ 2147483648 := by
  have h := abs_cast_wrap32_le n
  constructor
  · unfold F32.ofInt
    exact round_fin (le_trans h (by norm_num))
  · exact roundQ_abs_le roundQ_pow31 h

/-- The factor `0.25f / scale` is a finite value of `[0, 1/4]` for every positive scale. -/
theorem scale_mul_fin (scale : Int) (h : 0 < scale) :
    ∃ mq : ℚ, F32.div (F32.fin (1 / 4)) (F32.ofInt scale) = F32.fin mq ∧ 0 ≤ mq ∧ mq ≤ 1 / 4 := by
  have hs : (1 : ℚ) ≤ (scale : ℚ) := by exact_mod_cast h
  have hr : 1 ≤ roundQ scale := le_roundQ roundQ_one (by norm_num) hs
  unfold F32.ofInt F32.round
  split_ifs with hov
  · exact ⟨0, rfl, le_rfl, by norm_num⟩
  · have hne : roundQ scale ≠ 0 := by linarith
    have hpos : (0 : ℚ) < 1 / 4 / roundQ scale := by positivity
    have hle : 1 / 4 / roundQ scale ≤ 1 / 4 := by
      rw [div_le_iff₀ (by linarith)]; nlinarith
    refine ⟨roundQ (1 / 4 / roundQ scale), ?_, roundQ_nonneg hpos.le,
      roundQ_le roundQ_quarter hpos.le hle⟩
    show (if roundQ scale = 0 then _ else F32.round (1 / 4 / roundQ scale)) = _
    rw [if_neg hne]
    apply round_fin
    rw [abs_of_pos hpos]
    exact le_trans hle (by norm_num)

theorem hillshade_fin (hN hS hE hW : Int) (sc : F32) (mq : ℚ)
    (hsc : F32.div (F32.fin (1 / 4)) sc = F32.fin mq) (h0 : 0 ≤ mq) (h1 : mq ≤ 1 / 4) :
    calculate_hillshade hN hS hE hW sc
      = F32.fin (min (max (light_raw hN hS hE hW mq) (1 / 2)) (3 / 2)) := by
  obtain ⟨e0, b0⟩ := ofInt_wrap32 (hN + hW)
  obtain ⟨e1, b1⟩ := ofInt_wrap32 (hE + hS)
  have hB : roundQ 4294967296 = 4294967296 := by
    have := roundQ_pow 32 (by norm_num)
    norm_num at this ⊢
    exact this
  have hd : |roundQ (wrap32 (hE + hS)) - roundQ (wrap32 (hN + hW))| ≤ 4294967296 := by
    have := abs_sub (roundQ (wrap32 (hE + hS))) (roundQ (wrap32 (hN + hW)))
    linarith
  have hD := roundQ_abs_le hB hd
  have hp : |roundQ (roundQ (wrap32 (hE + hS)) - roundQ (wrap32 (hN + hW))) * mq|
      ≤ 1073741824 := by
    rw [abs_mul, abs_of_nonneg h0]
    nlinarith [abs_nonneg (roundQ (roundQ (wrap32 (hE + hS)) - roundQ (wrap32 (hN + hW))))]
  have hB2 : roundQ 1073741824 = 1073741824 := by
    have := roundQ_pow 30 (by norm_num)
    norm_num at this ⊢
    exact this
  have hP := roundQ_abs_le hB2 hp
  have hl : |1 + roundQ (roundQ (roundQ (wrap32 (hE + hS)) - roundQ (wrap32 (hN + hW))) * mq)|
      ≤ 2147483648 := by
    have := abs_add (1 : ℚ)
      (roundQ (roundQ (roundQ (wrap32 (hE + hS)) - roundQ (wrap32 (hN + hW))) * mq))
    rw [abs_one] at this
    linarith
  unfold calculate_hillshade light_raw iadd
  simp only [hsc, e0, e1, F32.sub, F32.neg, F32.add, F32.mul]
  rw [← sub_eq_add_neg, round_fin (le_trans hd (by norm_num))]
  simp only [F32.mul]
  rw [round_fin (le_trans hp (by norm_num))]
  simp only [F32.add]
  rw [round_fin (le_trans hl (by norm_num))]
  simp only [F32.lt]
  by_cases c1 : roundQ (1 + roundQ (roundQ (roundQ (wrap32 (hE + hS))
      - roundQ (wrap32 (hN + hW))) * mq)) < 1 / 2
  · simp only [c1, decide_True, if_true, F32.lt]
    have : ¬ ((3 : ℚ) / 2 < 1 / 2) := by norm_num
    simp only [this, decide_False, Bool.false_eq_true, if_false]
    rw [max_eq_right c1.le, min_eq_left (by norm_num)]
  · simp only [c1, decide_False, Bool.false_eq_true, if_false, F32.lt]
    rw [max_eq_left (not_lt.1 c1)]
    by_cases c2 : 3 / 2 < roundQ (1 + roundQ (roundQ (roundQ (wrap32 (hE + hS))
        - roundQ (wrap32 (hN + hW))) * mq))
    · simp only [c2, decide_True, if_true]
      rw [min_eq_right c2.le]
    · simp only [c2, decide_False, Bool.false_eq_true, if_false]
      rw [min_eq_left (not_lt.1 c2)]


/-! ## Loops -/

theorem forRange_inv {σ : Type} (body : Nat → σ → Option σ) (P : Nat → σ → Prop) :
    ∀ (n lo : Nat) (s : σ), P lo s →
      (∀ i t, lo ≤ i → i < lo + n → P i t → ∃ t', body i t = some t' ∧ P (i + 1) t') →
      ∃ s', forRange body n lo s = some s' ∧ P (lo + n) s' := by
  intro n
  induction n with
  | zero => intro lo s h _; exact ⟨s, rfl, h⟩
  | succ n ih =>
    intro lo s h hstep
    obtain ⟨t, ht, hP⟩ := hstep lo s le_rfl (by omega) h
    obtain ⟨s', hs', hP'⟩ := ih (lo + 1) t hP
      (fun i u h1 h2 hu => hstep i u (by omega) (by omega) hu)
    refine ⟨s', ?_, ?_⟩
    · show (body lo s).bind (forRange body n (lo + 1)) = some s'
      rw [ht]; exact hs'
    · have : lo + (n + 1) = lo + 1 + n := by omega
      rw [this]; exact hP'

theorem write_ok {α : Type} (b : Block α) (k : Nat) (v : α) (h : k < b.size) :
    b.write (k : Int) v = some ⟨b.size, Function.update b.data k v⟩ := by
  unfold Block.write
  have : (0 : Int) ≤ (k : Int) ∧ (k : Int).toNat < b.size := ⟨by omega, by simpa using h⟩
  rw [if_pos this]; simp

theorem read_ok {α : Type} (b : Block α) (k : Nat) (h : k < b.size) :
    b.read (k : Int) = some (b.data k) := by
  unfold Block.read
  have : (0 : Int) ≤ (k : Int) ∧ (k : Int).toNat < b.size := ⟨by omega, by simpa using h⟩
  rw [if_pos this]; simp

theorem lin_div {pw px : Nat} (pz : Nat) (h : px < pw) :
    (pz * pw + px) / pw = pz ∧ (pz * pw + px) % pw = px := by
  have hp : 0 < pw := by omega
  constructor
  · rw [Nat.add_comm, Nat.add_mul_div_right _ _ hp, Nat.div_eq_of_lt h, Nat.zero_add]
  · rw [Nat.add_comm, Nat.add_mul_mod_self_right, Nat.mod_eq_of_lt h]

theorem lin_lt {pw ph pz px : Nat} (hz : pz < ph) (hx : px < pw) : pz * pw + px < pw * ph := by
  have : (pz + 1) * pw ≤ ph * pw := Nat.mul_le_mul_right pw hz
  nlinarith

theorem idx_eq (a b c : Nat) (h : a * b + c < 2147483648) :
    iadd (imul (a : Int) (b : Int)) (c : Int) = ((a * b + c : Nat) : Int) := by
  have h1 : a * b < 2147483648 := by omega
  have h2 : ((a * b : Nat) : Int) < 2147483648 := by exact_mod_cast h1
  have h3 : ((a * b + c : Nat) : Int) < 2147483648 := by exact_mod_cast h
  unfold iadd imul
  push_cast at h2 h3 ⊢
  have h4 : (0 : Int) ≤ (a : Int) * (b : Int) := by positivity
  rw [wrap32_id (by omega) h2, wrap32_id (by omega) h3]

/-! ## The padded grid -/

theorem fill_cell_step (W : World) (mc seed x z scale y_level shader_kind : Int)
    (pw N pz px : Nat) (g : Grids) (hpx : px < pw) (hlt : pz * pw + px < N)
    (hN : N < 2147483648)
    (inv : GridInv W mc seed x z scale y_level shader_kind pw N (pz * pw + px) g) :
    ∃ g', fill_cell W mc seed scale y_level (isub x scale) (isub z scale) (pw : Int) pz px g
        = some g' ∧
      GridInv W mc seed x z scale y_level shader_kind pw N (pz * pw + px + 1) g' := by
  obtain ⟨hd, hm⟩ := lin_div pz hpx
  have hb : pz * pw + px < g.biomes.size := by rw [inv.bsize]; exact hlt
  have upd : ∀ {α : Type} (f : Nat → α) (v c : α) (q : Nat), q < pz * pw + px + 1 →
      (q < pz * pw + px → f q = c) → (q = pz * pw + px → v = c) →
      Function.update f (pz * pw + px) v q = c := by
    intro α f v c q hq h1 h2
    by_cases e : q = pz * pw + px
    · rw [e, Function.update_same]; exact h2 e
    · rw [Function.update_noteq e]; exact h1 (by omega)
  have bnew : ∀ q, q < pz * pw + px + 1 →
      Function.update g.biomes.data (pz * pw + px)
        (W.getBiomeAt mc seed scale (iadd (isub x scale) (imul px scale)) y_level
          (iadd (isub z scale) (imul pz scale))) q
        = cell_biome W mc seed x z scale y_level (q % pw) (q / pw) := by
    intro q hq
    apply upd _ _ _ q hq (inv.bdata q)
    intro e; rw [e, hd, hm]; rfl
  simp only [fill_cell]
  rw [idx_eq pz pw px (by omega), write_ok _ _ _ hb]
  by_cases hs : shader_kind > 0
  · obtain ⟨h, hh, hsz, hdat⟩ := inv.hsome hs
    have hb2 : pz * pw + px < h.size := by rw [hsz]; exact hlt
    rw [hh]
    by_cases hmc : mc ≥ W.MC_1_18
    · simp only [Option.bind, if_pos hmc]
      rw [write_ok _ _ _ hb2]
      simp only []
      rw [write_ok _ _ _ (by exact hb2)]
      refine ⟨_, rfl, ⟨inv.bsize, bnew, fun _ => ⟨_, rfl, hsz, ?_⟩, fun c => absurd hs c⟩⟩
      intro q hq
      apply upd _ _ _ q hq
      · intro hq'
        show Function.update h.data (pz * pw + px) 64 q = _
        rw [Function.update_noteq (Nat.ne_of_lt hq')]
        exact hdat q hq'
      · intro e; rw [e, hd, hm]; simp only [cell_height, if_pos hmc]; rfl
    · simp only [Option.bind, if_neg hmc]
      rw [write_ok _ _ _ hb2]
      refine ⟨_, rfl, ⟨inv.bsize, bnew, fun _ => ⟨_, rfl, hsz, ?_⟩, fun c => absurd hs c⟩⟩
      intro q hq
      apply upd _ _ _ q hq (hdat q)
      intro e; rw [e, hd, hm]; simp only [cell_height, if_neg hmc]
  · rw [inv.hnone hs]
    exact ⟨_, rfl, ⟨inv.bsize, bnew, fun c => absurd c hs, fun _ => rfl⟩⟩

theorem fill_loops (W : World) (mc seed x z scale y_level shader_kind : Int)
    (pw ph : Nat) (g0 : Grids) (hN : pw * ph < 2147483648)
    (inv : GridInv W mc seed x z scale y_level shader_kind pw (pw * ph) 0 g0) :
    ∃ g, forRange (fun pz => forRange
        (fill_cell W mc seed scale y_level (isub x scale) (isub z scale) (pw : Int) pz) pw 0)
        ph 0 g0 = some g ∧
      GridInv W mc seed x z scale y_level shader_kind pw (pw * ph) (pw * ph) g := by
  have key := forRange_inv (fun pz => forRange
      (fill_cell W mc seed scale y_level (isub x scale) (isub z scale) (pw : Int) pz) pw 0)
    (fun j g => GridInv W mc seed x z scale y_level shader_kind pw (pw * ph) (j * pw) g)
    ph 0 g0 (by simpa using inv) (by
      intro pz g _ hz hg
      have hz' : pz < ph := by omega
      have row := forRange_inv
        (fill_cell W mc seed scale y_level (isub x scale) (isub z scale) (pw : Int) pz)
        (fun i g => GridInv W mc seed x z scale y_level shader_kind pw (pw * ph) (pz * pw + i) g)
        pw 0 g (by simpa using hg) (by
          intro px t _ hx ht
          have hx' : px < pw := by omega
          exact fill_cell_step W mc seed x z scale y_level shader_kind pw (pw * ph) pz px t
            hx' (lin_lt hz' hx') hN ht)
      obtain ⟨g', hg', hinv⟩ := row
      refine ⟨g', hg', ?_⟩
      show GridInv W mc seed x z scale y_level shader_kind pw (pw * ph) ((pz + 1) * pw) g'
      have : (pz + 1) * pw = pz * pw + (0 + pw) := by ring
      rw [this]; exact hinv)
  obtain ⟨g, hg, hinv⟩ := key
  refine ⟨g, hg, ?_⟩
  have hinv' : GridInv W mc seed x z scale y_level shader_kind pw (pw * ph) ((0 + ph) * pw) g :=
    hinv
  have : (0 + ph) * pw = pw * ph := by ring
  rw [this] at hinv'
  exact hinv'

theorem iadd_one (a : Nat) (h : a + 1 < 2147483648) : iadd (a : Int) 1 = ((a + 1 : Nat) : Int) := by
  unfold iadd; push_cast; exact wrap32_id (by omega) (by omega)

theorem iadd_two (a : Nat) (h : a + 2 < 2147483648) : iadd (a : Int) 2 = ((a + 2 : Nat) : Int) := by
  unfold iadd; push_cast; exact wrap32_id (by omega) (by omega)

theorem pad_lt {w h : Nat} (hp : (w + 2) * (h + 2) < 1073741824) :
    w + 2 < 536870912 ∧ h + 2 < 536870912 := by
  constructor <;> nlinarith

theorem grid_cells_eq (pw ph : Nat) (hp : pw * ph < 1073741824) :
    grid_cells (pw : Int) (ph : Int) = pw * ph := by
  have h1 : ((pw * ph : Nat) : Int) < 1073741824 := by exact_mod_cast hp
  push_cast at h1
  have h2 : (0 : Int) ≤ (pw : Int) * (ph : Int) := by positivity
  unfold grid_cells to_size_t imul
  rw [wrap32_id (by omega) (by omega)]
  have h3 : ((pw : Int) * (ph : Int) % 4294967296).toNat = pw * ph := by
    rw [Int.emod_eq_of_lt h2 (by omega)]
    have : (pw : Int) * (ph : Int) = ((pw * ph : Nat) : Int) := by push_cast; rfl
    rw [this, Int.toNat_natCast]
  rw [h3]
  omega

/-- With padded dimensions that fit, the first pair of loops fills the whole grid. -/
theorem fill_grid_ok (W : World) (hp : Heap) (seed x z scale mc shader_kind y_level : Int)
    (w h : Nat) (hpad : (w + 2) * (h + 2) < 1073741824) :
    ∃ g, fill_grid W hp seed x z (w : Int) (h : Int) scale mc shader_kind y_level = some g ∧
      GridInv W mc seed x z scale y_level shader_kind (w + 2) ((w + 2) * (h + 2))
        ((w + 2) * (h + 2)) g := by
  obtain ⟨hw, hh⟩ := pad_lt hpad
  simp only [fill_grid]
  rw [iadd_two w (by omega), iadd_two h (by omega), Int.toNat_natCast, Int.toNat_natCast,
    grid_cells_eq _ _ hpad]
  apply fill_loops W mc seed x z scale y_level shader_kind (w + 2) (h + 2) _ (by omega)
  refine ⟨rfl, fun q hq => absurd hq (Nat.not_lt_zero q), fun hs => ?_, fun hs => ?_⟩
  · exact ⟨_, if_pos hs, rfl, fun q hq => absurd hq (Nat.not_lt_zero q)⟩
  · exact if_neg hs

/-! ## Pixels -/

theorem mask_ff_eq (b : Int) : mask_ff b = b % 256 := by
  have h1 : (255 : Nat) = 2 ^ 8 - 1 := by norm_num
  unfold mask_ff to_size_t
  rw [h1, Nat.and_pow_two_sub_one_eq_mod]
  omega

theorem grid_read (pw ph : Nat) (hts : Block Int) (f : Nat → Nat → Int)
    (hN : pw * ph < 1073741824) (hsz : hts.size = pw * ph)
    (hdat : ∀ q, q < pw * ph → hts.data q = f (q % pw) (q / pw))
    (j i : Nat) (hj : j < ph) (hi : i < pw) :
    hts.read (iadd (imul (j : Int) (pw : Int)) (i : Int)) = some (f i j) := by
  have hlt := lin_lt hj hi
  obtain ⟨hd, hm⟩ := lin_div j hi
  rw [idx_eq j pw i (by omega), read_ok _ _ (by rw [hsz]; exact hlt), hdat _ hlt, hd, hm]

theorem pixel_light_eq (W : World) (mc seed x z scale shader_kind : Int) (w h : Nat)
    (hts : Block Int) (hpad : (w + 2) * (h + 2) < 1073741824)
    (hsz : hts.size = (w + 2) * (h + 2))
    (hdat : ∀ q, q < (w + 2) * (h + 2) →
      hts.data q = cell_height W mc seed x z scale (q % (w + 2)) (q / (w + 2)))
    (px py : Nat) (hx : px < w) (hy : py < h) :
    pixel_light hts ((w + 2 : Nat) : Int) scale shader_kind py px
      = some (light_at W mc seed x z scale shader_kind px py) := by
  obtain ⟨hw, hh⟩ := pad_lt hpad
  have rd := grid_read (w + 2) (h + 2) hts (cell_height W mc seed x z scale) hpad hsz hdat
  simp only [pixel_light, light_at]
  rw [iadd_one px (by omega), iadd_two px (by omega), iadd_one py (by omega),
    iadd_two py (by omega)]
  rw [rd py (px + 1) (by omega) (by omega), rd (py + 2) (px + 1) (by omega) (by omega),
    rd (py + 1) (px + 2) (by omega) (by omega), rd (py + 1) px (by omega) (by omega),
    rd (py + 1) (px + 1) (by omega) (by omega)]
  simp only [Option.bind]
  split_ifs <;> rfl

theorem pixel_color_eq (W : World) (mc seed x z scale shader_kind y_level : Int) (w h : Nat)
    (g : Grids) (hpad : (w + 2) * (h + 2) < 1073741824)
    (inv : GridInv W mc seed x z scale y_level shader_kind (w + 2) ((w + 2) * (h + 2))
      ((w + 2) * (h + 2)) g)
    (px py : Nat) (hx : px < w) (hy : py < h) :
    pixel_color W g ((w + 2 : Nat) : Int) scale shader_kind py px
      = pixel_spec W mc seed x z scale shader_kind y_level px py := by
  obtain ⟨hw, hh⟩ := pad_lt hpad
  have rd := grid_read (w + 2) (h + 2) g.biomes (cell_biome W mc seed x z scale y_level) hpad
    inv.bsize inv.bdata
  simp only [pixel_color, pixel_spec, mask_ff_eq]
  rw [iadd_one px (by omega), iadd_one py (by omega),
    rd (py + 1) (px + 1) (by omega) (by omega)]
  by_cases hs : shader_kind > 0
  · obtain ⟨hts, hh', hsz, hdat⟩ := inv.hsome hs
    rw [hh', Option.some_bind]
    simp only [if_pos hs]
    rw [pixel_light_eq W mc seed x z scale shader_kind w h hts hpad hsz hdat px py hx hy]
    rfl
  · rw [inv.hnone hs, Option.some_bind]
    simp only [if_neg hs]

/-! ## Shading of a channel -/

theorem roundQ_nat (c : Nat) (h : c < 16777216) : roundQ (c : ℚ) = c := by
  rcases Nat.eq_zero_or_pos c with h0 | hpos
  · rw [h0]; simpa using roundQ_zero
  · have hc : (0 : ℚ) < (c : ℚ) := by exact_mod_cast hpos
    have h1 : (0 : ℤ) ≤ Int.log 2 (c : ℚ) := by
      rw [← Int.zpow_le_iff_le_log (by norm_num) hc]
      have : (1 : ℚ) ≤ (c : ℚ) := by exact_mod_cast hpos
      simpa using this
    have h2 : Int.log 2 (c : ℚ) < 24 := by
      rw [← Int.lt_zpow_iff_log_lt (by norm_num) hc]
      exact lt_of_lt_of_le (b := (16777216 : ℚ)) (by exact_mod_cast h) (by norm_num)
    have hb : binade (c : ℚ) = Int.log 2 (c : ℚ) := by
      unfold binade
      rw [abs_of_pos hc]
      exact max_eq_left (by omega)
    unfold roundQ
    rw [hb]
    obtain ⟨k, hk⟩ : ∃ k : ℕ, (k : ℤ) = 23 - Int.log 2 (c : ℚ) := ⟨(23 - Int.log 2 (c : ℚ)).toNat, by omega⟩
    have he : Int.log 2 (c : ℚ) - 23 = -(k : ℤ) := by omega
    rw [he, zpow_neg, zpow_natCast]
    have hdiv : (c : ℚ) / ((2 : ℚ) ^ k)⁻¹ = ((c * 2 ^ k : ℤ) : ℚ) := by
      rw [div_inv_eq_mul]; push_cast; ring
    rw [hdiv, roundEven_intCast]
    push_cast
    field_simp

theorem shade_channel_fin (c : Nat) (l : ℚ) (hc : c < 256) (h0 : 0 ≤ l) (h1 : l ≤ 3 / 2) :
    shade_channel c (F32.fin l) = some (shade_q c l) := by
  have hcq : (c : ℚ) ≤ 255 := by
    have : c ≤ 255 := by omega
    exact_mod_cast this
  have hc0 : (0 : ℚ) ≤ (c : ℚ) := by positivity
  have hprod0 : 0 ≤ (c : ℚ) * l := mul_nonneg hc0 h0
  have hprod : (c : ℚ) * l ≤ 512 := by nlinarith
  have hB : roundQ 512 = 512 := by
    have := roundQ_pow 9 (by norm_num)
    norm_num at this ⊢
    exact this
  have hr0 := roundQ_nonneg hprod0
  have hr1 := roundQ_le hB hprod0 hprod
  unfold shade_channel F32.ofInt
  rw [Int.cast_natCast, round_fin (by
    rw [abs_of_nonneg hc0]
    exact le_trans hcq (by norm_num)), roundQ_nat c (by omega)]
  simp only [F32.mul]
  rw [round_fin (by rw [abs_of_nonneg hprod0]; exact le_trans hprod (by norm_num))]
  simp only [F32.toU8]
  rw [if_pos ⟨by linarith, by linarith⟩]
  rfl

theorem light_at_fin (W : World) (mc seed x z scale shader_kind : Int) (px py : Nat)
    (hs : 0 < scale) :
    ∃ l, light_at W mc seed x z scale shader_kind px py = F32.fin l ∧ light_min ≤ l ∧
      l ≤ 3 / 2 ∧ (shader_kind ≠ 2 → 1 / 2 ≤ l) := by
  obtain ⟨mq, hmq, m0, m1⟩ := scale_mul_fin scale hs
  have hl := hillshade_fin
    (cell_height W mc seed x z scale (px + 1) py)
    (cell_height W mc seed x z scale (px + 1) (py + 2))
    (cell_height W mc seed x z scale (px + 2) (py + 1))
    (cell_height W mc seed x z scale px (py + 1)) (F32.ofInt scale) mq hmq m0 m1
  generalize light_raw (cell_height W mc seed x z scale (px + 1) py)
    (cell_height W mc seed x z scale (px + 1) (py + 2))
    (cell_height W mc seed x z scale (px + 2) (py + 1))
    (cell_height W mc seed x z scale px (py + 1)) mq = raw at hl
  have b0 : (1 : ℚ) / 2 ≤ min (max raw (1 / 2)) (3 / 2) :=
    le_min (le_max_right _ _) (by norm_num)
  have b1 : min (max raw (1 / 2)) (3 / 2) ≤ 3 / 2 := min_le_right _ _
  have hmin : light_min ≤ 1 / 2 := by unfold light_min; norm_num
  simp only [light_at]
  rw [hl]
  by_cases h2 : shader_kind = 2
  · rw [if_pos h2]
    split_ifs with hband
    · rw [c095_eq]
      simp only [F32.mul]
      have hp0 : 0 ≤ min (max raw (1 / 2)) (3 / 2) * (15938355 / 16777216) := by positivity
      have hp1 : min (max raw (1 / 2)) (3 / 2) * (15938355 / 16777216) ≤ 3 / 2 := by nlinarith
      have hp2 : light_min ≤ min (max raw (1 / 2)) (3 / 2) * (15938355 / 16777216) := by
        unfold light_min; nlinarith
      have hexact : roundQ light_min = light_min := by
        unfold light_min
        apply roundQ_exact (-2) 15938355 (by norm_num) <;> norm_num [abs_of_pos]
      rw [round_fin (by rw [abs_of_nonneg hp0]; exact le_trans hp1 (by norm_num))]
      exact ⟨_, rfl, le_roundQ hexact (by unfold light_min; norm_num) hp2,
        roundQ_le roundQ_three_halves hp0 hp1, fun c => absurd h2 c⟩
    · exact ⟨_, rfl, le_trans hmin b0, b1, fun _ => b0⟩
  · rw [if_neg h2]
    exact ⟨_, rfl, le_trans hmin b0, b1, fun _ => b0⟩

theorem pixel_spec_shaded (W : World) (mc seed x z scale shader_kind y_level : Int)
    (px py : Nat) (l : ℚ) (hk : shader_kind > 0)
    (hl : light_at W mc seed x z scale shader_kind px py = F32.fin l) (h0 : 0 ≤ l)
    (h1 : l ≤ 3 / 2) :
    pixel_spec W mc seed x z scale shader_kind y_level px py = some
      (shade_q (W.biomeColors (cell_biome W mc seed x z scale y_level (px + 1) (py + 1) % 256).toNat 0) l,
       shade_q (W.biomeColors (cell_biome W mc seed x z scale y_level (px + 1) (py + 1) % 256).toNat 1) l,
       shade_q (W.biomeColors (cell_biome W mc seed x z scale y_level (px + 1) (py + 1) % 256).toNat 2) l) := by
  simp only [pixel_spec]
  rw [if_pos hk, hl, shade_channel_fin _ l (W.color_lt _ _) h0 h1,
    shade_channel_fin _ l (W.color_lt _ _) h0 h1, shade_channel_fin _ l (W.color_lt _ _) h0 h1]
  rfl

theorem pixel_spec_some (W : World) (mc seed x z scale shader_kind y_level : Int)
    (px py : Nat) (hs : shader_kind > 0 → 0 < scale) :
    ∃ col, pixel_spec W mc seed x z scale shader_kind y_level px py = some col := by
  by_cases hk : shader_kind > 0
  · obtain ⟨l, hl, l0, l1, _⟩ := light_at_fin W mc seed x z scale shader_kind px py (hs hk)
    have hmin : (0 : ℚ) ≤ light_min := by unfold light_min; norm_num
    exact ⟨_, pixel_spec_shaded W mc seed x z scale shader_kind y_level px py l hk hl
      (le_trans hmin l0) l1⟩
  · simp only [pixel_spec]
    rw [if_neg hk]
    exact ⟨_, rfl⟩

/-! ## The image -/

theorem pix_idx (k c : Nat) (h : 4 * k + c < 2147483648) (ci : Int) (hc : ci = (c : Int)) :
    iadd (imul (k : Int) 4) ci = ((4 * k + c : Nat) : Int) := by
  subst hc
  unfold iadd imul
  push_cast
  have e : wrap32 ((k : Int) * 4) = (k : Int) * 4 := wrap32_id (by omega) (by omega)
  rw [e, wrap32_id (by omega) (by omega)]
  ring

theorem write_pixel_step (W : World) (g : Grids) (w : Nat) (pw scale shader_kind : Int)
    (col : Nat → Nat → Nat × Nat × Nat) (buf0 buf : Block Nat) (py px : Nat) (hpx : px < w)
    (hk : 4 * (py * w + px) + 3 < buf0.size) (hk31 : 4 * (py * w + px) + 3 < 2147483648)
    (hcol : pixel_color W g pw scale shader_kind py px = some (col px py))
    (inv : ImgInv col w buf0 (py * w + px) buf) :
    ∃ buf', write_pixel W g (w : Int) pw scale shader_kind py px buf = some buf' ∧
      ImgInv col w buf0 (py * w + px + 1) buf' := by
  obtain ⟨hd, hm⟩ := lin_div py hpx
  have hsz := inv.size_eq
  simp only [write_pixel]
  rw [hcol, Option.some_bind, idx_eq py w px (by omega),
    pix_idx _ 0 (by omega) 0 rfl, pix_idx _ 1 (by omega) 1 rfl,
    pix_idx _ 2 (by omega) 2 rfl, pix_idx _ 3 (by omega) 3 rfl]
  rw [write_ok _ _ _ (by omega), Option.some_bind]
  rw [write_ok _ _ _ (by show _ < buf.size; omega), Option.some_bind]
  rw [write_ok _ _ _ (by show _ < buf.size; omega), Option.some_bind]
  rw [write_ok _ _ _ (by show _ < buf.size; omega)]
  refine ⟨_, rfl, ⟨hsz, ?_, ?_⟩⟩
  · intro p hp
    simp only [Function.update_apply]
    by_cases e : p = py * w + px
    · subst e
      rw [hd, hm]
      refine ⟨?_, ?_, ?_, ?_⟩
      · rw [if_neg (by omega), if_neg (by omega), if_neg (by omega), if_pos (by omega)]
      · rw [if_neg (by omega), if_neg (by omega), if_pos (by omega)]
      · rw [if_neg (by omega), if_pos (by omega)]
      · rw [if_pos (by omega)]
    · have hp' : p < py * w + px := by omega
      obtain ⟨a0, a1, a2, a3⟩ := inv.pix p hp'
      refine ⟨?_, ?_, ?_, ?_⟩ <;>
        rw [if_neg (by omega), if_neg (by omega), if_neg (by omega), if_neg (by omega)] <;>
        assumption
  · intro q hq
    simp only [Function.update_apply]
    rw [if_neg (by omega), if_neg (by omega), if_neg (by omega), if_neg (by omega)]
    exact inv.rest q (by omega)

theorem image_loops (W : World) (g : Grids) (w h : Nat) (pw scale shader_kind : Int)
    (col : Nat → Nat → Nat × Nat × Nat) (buf0 : Block Nat)
    (hsz : 4 * (w * h) ≤ buf0.size) (h31 : 4 * (w * h) ≤ 2147483648)
    (hcol : ∀ px py, px < w → py < h →
      pixel_color W g pw scale shader_kind py px = some (col px py)) :
    ∃ buf, forRange (fun py => forRange
        (write_pixel W g (w : Int) pw scale shader_kind py) w 0) h 0 buf0 = some buf ∧
      ImgInv col w buf0 (w * h) buf := by
  have key := forRange_inv (fun py => forRange
      (write_pixel W g (w : Int) pw scale shader_kind py) w 0)
    (fun j b => ImgInv col w buf0 (j * w) b) h 0 buf0
    (by exact ⟨rfl, fun p hp => absurd hp (by omega), fun q _ => rfl⟩) (by
      intro py b _ hy hb
      have hy' : py < h := by omega
      have row := forRange_inv (write_pixel W g (w : Int) pw scale shader_kind py)
        (fun i b => ImgInv col w buf0 (py * w + i) b) w 0 b (by simpa using hb) (by
          intro px t _ hx ht
          have hx' : px < w := by omega
          have hlt := lin_lt hy' hx'
          exact write_pixel_step W g w pw scale shader_kind col buf0 t py px hx' (by omega)
            (by omega) (hcol px py hx' hy') ht)
      obtain ⟨b', hb', hinv⟩ := row
      refine ⟨b', hb', ?_⟩
      show ImgInv col w buf0 ((py + 1) * w) b'
      have : (py + 1) * w = py * w + (0 + w) := by ring
      rw [this]; exact hinv)
  obtain ⟨buf, hbuf, hinv⟩ := key
  refine ⟨buf, hbuf, ?_⟩
  have hinv' : ImgInv col w buf0 ((0 + h) * w) buf := hinv
  have : (0 + h) * w = w * h := by ring
  rw [this] at hinv'
  exact hinv'

/-! ## The whole call -/

theorem img_size_eq (w h : Nat) (hsz : 4 * (w * h) < 4294967296) :
    img_size (w : Int) (h : Int) = 4 * (w * h) := by
  have h1 : ((4 * (w * h) : Nat) : Int) < 4294967296 := by exact_mod_cast hsz
  push_cast at h1
  have h2 : (0 : Int) ≤ (w : Int) * (h : Int) := by positivity
  unfold img_size to_size_t imul wrap32
  have h3 : (((((w : Int) * (h : Int) + 2147483648) % 4294967296 - 2147483648) * 4 + 2147483648)
      % 4294967296 - 2147483648) % 4294967296 = ((4 * (w * h) : Nat) : Int) := by
    push_cast; omega
  rw [h3, Int.toNat_natCast]

theorem malloc_image_ok (hp : Heap) (size : Nat) (h : size ≤ 2147483648) :
    malloc_image hp size = some ⟨size, fun i => hp.image i % 256⟩ := by
  unfold malloc_image
  rw [if_pos (Or.inl h)]

theorem malloc_image_size (hp : Heap) (size : Nat) (b : Block Nat)
    (h : malloc_image hp size = some b) : b.size = size := by
  unfold malloc_image at h
  split_ifs at h
  rw [← Option.some.inj h]

theorem wf_sized {m : Mem} (hm : m.wf) : m.sized := by
  intro b hb
  unfold Mem.wf at hm
  rw [hb] at hm
  exact hm

theorem ensure_buffer_sized (hp : Heap) (m : Mem) (width height : Int) (hm : m.sized) :
    (ensure_buffer hp m width height).sized := by
  unfold ensure_buffer
  split_ifs with c
  · intro b hb
    exact malloc_image_size hp _ b hb
  · exact hm

theorem ensure_buffer_cap (hp : Heap) (m : Mem) (width height : Int) :
    (ensure_buffer hp m width height).image_buffer_size
      = (if m.image_buffer.isNone ∨ m.image_buffer_size < img_size width height
        then img_size width height else m.image_buffer_size) := by
  unfold ensure_buffer
  split_ifs <;> rfl

/-- With a request of at most `2^31` bytes the buffer after the allocation check is
live. -/
theorem ensure_buffer_live (hp : Heap) (m : Mem) (width height : Int) (hm : m.sized)
    (hsz : img_size width height ≤ 2147483648) :
    ∃ b1, (ensure_buffer hp m width height).image_buffer = some b1 ∧
      b1.size = (ensure_buffer hp m width height).image_buffer_size ∧
      img_size width height ≤ b1.size := by
  have hs := ensure_buffer_sized hp m width height hm
  unfold ensure_buffer at hs ⊢
  by_cases c : m.image_buffer.isNone ∨ m.image_buffer_size < img_size width height
  · rw [if_pos c] at hs ⊢
    exact ⟨_, malloc_image_ok hp _ hsz, rfl, le_refl _⟩
  · rw [if_neg c] at hs ⊢
    push_neg at c
    obtain ⟨c1, c2⟩ := c
    cases hb : m.image_buffer with
    | none => rw [hb] at c1; simp at c1
    | some b => exact ⟨b, rfl, hm b hb, by rw [hm b hb]; exact c2⟩

theorem ensure_buffer_spec (hp : Heap) (m : Mem) (width height : Int) (hm : m.wf)
    (hsz : img_size width height ≤ 2147483648) :
    ∃ b1, (ensure_buffer hp m width height).image_buffer = some b1 ∧
      b1.size = (ensure_buffer hp m width height).image_buffer_size ∧
      (ensure_buffer hp m width height).image_buffer_size
        = max m.image_buffer_size (img_size width height) := by
  obtain ⟨b1, hb1, hb1s, _⟩ := ensure_buffer_live hp m width height (wf_sized hm) hsz
  refine ⟨b1, hb1, hb1s, ?_⟩
  rw [ensure_buffer_cap]
  split_ifs with c
  · rcases c with c | c
    · unfold Mem.wf at hm
      cases hb : m.image_buffer with
      | none => rw [hb] at hm; simp only at hm; rw [hm]; simp
      | some b => rw [hb] at c; simp at c
    · exact (max_eq_right c.le).symm
  · push_neg at c
    exact (max_eq_left c.2).symm

/-- Total correctness of `generate_biome_image` for dimensions that fit and a buffer
that holds the image: the call returns, and the image consists of the pixels
`pixel_spec`, each with alpha 255; the bytes behind the image are those of the buffer
after the allocation check. -/
theorem generate_run (W : World) (hp : Heap) (m : Mem) (seed_lo seed_hi : Nat)
    (x z : Int) (w h : Nat) (scale mc shader_kind y_level : Int) (b1 : Block Nat)
    (hdim : w * h ≤ 536870912) (hpad : (w + 2) * (h + 2) < 1073741824)
    (hb1 : (ensure_buffer hp m (w : Int) (h : Int)).image_buffer = some b1)
    (hb1s : 4 * (w * h) ≤ b1.size)
    (hspec : ∀ px py, px < w → py < h → ∃ col,
      pixel_spec W mc (seed64 seed_lo seed_hi) x z scale shader_kind y_level px py = some col) :
    ∃ buf, generate_biome_image W hp m seed_lo seed_hi x z (w : Int) (h : Int) scale mc
        shader_kind y_level
        = some (⟨some buf, (ensure_buffer hp m (w : Int) (h : Int)).image_buffer_size⟩,
          4 * (w * h)) ∧
      buf.size = b1.size ∧
      (∀ px py, px < w → py < h → ∃ col,
        pixel_spec W mc (seed64 seed_lo seed_hi) x z scale shader_kind y_level px py = some col ∧
        buf.data (4 * (py * w + px)) = col.1 ∧ buf.data (4 * (py * w + px) + 1) = col.2.1 ∧
        buf.data (4 * (py * w + px) + 2) = col.2.2 ∧ buf.data (4 * (py * w + px) + 3) = 255) ∧
      (∀ q, 4 * (w * h) ≤ q → buf.data q = b1.data q) := by
  have hsz : img_size (w : Int) (h : Int) = 4 * (w * h) := img_size_eq w h (by omega)
  obtain ⟨g, hg, ginv⟩ := fill_grid_ok W hp (seed64 seed_lo seed_hi) x z scale mc shader_kind
    y_level w h hpad
  obtain ⟨hw2, _⟩ := pad_lt hpad
  have hcol : ∀ px py, px < w → py < h →
      pixel_color W g ((w + 2 : Nat) : Int) scale shader_kind py px
        = some ((pixel_spec W mc (seed64 seed_lo seed_hi) x z scale shader_kind y_level
            px py).getD (0, 0, 0)) := by
    intro px py hx hy
    rw [pixel_color_eq W mc (seed64 seed_lo seed_hi) x z scale shader_kind y_level w h g hpad
      ginv px py hx hy]
    obtain ⟨c, hc⟩ := hspec px py hx hy
    rw [hc]; rfl
  obtain ⟨buf, hbuf, binv⟩ := image_loops W g w h ((w + 2 : Nat) : Int) scale shader_kind
    (fun px py => (pixel_spec W mc (seed64 seed_lo seed_hi) x z scale shader_kind y_level
      px py).getD (0, 0, 0)) b1 hb1s (by omega) hcol
  refine ⟨buf, ?_, binv.size_eq, ?_, ?_⟩
  · simp only [generate_biome_image]
    rw [hg, Option.some_bind, hb1]
    simp only []
    rw [iadd_two w (by omega), Int.toNat_natCast, Int.toNat_natCast, hbuf, Option.some_bind,
      hsz]
  · intro px py hx hy
    obtain ⟨c, hc⟩ := hspec px py hx hy
    obtain ⟨hd, hmod⟩ := lin_div py hx
    have hp := binv.pix (py * w + px) (lin_lt hy hx)
    rw [hd, hmod] at hp
    simp only [hc, Option.getD_some] at hp
    exact ⟨c, hc, hp⟩
  · intro q hq
    exact binv.rest q hq

/-- With consistent statics the buffer after the allocation check holds the image. -/
theorem ensure_buffer_holds (hp : Heap) (m : Mem) (w h : Nat) (hm : m.wf)
    (hdim : w * h ≤ 536870912) :
    ∃ b1, (ensure_buffer hp m (w : Int) (h : Int)).image_buffer = some b1 ∧
      4 * (w * h) ≤ b1.size ∧
      b1.size = (ensure_buffer hp m (w : Int) (h : Int)).image_buffer_size ∧
      (ensure_buffer hp m (w : Int) (h : Int)).image_buffer_size
        = max m.image_buffer_size (4 * (w * h)) := by
  have hsz : img_size (w : Int) (h : Int) = 4 * (w * h) := img_size_eq w h (by omega)
  obtain ⟨b1, hb1, hb1s, hcap⟩ := ensure_buffer_spec hp m (w : Int) (h : Int) hm
    (by rw [hsz]; omega)
  rw [hsz] at hcap
  exact ⟨b1, hb1, by rw [hb1s, hcap]; exact le_max_right _ _, hb1s, hcap⟩

/-! ## Calls that return -/

theorem forRange_some {σ : Type} (body : Nat → σ → Option σ) (Q : σ → Prop)
    (hQ : ∀ i t t', Q t → body i t = some t' → Q t') :
    ∀ (n lo : Nat) (s s' : σ), Q s → forRange body n lo s = some s' →
      Q s' ∧ ∀ i, lo ≤ i → i < lo + n → ∃ t t', Q t ∧ body i t = some t' := by
  intro n
  induction n with
  | zero =>
    intro lo s s' hs h
    have : s = s' := by simpa [forRange] using h
    exact ⟨this ▸ hs, fun i h1 h2 => absurd h2 (by omega)⟩
  | succ n ih =>
    intro lo s s' hs h
    have h' : (body lo s).bind (forRange body n (lo + 1)) = some s' := h
    cases hb : body lo s with
    | none => rw [hb] at h'; exact absurd h' (by simp)
    | some t =>
      rw [hb, Option.some_bind] at h'
      obtain ⟨q, hall⟩ := ih (lo + 1) t s' (hQ lo s t hs hb) h'
      refine ⟨q, fun i h1 h2 => ?_⟩
      by_cases e : i = lo
      · exact ⟨s, t, hs, e ▸ hb⟩
      · exact hall i (by omega) (by omega)

theorem write_some {α : Type} {b b' : Block α} {i : Int} {v : α} (h : b.write i v = some b') :
    b'.size = b.size ∧ 0 ≤ i ∧ i.toNat < b.size := by
  unfold Block.write at h
  by_cases c : 0 ≤ i ∧ i.toNat < b.size
  · rw [if_pos c] at h
    have : b' = ⟨b.size, Function.update b.data i.toNat v⟩ := by
      simpa using h.symm
    rw [this]
    exact ⟨rfl, c⟩
  · rw [if_neg c] at h
    exact absurd h (by simp)

theorem read_some {α : Type} {b : Block α} {i : Int} {v : α} (h : b.read i = some v) :
    0 ≤ i ∧ i.toNat < b.size := by
  unfold Block.read at h
  by_cases c : 0 ≤ i ∧ i.toNat < b.size
  · exact c
  · rw [if_neg c] at h
    exact absurd h (by simp)

theorem bind_some {α β : Type} {o : Option α} {f : α → Option β} {b : β}
    (h : o.bind f = some b) : ∃ a, o = some a ∧ f a = some b := by
  cases o with
  | none => exact absurd h (by simp)
  | some a => exact ⟨a, rfl, h⟩

theorem fill_cell_some (W : World) (mc seed scale y_level sx sz pw : Int) (pz px : Nat)
    (g g' : Grids) (h : fill_cell W mc seed scale y_level sx sz pw pz px g = some g') :
    g'.biomes.size = g.biomes.size ∧ 0 ≤ iadd (imul pz pw) px ∧
      (iadd (imul pz pw) px).toNat < g.biomes.size := by
  simp only [fill_cell] at h
  obtain ⟨b, hb, hrest⟩ := bind_some h
  obtain ⟨hsz, hin⟩ := write_some hb
  refine ⟨?_, hin⟩
  cases hh : g.heights with
  | none =>
    rw [hh] at hrest
    simp only [Option.some.injEq] at hrest
    rw [← hrest]; exact hsz
  | some hts =>
    rw [hh] at hrest
    simp only at hrest
    split_ifs at hrest
    · obtain ⟨h1, _, hr1⟩ := bind_some hrest
      obtain ⟨h2, _, hr2⟩ := bind_some hr1
      simp only [Option.some.injEq] at hr2
      rw [← hr2]; exact hsz
    · obtain ⟨h1, _, hr1⟩ := bind_some hrest
      simp only [Option.some.injEq] at hr1
      rw [← hr1]; exact hsz

theorem fill_grid_some (W : World) (hp : Heap) (seed x z width height scale mc shader_kind
    y_level : Int) (g : Grids)
    (h : fill_grid W hp seed x z width height scale mc shader_kind y_level = some g) :
    g.biomes.size = grid_cells (iadd width 2) (iadd height 2) ∧
      ∀ pz px : Nat, pz < (iadd height 2).toNat → px < (iadd width 2).toNat →
        0 ≤ iadd (imul pz (iadd width 2)) px ∧
        (iadd (imul pz (iadd width 2)) px).toNat < grid_cells (iadd width 2) (iadd height 2) := by
  simp only [fill_grid] at h
  have inner : ∀ pz i t t', t.biomes.size = grid_cells (iadd width 2) (iadd height 2) →
      fill_cell W mc seed scale y_level (isub x scale) (isub z scale) (iadd width 2) pz i t
        = some t' → t'.biomes.size = grid_cells (iadd width 2) (iadd height 2) := by
    intro pz i t t' ht hc
    rw [(fill_cell_some _ _ _ _ _ _ _ _ _ _ _ _ hc).1]; exact ht
  have outer := forRange_some _ (fun t : Grids => t.biomes.size
      = grid_cells (iadd width 2) (iadd height 2))
    (fun pz t t' ht hc => (forRange_some _ _ (inner pz) _ 0 t t' ht hc).1)
    _ 0 _ g rfl h
  refine ⟨outer.1, fun pz px hz hx => ?_⟩
  obtain ⟨t, t', ht, hrow⟩ := outer.2 pz (by omega) (by omega)
  obtain ⟨u, u', hu, hcell⟩ := (forRange_some _ _ (inner pz) _ 0 t t' ht hrow).2 px (by omega)
    (by omega)
  have := fill_cell_some _ _ _ _ _ _ _ _ _ _ _ _ hcell
  rw [hu] at this
  exact this.2

theorem pixel_color_some (W : World) (g : Grids) (pw scale shader_kind : Int) (py px : Nat)
    (c : Nat × Nat × Nat) (h : pixel_color W g pw scale shader_kind py px = some c) :
    0 ≤ iadd (imul (iadd py 1) pw) (iadd px 1) ∧
      (iadd (imul (iadd py 1) pw) (iadd px 1)).toNat < g.biomes.size := by
  simp only [pixel_color] at h
  obtain ⟨b, hb, _⟩ := bind_some h
  exact read_some hb

theorem write_pixel_some (W : World) (g : Grids) (width pw scale shader_kind : Int)
    (py px : Nat) (buf buf' : Block Nat)
    (h : write_pixel W g width pw scale shader_kind py px buf = some buf') :
    buf'.size = buf.size ∧ (∃ c, pixel_color W g pw scale shader_kind py px = some c) ∧
      0 ≤ iadd (imul (iadd (imul py width) px) 4) 0 ∧
      0 ≤ iadd (imul (iadd (imul py width) px) 4) 3 ∧
      (iadd (imul (iadd (imul py width) px) 4) 3).toNat < buf.size := by
  simp only [write_pixel] at h
  obtain ⟨c, hc, h0⟩ := bind_some h
  obtain ⟨i1, w1, h1⟩ := bind_some h0
  obtain ⟨i2, w2, h2⟩ := bind_some h1
  obtain ⟨i3, w3, h3⟩ := bind_some h2
  obtain ⟨s1, a1, _⟩ := write_some w1
  obtain ⟨s2, _, _⟩ := write_some w2
  obtain ⟨s3, _, _⟩ := write_some w3
  obtain ⟨s4, a4, b4⟩ := write_some h3
  refine ⟨by rw [s4, s3, s2, s1], ⟨c, hc⟩, a1, a4, ?_⟩
  rw [s3, s2, s1] at b4
  exact b4

theorem grid_cells_mod (pw ph : Nat) :
    grid_cells (pw : Int) (ph : Int) = (pw * ph) % 1073741824 := by
  have hX : (pw : Int) * (ph : Int) = ((pw * ph : Nat) : Int) := by push_cast; rfl
  unfold grid_cells to_size_t imul wrap32
  rw [hX]
  generalize pw * ph = N
  omega

theorem to_size_t_wrap32 (n : Int) : to_size_t (wrap32 n) = (n % 4294967296).toNat := by
  unfold to_size_t wrap32; omega

theorem grid_cells_min (p : Int) : grid_cells p (-2147483648) = 0 := by
  unfold grid_cells imul
  rw [to_size_t_wrap32]
  omega

theorem grid_cells_min_succ (p : Nat) :
    grid_cells (p : Int) (-2147483647) = p % 1073741824 := by
  unfold grid_cells imul
  rw [to_size_t_wrap32]
  omega

theorem pad_int (w h : Nat) (hwr : w < 2147483648) (hhr : h < 2147483648)
    (hin : 0 ≤ iadd (imul (iadd ((0 : Nat) : Int) 1) (iadd (w : Int) 2))
        (iadd ((0 : Nat) : Int) 1) ∧
      (iadd (imul (iadd ((0 : Nat) : Int) 1) (iadd (w : Int) 2))
        (iadd ((0 : Nat) : Int) 1)).toNat < grid_cells (iadd (w : Int) 2) (iadd (h : Int) 2)) :
    w + 2 < 2147483648 ∧ h + 2 < 2147483648 := by
  have e1 : iadd ((0 : Nat) : Int) 1 = 1 := by decide
  rw [e1, show imul 1 (iadd (w : Int) 2) = wrap32 (iadd (w : Int) 2) by
    unfold imul; rw [one_mul]] at hin
  by_contra hcon
  by_cases cw : w + 2 < 2147483648
  · have hcase : h = 2147483646 ∨ h = 2147483647 := by omega
    rw [iadd_two w cw] at hin
    have hidx : (iadd (wrap32 ((w + 2 : Nat) : Int)) 1).toNat = w + 3 ∨
        iadd (wrap32 ((w + 2 : Nat) : Int)) 1 < 0 := by
      unfold iadd wrap32; push_cast; omega
    rcases hcase with e | e
    · rw [e, show iadd ((2147483646 : Nat) : Int) 2 = -2147483648 by decide,
        grid_cells_min] at hin
      omega
    · rw [e, show iadd ((2147483647 : Nat) : Int) 2 = -2147483647 by decide,
        grid_cells_min_succ] at hin
      omega
  · have := hin.1
    unfold iadd wrap32 at this
    omega

theorem null_loops (w h : Nat) (hw : 0 < w) (hh : 0 < h) :
    forRange (fun _ => forRange (fun _ (_ : Unit) => (none : Option Unit)) w 0) h 0 ()
      = none := by
  obtain ⟨w', rfl⟩ : ∃ w', w = w' + 1 := ⟨w - 1, by omega⟩
  obtain ⟨h', rfl⟩ : ∃ h', h = h' + 1 := ⟨h - 1, by omega⟩
  simp [forRange]

theorem null_loops_idle (w h : Nat) (hz : w = 0 ∨ h = 0) :
    ∀ i, forRange (fun _ => forRange (fun _ (_ : Unit) => (none : Option Unit)) w 0) h i ()
      = some () := by
  rcases hz with hz | hz
  · subst hz
    induction h with
    | zero => intro i; rfl
    | succ n ih =>
      intro i
      show (some ()).bind _ = some ()
      exact ih (i + 1)
  · subst hz
    intro i; rfl

/-- A call that returns has dimensions that fit, and a buffer that holds the image. -/
theorem generate_some (W : World) (hp : Heap) (m : Mem) (seed_lo seed_hi : Nat)
    (x z : Int) (w h : Nat) (scale mc shader_kind y_level : Int) (res : Mem × Nat)
    (hw : 0 < w) (hh : 0 < h) (hwr : w < 2147483648) (hhr : h < 2147483648)
    (hret : generate_biome_image W hp m seed_lo seed_hi x z (w : Int) (h : Int) scale mc
      shader_kind y_level = some res) :
    w * h ≤ 536870912 ∧ (w + 2) * (h + 2) < 1073741824 ∧
      (∃ b1, (ensure_buffer hp m (w : Int) (h : Int)).image_buffer = some b1 ∧
        4 * (w * h) ≤ b1.size) ∧
      ∀ px py, px < w → py < h → ∃ col,
        pixel_spec W mc (seed64 seed_lo seed_hi) x z scale shader_kind y_level px py
          = some col := by
  simp only [generate_biome_image] at hret
  obtain ⟨g, hg, hrest⟩ := bind_some hret
  cases hb : (ensure_buffer hp m (w : Int) (h : Int)).image_buffer with
  | none =>
    rw [hb] at hrest
    simp only at hrest
    rw [Int.toNat_natCast, Int.toNat_natCast, null_loops w h hw hh] at hrest
    exact absurd hrest (by simp)
  | some b1 =>
    rw [hb] at hrest
    simp only at hrest
    obtain ⟨buf1, hloop, _⟩ := bind_some hrest
    rw [Int.toNat_natCast, Int.toNat_natCast] at hloop
    -- every pixel has been written, inside of the buffer
    have inner : ∀ py i (t t' : Block Nat), t.size = b1.size →
        write_pixel W g (w : Int) (iadd (w : Int) 2) scale shader_kind py i t = some t' →
        t'.size = b1.size := by
      intro py i t t' ht hc
      rw [(write_pixel_some _ _ _ _ _ _ _ _ _ _ hc).1]; exact ht
    have outer := forRange_some _ (fun t : Block Nat => t.size = b1.size)
      (fun py t t' ht hc => (forRange_some _ _ (inner py) _ 0 t t' ht hc).1) _ 0 _ buf1 rfl hloop
    have pix : ∀ py px, py < h → px < w →
        (∃ c, pixel_color W g (iadd (w : Int) 2) scale shader_kind py px = some c) ∧
        0 ≤ iadd (imul (iadd (imul (py : Int) (w : Int)) (px : Int)) 4) 0 ∧
        0 ≤ iadd (imul (iadd (imul (py : Int) (w : Int)) (px : Int)) 4) 3 ∧
        (iadd (imul (iadd (imul (py : Int) (w : Int)) (px : Int)) 4) 3).toNat < b1.size := by
      intro py px hy hx
      obtain ⟨t, t', ht, hrow⟩ := outer.2 py (by omega) (by omega)
      obtain ⟨u, u', hu, hcell⟩ := (forRange_some _ _ (inner py) _ 0 t t' ht hrow).2 px
        (by omega) (by omega)
      have := write_pixel_some _ _ _ _ _ _ _ _ _ _ hcell
      rw [hu] at this
      exact this.2
    obtain ⟨gsz, gin⟩ := fill_grid_some _ _ _ _ _ _ _ _ _ _ _ _ hg
    -- the padded dimensions are positive `int`s
    have hpw : w + 2 < 2147483648 ∧ h + 2 < 2147483648 := by
      obtain ⟨⟨c, hc⟩, _⟩ := pix 0 0 hh hw
      have hin := pixel_color_some _ _ _ _ _ _ _ _ hc
      rw [gsz] at hin
      exact pad_int w h hwr hhr hin
    obtain ⟨hpw1, hpw2⟩ := hpw
    rw [iadd_two w hpw1, iadd_two h hpw2, Int.toNat_natCast, Int.toNat_natCast,
      grid_cells_mod] at gin
    -- the padded grid fits
    have hpad : (w + 2) * (h + 2) < 1073741824 := by
      by_contra hcon
      have hq : (w + 2) * (h + 2) % 1073741824 < (w + 2) * (h + 2) := by omega
      have hq30 : (w + 2) * (h + 2) % 1073741824 < 1073741824 := Nat.mod_lt _ (by norm_num)
      have hz : (w + 2) * (h + 2) % 1073741824 / (w + 2) < h + 2 :=
        Nat.div_lt_of_lt_mul hq
      have hx : (w + 2) * (h + 2) % 1073741824 % (w + 2) < w + 2 := Nat.mod_lt _ (by omega)
      have hsum : (w + 2) * (h + 2) % 1073741824 / (w + 2) * (w + 2)
          + (w + 2) * (h + 2) % 1073741824 % (w + 2) = (w + 2) * (h + 2) % 1073741824 := by
        rw [Nat.mul_comm]; exact Nat.div_add_mod _ _
      have := (gin _ _ hz hx).2
      rw [idx_eq _ _ _ (by omega), hsum, Int.toNat_natCast] at this
      omega
    obtain ⟨g', hg', ginv⟩ := fill_grid_ok W hp (seed64 seed_lo seed_hi) x z scale mc
      shader_kind y_level w h hpad
    have hwh : w * h < 1073741824 := by nlinarith
    -- the image fits
    have hdim : w * h ≤ 536870912 := by
      by_contra hcon
      have hq : 536870912 < w * h := by omega
      have hz : 536870912 / w < h := Nat.div_lt_of_lt_mul hq
      have hx : 536870912 % w < w := Nat.mod_lt _ hw
      have hsum : 536870912 / w * w + 536870912 % w = 536870912 := by
        rw [Nat.mul_comm]; exact Nat.div_add_mod _ _
      have := (pix _ _ hz hx).2.1
      rw [idx_eq _ _ _ (by omega), hsum] at this
      have e : iadd (imul ((536870912 : Nat) : Int) 4) 0 = -2147483648 := by decide
      rw [e] at this
      omega
    have hgg : g = g' := by
      rw [hg] at hg'
      exact Option.some.inj hg'
    refine ⟨hdim, hpad, ⟨b1, rfl, ?_⟩, ?_⟩
    swap
    · intro px py hx hy
      obtain ⟨⟨c, hc⟩, _⟩ := pix py px hy hx
      rw [iadd_two w hpw1, hgg, pixel_color_eq W mc (seed64 seed_lo seed_hi) x z scale
        shader_kind y_level w h g' hpad ginv px py hx hy] at hc
      exact ⟨c, hc⟩
    have hlast := (pix (h - 1) (w - 1) (by omega) (by omega)).2.2.2
    have hlin : (h - 1) * w + (w - 1) = w * h - 1 := by
      obtain ⟨h', rfl⟩ : ∃ h', h = h' + 1 := ⟨h - 1, by omega⟩
      simp only [Nat.add_sub_cancel]
      have : w * (h' + 1) = h' * w + w := by ring
      omega
    have hpos : 0 < w * h := Nat.mul_pos hw hh
    rw [idx_eq _ _ _ (by omega), hlin, pix_idx _ 3 (by omega) 3 rfl, Int.toNat_natCast] at hlast
    omega

/-- The call returns when the dimensions fit and the statics are consistent. -/
theorem generate_total (W : World) (hp : Heap) (m : Mem) (seed_lo seed_hi : Nat)
    (x z : Int) (w h : Nat) (scale mc shader_kind y_level : Int)
    (hfit : Fits w h) (hm : m.wf) (hs : shader_kind > 0 → 0 < scale) :
    ∃ m', generate_biome_image W hp m seed_lo seed_hi x z (w : Int) (h : Int) scale mc
      shader_kind y_level = some (m', 4 * (w * h)) := by
  obtain ⟨b1, hb1, hb1s, _, _⟩ := ensure_buffer_holds hp m w h hm hfit.1
  obtain ⟨buf, hbuf, _⟩ := generate_run W hp m seed_lo seed_hi x z w h scale mc shader_kind
    y_level b1 hfit.1 hfit.2 hb1 hb1s
    (fun px py _ _ => pixel_spec_some W mc (seed64 seed_lo seed_hi) x z scale shader_kind
      y_level px py hs)
  exact ⟨_, hbuf⟩

/-- What a call that returns leaves behind. -/
theorem generate_post (W : World) (hp : Heap) (m : Mem) (seed_lo seed_hi : Nat)
    (x z : Int) (w h : Nat) (scale mc shader_kind y_level : Int) (res : Mem × Nat)
    (hw : 0 < w) (hh : 0 < h) (hwr : w < 2147483648) (hhr : h < 2147483648)
    (hret : generate_biome_image W hp m seed_lo seed_hi x z (w : Int) (h : Int) scale mc
      shader_kind y_level = some res) :
    Fits w h ∧ ∃ b1 buf, (ensure_buffer hp m (w : Int) (h : Int)).image_buffer = some b1 ∧
      res = (⟨some buf, (ensure_buffer hp m (w : Int) (h : Int)).image_buffer_size⟩,
        4 * (w * h)) ∧
      buf.size = b1.size ∧ 4 * (w * h) ≤ buf.size ∧
      (∀ px py, px < w → py < h → ∃ col,
        pixel_spec W mc (seed64 seed_lo seed_hi) x z scale shader_kind y_level px py = some col ∧
        buf.data (4 * (py * w + px)) = col.1 ∧ buf.data (4 * (py * w + px) + 1) = col.2.1 ∧
        buf.data (4 * (py * w + px) + 2) = col.2.2 ∧ buf.data (4 * (py * w + px) + 3) = 255) ∧
      (∀ q, 4 * (w * h) ≤ q → buf.data q = b1.data q) := by
  obtain ⟨hdim, hpad, ⟨b1, hb1, hb1s⟩, hspec⟩ := generate_some W hp m seed_lo seed_hi x z w h
    scale mc shader_kind y_level res hw hh hwr hhr hret
  obtain ⟨buf, hbuf, hsize, hpix, hrest⟩ := generate_run W hp m seed_lo seed_hi x z w h scale
    mc shader_kind y_level b1 hdim hpad hb1 hb1s hspec
  rw [hret] at hbuf
  exact ⟨⟨hdim, hpad⟩, b1, buf, hb1, Option.some.inj hbuf, hsize, by rw [hsize]; exact hb1s,
    hpix, hrest⟩

/-- Shape of the result of a call: the buffer after the allocation check, overwritten in
place when it is live, and the requested byte count. -/
theorem generate_shape (W : World) (hp : Heap) (m : Mem) (seed_lo seed_hi : Nat)
    (x z width height scale mc shader_kind y_level : Int) (res : Mem × Nat)
    (hret : generate_biome_image W hp m seed_lo seed_hi x z width height scale mc
      shader_kind y_level = some res) :
    res.2 = img_size width height ∧
    res.1.image_buffer_size = (ensure_buffer hp m width height).image_buffer_size ∧
    ((ensure_buffer hp m width height).image_buffer = none → res.1.image_buffer = none) ∧
    ∀ b1, (ensure_buffer hp m width height).image_buffer = some b1 →
      ∃ buf, res.1.image_buffer = some buf ∧ buf.size = b1.size ∧
        ((width ≤ 0 ∨ height ≤ 0) → buf = b1) := by
  simp only [generate_biome_image] at hret
  obtain ⟨g, hg, hrest⟩ := bind_some hret
  cases hb : (ensure_buffer hp m width height).image_buffer with
  | none =>
    rw [hb] at hrest
    simp only at hrest
    obtain ⟨u, _, hres⟩ := bind_some hrest
    have hres' := (Option.some.inj hres).symm
    rw [hres']
    exact ⟨rfl, rfl, fun _ => rfl, fun b1 hb1 => absurd hb1 (by simp)⟩
  | some b1 =>
    rw [hb] at hrest
    simp only at hrest
    obtain ⟨buf1, hloop, hres⟩ := bind_some hrest
    have inner : ∀ py i (t t' : Block Nat), t.size = b1.size →
        write_pixel W g width (iadd width 2) scale shader_kind py i t = some t' →
        t'.size = b1.size := by
      intro py i t t' ht hc
      rw [(write_pixel_some _ _ _ _ _ _ _ _ _ _ hc).1]; exact ht
    have outer := forRange_some _ (fun t : Block Nat => t.size = b1.size)
      (fun py t t' ht hc => (forRange_some _ _ (inner py) _ 0 t t' ht hc).1) _ 0 _ buf1 rfl hloop
    have hres' := (Option.some.inj hres).symm
    rw [hres']
    refine ⟨rfl, rfl, fun c => absurd c (by simp), fun b1' hb1' => ?_⟩
    have eb : b1' = b1 := (Option.some.inj hb1').symm
    rw [eb]
    refine ⟨buf1, rfl, outer.1, fun hneg => ?_⟩
    rcases hneg with hn | hn
    · have hz : width.toNat = 0 := Int.toNat_eq_zero.2 hn
      have idle := forRange_some _ (fun t : Block Nat => t = b1)
        (fun py t t' ht hc => by
          rw [hz] at hc
          have : t = t' := by simpa [forRange] using hc
          rw [← this]; exact ht) _ 0 _ buf1 rfl hloop
      exact idle.1
    · have hz : height.toNat = 0 := Int.toNat_eq_zero.2 hn
      rw [hz] at hloop
      have : b1 = buf1 := by simpa [forRange] using hloop
      exact this.symm

/-! ## Sequences of calls -/

theorem ensure_idle (hp : Heap) (m : Mem) (width height : Int) (b : Block Nat)
    (hb : m.image_buffer = some b) (hs : img_size width height ≤ m.image_buffer_size) :
    ensure_buffer hp m width height = m := by
  unfold ensure_buffer
  rw [if_neg]
  rw [hb]
  simp only [Option.isNone_some, Bool.false_eq_true, false_or, not_lt]
  exact hs

/-- Every call that returns keeps the size of a live buffer recorded, returns the
requested byte count, and leaves the capacity that the allocation check has set. -/
theorem generate_sized (W : World) (hp : Heap) (m : Mem) (seed_lo seed_hi : Nat)
    (x z width height scale mc shader_kind y_level : Int) (res : Mem × Nat) (hm : m.sized)
    (hret : generate_biome_image W hp m seed_lo seed_hi x z width height scale mc
      shader_kind y_level = some res) :
    res.1.sized ∧ res.2 = img_size width height ∧
      res.1.image_buffer_size
        = (if m.image_buffer.isNone ∨ m.image_buffer_size < img_size width height
          then img_size width height else m.image_buffer_size) := by
  obtain ⟨hr, hcap, _, hlive⟩ := generate_shape W hp m seed_lo seed_hi x z width height
    scale mc shader_kind y_level res hret
  have hs := ensure_buffer_sized hp m width height hm
  refine ⟨fun b hb => ?_, hr, by rw [hcap, ensure_buffer_cap]⟩
  cases he : (ensure_buffer hp m width height).image_buffer with
  | none =>
    obtain ⟨_, _, hnone, _⟩ := generate_shape W hp m seed_lo seed_hi x z width height
      scale mc shader_kind y_level res hret
    rw [hnone he] at hb
    exact absurd hb (by simp)
  | some b1 =>
    obtain ⟨buf, hbuf, hsz, _⟩ := hlive b1 he
    rw [hbuf] at hb
    rw [← Option.some.inj hb, hsz, hcap]
    exact hs b1 he

/-- A call with positive dimensions that returns leaves consistent statics. -/
theorem generate_wf (W : World) (hp : Heap) (m : Mem) (seed_lo seed_hi : Nat)
    (x z : Int) (w h : Nat) (scale mc shader_kind y_level : Int) (res : Mem × Nat)
    (hm : m.sized) (hw : 0 < w) (hh : 0 < h) (hwr : w < 2147483648) (hhr : h < 2147483648)
    (hret : generate_biome_image W hp m seed_lo seed_hi x z (w : Int) (h : Int) scale mc
      shader_kind y_level = some res) :
    res.1.wf := by
  obtain ⟨hs, _, _⟩ := generate_sized W hp m seed_lo seed_hi x z (w : Int) (h : Int) scale mc
    shader_kind y_level res hm hret
  obtain ⟨_, _, buf, _, hres, _⟩ := generate_post W hp m seed_lo seed_hi x z w h scale mc
    shader_kind y_level res hw hh hwr hhr hret
  have hb : res.1.image_buffer = some buf := by rw [hres]
  unfold Mem.wf
  rw [hb]
  exact hs buf hb

theorem run_calls_sized (W : World) (calls : List Call) :
    ∀ m0 m : Mem, m0.sized → run_calls W m0 calls = some m → m.sized := by
  induction calls with
  | nil =>
    intro m0 m h0 h
    have : m0 = m := by simpa [run_calls] using h
    exact this ▸ h0
  | cons c cs ih =>
    intro m0 m h0 h
    have h' : (c.run W m0).bind (fun r => run_calls W r.1 cs) = some m := h
    obtain ⟨r, hr, hrest⟩ := bind_some h'
    exact ih r.1 m (generate_sized W c.hp m0 c.seed_lo c.seed_hi c.x c.z c.width c.height
      c.scale c.mc_version c.shader_kind c.y_level r h0 hr).1 hrest

theorem init_wf : Mem.init.wf := by
  show (0 : Nat) = 0
  rfl

/-! ## C1: the returned byte count -/

theorem fits_two : Fits 2 2 := by
  unfold Fits; constructor <;> norm_num

theorem pixel_of_offset {w h k : Nat} (hw : 0 < w) (hk : k < w * h * 4) :
    k / 4 / w < h ∧ k / 4 % w < w ∧ 4 * (k / 4 / w * w + k / 4 % w) + k % 4 = k := by
  have hp : k / 4 < w * h := by omega
  refine ⟨Nat.div_lt_of_lt_mul hp, Nat.mod_lt _ hw, ?_⟩
  have : k / 4 / w * w + k / 4 % w = k / 4 := by
    rw [Nat.mul_comm]; exact Nat.div_add_mod _ _
  rw [this]
  omega

/-- C3: for every `width > 0`, `height > 0`, `scale > 0` and every shader kind, the call
returns when the sizes fit 32-bit arithmetic, and after every call that returns each byte of
the image buffer at an offset `k < width * height * 4` with `k mod 4 = 3` equals 255. -/
theorem alpha_is_opaque (W : World) (hp : Heap) (m : Mem) (seed_lo seed_hi : Nat)
    (x z : Int) (w h : Nat) (scale mc shader_kind y_level : Int)
    (hw : 0 < w) (hh : 0 < h) (hwr : w < 2147483648) (hhr : h < 2147483648)
    (hs : 0 < scale) :
    (Fits w h → m.wf → ∃ res, generate_biome_image W hp m seed_lo seed_hi x z (w : Int)
      (h : Int) scale mc shader_kind y_level = some res) ∧
    ∀ res, generate_biome_image W hp m seed_lo seed_hi x z (w : Int) (h : Int) scale mc
      shader_kind y_level = some res →
      ∃ buf, res.1.image_buffer = some buf ∧
        ∀ k, k < w * h * 4 → k % 4 = 3 → k < buf.size ∧ buf.data k = 255 := by
  constructor
  · intro hfit hm
    obtain ⟨m', hm'⟩ := generate_total W hp m seed_lo seed_hi x z w h scale mc shader_kind
      y_level hfit hm (fun _ => hs)
    exact ⟨_, hm'⟩
  · intro res hret
    obtain ⟨_, b1, buf, _, hres, _, hsz, hpix, _⟩ := generate_post W hp m seed_lo seed_hi x z
      w h scale mc shader_kind y_level res hw hh hwr hhr hret
    refine ⟨buf, by rw [hres], fun k hk hk3 => ⟨by omega, ?_⟩⟩
    obtain ⟨hy, hx, hsum⟩ := pixel_of_offset hw hk
    obtain ⟨col, _, _, _, _, ha⟩ := hpix (k / 4 % w) (k / 4 / w) hx hy
    rw [hk3] at hsum
    rw [hsum] at ha
    exact ha

/-- C3 (witness): a shaded 2×2 image of the stub world. -/
theorem alpha_is_opaque_witness :
    (0 < 2 ∧ 2 < 2147483648 ∧ (0 : Int) < 1) ∧
    ((Fits 2 2 → Mem.init.wf → ∃ res, generate_biome_image stubWorld junkHeap Mem.init 0 0 0 0
      ((2 : Nat) : Int) ((2 : Nat) : Int) 1 22 2 64 = some res) ∧
    ∀ res, generate_biome_image stubWorld junkHeap Mem.init 0 0 0 0 ((2 : Nat) : Int)
      ((2 : Nat) : Int) 1 22 2 64 = some res →
      ∃ buf, res.1.image_buffer = some buf ∧
        ∀ k, k < 2 * 2 * 4 → k % 4 = 3 → k < buf.size ∧ buf.data k = 255) :=
  ⟨⟨by decide, by decide, by decide⟩,
    alpha_is_opaque stubWorld junkHeap Mem.init 0 0 0 0 2 2 1 22 2 64 (by decide) (by decide)
      (by decide) (by decide) (by decide)⟩

/-! ## C4: idempotence -/

/-- A call with dimensions that fit returns from every state in which a live buffer has
the recorded size. -/
theorem generate_total_sized (W : World) (hp : Heap) (m : Mem) (seed_lo seed_hi : Nat)
    (x z : Int) (w h : Nat) (scale mc shader_kind y_level : Int)
    (hfit : Fits w h) (hm : m.sized) (hs : shader_kind > 0 → 0 < scale) :
    ∃ m', generate_biome_image W hp m seed_lo seed_hi x z (w : Int) (h : Int) scale mc
      shader_kind y_level = some (m', 4 * (w * h)) := by
  have hsz : img_size (w : Int) (h : Int) = 4 * (w * h) := img_size_eq w h (by
    have := hfit.1; omega)
  obtain ⟨b1, hb1, _, hb1s⟩ := ensure_buffer_live hp m (w : Int) (h : Int) hm (by
    rw [hsz]; have := hfit.1; omega)
  rw [hsz] at hb1s
  obtain ⟨buf, hbuf, _⟩ := generate_run W hp m seed_lo seed_hi x z w h scale mc shader_kind
    y_level b1 hfit.1 hfit.2 hb1 hb1s
    (fun px py _ _ => pixel_spec_some W mc (seed64 seed_lo seed_hi) x z scale shader_kind
      y_level px py hs)
  exact ⟨_, hbuf⟩

theorem run_calls_pos_wf (W : World) (calls : List Call) :
    ∀ m0 m : Mem, m0.wf →
      (∀ d ∈ calls, 0 < d.width ∧ 0 < d.height ∧ d.width < 2147483648 ∧
        d.height < 2147483648) →
      run_calls W m0 calls = some m → m.wf := by
  induction calls with
  | nil =>
    intro m0 m h0 _ h
    have : m0 = m := by simpa [run_calls] using h
    exact this ▸ h0
  | cons c cs ih =>
    intro m0 m h0 hpos h
    have h' : (c.run W m0).bind (fun r => run_calls W r.1 cs) = some m := h
    obtain ⟨r, hr, hrest⟩ := bind_some h'
    obtain ⟨hw, hh, hwr, hhr⟩ := hpos c (List.mem_cons_self c cs)
    unfold Call.run at hr
    generalize c.width = cw at *
    generalize c.height = ch at *
    lift cw to ℕ using hw.le
    lift ch to ℕ using hh.le
    have hwf := generate_wf W c.hp m0 c.seed_lo c.seed_hi c.x c.z cw ch c.scale
      c.mc_version c.shader_kind c.y_level r (wf_sized h0) (by exact_mod_cast hw)
      (by exact_mod_cast hh) (by exact_mod_cast hwr) (by exact_mod_cast hhr) hr
    exact ih r.1 m hwf (fun d hd => hpos d (List.mem_cons_of_mem c hd)) hrest

theorem call_c_run :
    call_c.run stubWorld Mem.init = some (⟨none, 4294967292⟩, 4294967292) := by
  have hfill : (fill_grid stubWorld fullHeap (seed64 0 0) 0 0 (-1) 1 1 22 0 64).isSome
      = true := by decide
  obtain ⟨g, hg⟩ := Option.isSome_iff_exists.1 hfill
  have he : ensure_buffer fullHeap Mem.init (-1) 1 = ⟨none, 4294967292⟩ := by
    have c1 : Mem.init.image_buffer.isNone = true ∨
        Mem.init.image_buffer_size < img_size (-1) 1 := Or.inl rfl
    have hsz : img_size (-1) 1 = 4294967292 := by decide
    unfold ensure_buffer init_buffer malloc_image
    rw [if_pos c1, hsz, if_neg (by decide)]
  show generate_biome_image stubWorld fullHeap Mem.init 0 0 0 0 (-1) 1 1 22 0 64 = _
  simp only [generate_biome_image]
  rw [hg, Option.some_bind, he]
  rfl

/-- C5 (counterexample): a call with `width = -1`, `height = 1` requests `4294967292`
bytes; its allocation fails, the call returns with a null buffer and the capacity
`4294967292` recorded.  The next call, for a 2×2 image of 16 bytes, finds no buffer and
allocates: the capacity shrinks to 16, although 16 does not exceed the previous
capacity. -/
theorem capacity_shrinks :
    ∃ m1 m2 : Mem,
      run_calls stubWorld Mem.init [call_c] = some m1 ∧
      call_a.run stubWorld m1 = some (m2, 16) ∧
      m1.image_buffer = none ∧ m1.image_buffer_size = 4294967292 ∧
      img_size call_a.width call_a.height = 16 ∧
      ¬ (m1.image_buffer_size < img_size call_a.width call_a.height) ∧
      m2.image_buffer_size = 16 ∧ m2.image_buffer_size < m1.image_buffer_size := by
  have hrun : run_calls stubWorld Mem.init [call_c]
      = some (⟨none, 4294967292⟩ : Mem) := by
    show (call_c.run stubWorld Mem.init).bind (fun r => run_calls stubWorld r.1 []) = _
    rw [call_c_run]; rfl
  have hsized : (⟨none, 4294967292⟩ : Mem).sized := fun b hb => absurd hb (by simp)
  obtain ⟨m2, h2⟩ := generate_total_sized stubWorld junkHeap ⟨none, 4294967292⟩ 0 0 0 0 2 2 1
    22 0 64 fits_two hsized (fun c => absurd c (by decide))
  have hcap := (generate_sized stubWorld junkHeap ⟨none, 4294967292⟩ 0 0 0 0 ((2 : Nat) : Int)
    ((2 : Nat) : Int) 1 22 0 64 _ hsized h2).2.2
  have hi : img_size ((2 : Nat) : Int) ((2 : Nat) : Int) = 16 := by decide
  have c2 : (none : Option (Block Nat)).isNone = true ∨
      4294967292 < img_size ((2 : Nat) : Int) ((2 : Nat) : Int) := Or.inl rfl
  simp only at hcap
  rw [if_pos c2, hi] at hcap
  exact ⟨_, m2, hrun, h2, rfl, rfl, hi, by
      show ¬ (4294967292 < img_size ((2 : Nat) : Int) ((2 : Nat) : Int))
      rw [hi]; decide,
    hcap, by rw [hcap]; decide⟩

/-- C5 (amended): in every state reached from program start by a sequence of calls of
`generate_biome_image`, a further call that requests `img_size` bytes leaves the capacity
`image_buffer_size` equal to `img_size` if there is no live buffer or `img_size` exceeded
the previous capacity (the buffer is then allocated anew, with exactly that size when the
allocation succeeds), and equal to the previous capacity otherwise.  Hence the capacity is
at least the latest requirement, and it does not shrink at a call made with a live buffer,
nor along a sequence of calls that all have positive dimensions.  The request `img_size`
is the returned byte count, and it is `width * height * 4` for positive `int`
dimensions. -/
theorem capacity_rule (W : World) (calls : List Call) (m : Mem) (c : Call) (m' : Mem)
    (r : Nat) (hrun : run_calls W Mem.init calls = some m) (hc : c.run W m = some (m', r)) :
    m'.image_buffer_size
      = (if m.image_buffer.isNone ∨ m.image_buffer_size < img_size c.width c.height
        then img_size c.width c.height else m.image_buffer_size) ∧
    img_size c.width c.height ≤ m'.image_buffer_size ∧
    (m.image_buffer.isSome → m.image_buffer_size ≤ m'.image_buffer_size) ∧
    ((∀ d ∈ calls, 0 < d.width ∧ 0 < d.height ∧ d.width < 2147483648 ∧
        d.height < 2147483648) → m.image_buffer_size ≤ m'.image_buffer_size) ∧
    (∀ b, m'.image_buffer = some b → b.size = m'.image_buffer_size) ∧
    r = img_size c.width c.height ∧
    (0 < c.width → 0 < c.height → c.width < 2147483648 → c.height < 2147483648 →
      (img_size c.width c.height : Int) = c.width * c.height * 4) := by
  have hm := run_calls_sized W calls Mem.init m (wf_sized init_wf) hrun
  obtain ⟨hs', hr, hcap⟩ := generate_sized W c.hp m c.seed_lo c.seed_hi c.x c.z c.width
    c.height c.scale c.mc_version c.shader_kind c.y_level (m', r) hm hc
  simp only at hcap hr hs'
  have hlive : m.image_buffer.isSome → m.image_buffer_size ≤ m'.image_buffer_size := by
    intro hsome
    rw [hcap]
    split_ifs with hlt
    · rcases hlt with hn | hlt
      · rw [Option.isSome_iff_ne_none] at hsome
        exact absurd (Option.isNone_iff_eq_none.1 hn) hsome
      · exact hlt.le
    · exact le_refl _
  refine ⟨hcap, ?_, hlive, fun hpos => ?_, hs', hr, ?_⟩
  · rw [hcap]
    split_ifs with hlt
    · exact le_refl _
    · push_neg at hlt; exact hlt.2
  · have hwf := run_calls_pos_wf W calls Mem.init m init_wf hpos hrun
    cases hb : m.image_buffer with
    | none =>
      unfold Mem.wf at hwf
      rw [hb] at hwf
      simp only at hwf
      rw [hwf]; exact Nat.zero_le _
    | some b => exact hlive (by rw [hb]; rfl)
  · intro hw hh hwr hhr
    have hc' := hc
    unfold Call.run at hc'
    generalize c.width = cw at *
    generalize c.height = ch at *
    lift cw to ℕ using hw.le
    lift ch to ℕ using hh.le
    obtain ⟨hdim, _⟩ := generate_some W c.hp m c.seed_lo c.seed_hi c.x c.z cw ch c.scale
      c.mc_version c.shader_kind c.y_level (m', r) (by exact_mod_cast hw)
      (by exact_mod_cast hh) (by exact_mod_cast hwr) (by exact_mod_cast hhr) hc'
    rw [img_size_eq cw ch (by omega)]
    push_cast; ring

/-- C5 (witness): a 2×2 image, then a 1×1 image: the capacity stays 16. -/
theorem capacity_rule_witness :
    ∃ m m' : Mem,
      (run_calls stubWorld Mem.init [call_a] = some m ∧
        call_b.run stubWorld m = some (m', 4 * (1 * 1))) ∧
      (m'.image_buffer_size
          = (if m.image_buffer.isNone ∨ m.image_buffer_size < img_size call_b.width
              call_b.height
            then img_size call_b.width call_b.height else m.image_buffer_size) ∧
        img_size call_b.width call_b.height ≤ m'.image_buffer_size ∧
        (m.image_buffer.isSome → m.image_buffer_size ≤ m'.image_buffer_size) ∧
        ((∀ d ∈ [call_a], 0 < d.width ∧ 0 < d.height ∧ d.width < 2147483648 ∧
            d.height < 2147483648) → m.image_buffer_size ≤ m'.image_buffer_size) ∧
        (∀ b, m'.image_buffer = some b → b.size = m'.image_buffer_size) ∧
        4 * (1 * 1) = img_size call_b.width call_b.height ∧
        (0 < call_b.width → 0 < call_b.height → call_b.width < 2147483648 →
          call_b.height < 2147483648 →
          (img_size call_b.width call_b.height : Int) = call_b.width * call_b.height * 4)) := by
  obtain ⟨m, h1⟩ := generate_total stubWorld junkHeap Mem.init 0 0 0 0 2 2 1 22 0 64 fits_two
    init_wf (fun c => absurd c (by decide))
  have hm := generate_wf stubWorld junkHeap Mem.init 0 0 0 0 2 2 1 22 0 64 _
    (wf_sized init_wf) (by decide) (by decide) (by decide) (by decide) h1
  obtain ⟨m', h2⟩ := generate_total stubWorld junkHeap m 0 0 0 0 1 1 1 22 0 64
    (by unfold Fits; constructor <;> norm_num) hm (fun c => absurd c (by decide))
  have hrun : run_calls stubWorld Mem.init [call_a] = some m := by
    show (call_a.run stubWorld Mem.init).bind (fun r => run_calls stubWorld r.1 []) = some m
    have : call_a.run stubWorld Mem.init = some (m, 4 * (2 * 2)) := h1
    rw [this]; rfl
  exact ⟨m, m', ⟨hrun, h2⟩, capacity_rule stubWorld [call_a] m call_b m' (4 * (1 * 1))
    hrun h2⟩

/-! ## C2: no shading -/

theorem cell_coord_succ (origin scale : Int) (i : Nat) :
    cell_coord origin scale (i + 1) = wrap32 (origin + i * scale) := by
  have e : ((i + 1 : Nat) : Int) * scale = (i : Int) * scale + scale := by push_cast; ring
  unfold cell_coord iadd isub imul
  rw [e]
  generalize (i : Int) * scale = t
  unfold wrap32
  omega

theorem pixel_spec_raw (W : World) (mc seed x z scale shader_kind y_level : Int) (px py : Nat)
    (hk : ¬ shader_kind > 0) :
    pixel_spec W mc seed x z scale shader_kind y_level px py = some
      (W.biomeColors (W.getBiomeAt mc seed scale (wrap32 (x + px * scale)) y_level
          (wrap32 (z + py * scale)) % 256).toNat 0,
        W.biomeColors (W.getBiomeAt mc seed scale (wrap32 (x + px * scale)) y_level
          (wrap32 (z + py * scale)) % 256).toNat 1,
        W.biomeColors (W.getBiomeAt mc seed scale (wrap32 (x + px * scale)) y_level
          (wrap32 (z + py * scale)) % 256).toNat 2) := by
  simp only [pixel_spec, cell_biome]
  rw [if_neg hk, cell_coord_succ, cell_coord_succ]

/-- C2 (counterexample): with `x = 2147483647` and `scale = 1` the world coordinate of
pixel `(1, 0)` wraps to `-2147483648`: the pixel shows the biome there (red byte 24), not
the biome at `x + px * scale = 2147483648` (red byte 240). -/
theorem raw_palette_wraps :
    ∃ m' buf, generate_biome_image signWorld junkHeap Mem.init 0 0 2147483647 0 ((2 : Nat) : Int)
        ((1 : Nat) : Int) 1 22 0 64 = some (m', 8) ∧
      m'.image_buffer = some buf ∧ buf.data ((0 * 2 + 1) * 4 + 0) = 24 ∧
      signWorld.biomeColors (signWorld.getBiomeAt 22 (seed64 0 0) 1 (2147483647 + 1 * 1) 64
        (0 + 0 * 1) % 256).toNat 0 = 240 := by
  obtain ⟨m', hm'⟩ := generate_total signWorld junkHeap Mem.init 0 0 2147483647 0 2 1 1 22 0 64
    (by unfold Fits; constructor <;> norm_num) init_wf (fun c => absurd c (by decide))
  obtain ⟨_, _, buf, _, hres, _, _, hpix, _⟩ := generate_post signWorld junkHeap Mem.init 0 0
    2147483647 0 2 1 1 22 0 64 _ (by decide) (by decide) (by decide) (by decide) hm'
  obtain ⟨col, hcol, h0, _⟩ := hpix 1 0 (by decide) (by decide)
  rw [pixel_spec_raw _ _ _ _ _ _ _ _ _ _ (by decide)] at hcol
  have em : m' = ⟨some buf, (ensure_buffer junkHeap Mem.init ((2 : Nat) : Int)
      ((1 : Nat) : Int)).image_buffer_size⟩ := congrArg Prod.fst hres
  refine ⟨m', buf, hm', by rw [em], ?_, by decide⟩
  have e : (0 * 2 + 1) * 4 + 0 = 4 * (0 * 2 + 1) := by norm_num
  rw [e, h0, ← Option.some.inj hcol]
  decide

/-- C2 (amended): with `shader_kind = 0`, for every `width > 0`, `height > 0`, `scale > 0`
the call returns when the sizes fit 32-bit arithmetic, and after every call that returns,
for every pixel `(px, py)` the bytes at the offsets `(py * width + px) * 4 + 0, 1, 2` are the
R, G, B of `palette[b & 0xFF]`, where `b` is the id that the world model returns at the
world coordinate `(X, y_level, Z)`, `X` and `Z` being `x + px * scale` and `z + py * scale`
reduced to the 32-bit `int` range (and equal to them when they fit it); the byte at offset
`(py * width + px) * 4 + 3` is 255 and the returned count is `width * height * 4`. -/
theorem raw_palette (W : World) (hp : Heap) (m : Mem) (seed_lo seed_hi : Nat)
    (x z : Int) (w h : Nat) (scale mc y_level : Int)
    (hw : 0 < w) (hh : 0 < h) (hwr : w < 2147483648) (hhr : h < 2147483648)
    (hs : 0 < scale) :
    (Fits w h → m.wf → ∃ res, generate_biome_image W hp m seed_lo seed_hi x z (w : Int)
      (h : Int) scale mc 0 y_level = some res) ∧
    (∀ res, generate_biome_image W hp m seed_lo seed_hi x z (w : Int) (h : Int) scale mc
      0 y_level = some res →
      res.2 = w * h * 4 ∧ ∃ buf, res.1.image_buffer = some buf ∧
        ∀ px py, px < w → py < h →
          (∀ c, c < 3 → buf.data ((py * w + px) * 4 + c) =
            W.biomeColors (W.getBiomeAt mc (seed64 seed_lo seed_hi) scale
              (wrap32 (x + px * scale)) y_level (wrap32 (z + py * scale)) % 256).toNat c) ∧
          buf.data ((py * w + px) * 4 + 3) = 255) ∧
    (∀ n : Int, -2147483648 ≤ n → n < 2147483648 → wrap32 n = n) := by
  refine ⟨?_, ?_, fun n h1 h2 => wrap32_id h1 h2⟩
  · intro hfit hm
    obtain ⟨m', hm'⟩ := generate_total W hp m seed_lo seed_hi x z w h scale mc 0
      y_level hfit hm (fun _ => hs)
    exact ⟨_, hm'⟩
  · intro res hret
    obtain ⟨_, b1, buf, _, hres, _, _, hpix, _⟩ := generate_post W hp m seed_lo seed_hi x z
      w h scale mc 0 y_level res hw hh hwr hhr hret
    refine ⟨by rw [hres]; ring, buf, by rw [hres], fun px py hx hy => ?_⟩
    obtain ⟨col, hcol, a0, a1, a2, a3⟩ := hpix px py hx hy
    rw [pixel_spec_raw _ _ _ _ _ _ _ _ _ _ (by decide)] at hcol
    have e : (py * w + px) * 4 = 4 * (py * w + px) := by ring
    rw [e]
    refine ⟨fun c hc => ?_, a3⟩
    have hc' : c = 0 ∨ c = 1 ∨ c = 2 := by omega
    rcases hc' with c0 | c0 | c0 <;> subst c0
    · rw [Nat.add_zero, a0, ← Option.some.inj hcol]
    · rw [a1, ← Option.some.inj hcol]
    · rw [a2, ← Option.some.inj hcol]

/-- C2 (witness): the stub world model returning id 1 everywhere, `x = z = 0`,
`width = height = 2`, `scale = 1`, `y_level = 64`: the call returns 16, and all 4 pixels
are `palette[1]` with alpha 255. -/
theorem raw_palette_witness :
    (0 < 2 ∧ 2 < 2147483648 ∧ (0 : Int) < 1) ∧
    ((Fits 2 2 → Mem.init.wf → ∃ res, generate_biome_image stubWorld junkHeap Mem.init 0 0 0 0
      ((2 : Nat) : Int) ((2 : Nat) : Int) 1 22 0 64 = some res) ∧
    (∀ res, generate_biome_image stubWorld junkHeap Mem.init 0 0 0 0 ((2 : Nat) : Int)
      ((2 : Nat) : Int) 1 22 0 64 = some res →
      res.2 = 2 * 2 * 4 ∧ ∃ buf, res.1.image_buffer = some buf ∧
        ∀ px py, px < 2 → py < 2 →
          (∀ c, c < 3 → buf.data ((py * 2 + px) * 4 + c) = stubWorld.biomeColors 1 c) ∧
          buf.data ((py * 2 + px) * 4 + 3) = 255) ∧
    (∀ n : Int, -2147483648 ≤ n → n < 2147483648 → wrap32 n = n)) :=
  ⟨⟨by decide, by decide, by decide⟩,
    raw_palette stubWorld junkHeap Mem.init 0 0 0 0 2 2 1 22 64 (by decide) (by decide)
      (by decide) (by decide) (by decide)⟩

/-! ## Exact `float` results -/

theorem binade_small {x : ℚ} (hx : x ≠ 0) (h : |x| < 2 ^ (-126 : ℤ)) : binade x = -126 := by
  have hpos : 0 < |x| := abs_pos.2 hx
  have hlog : Int.log 2 |x| < -126 := by
    rw [← Int.lt_zpow_iff_log_lt (by norm_num) hpos]
    exact_mod_cast h
  unfold binade
  exact max_eq_right hlog.le

theorem roundQ_dyadic (n k : ℤ) (hn : |n| < 16777216) (hk : -149 ≤ k) :
    roundQ ((n : ℚ) * 2 ^ k) = (n : ℚ) * 2 ^ k := by
  rcases eq_or_ne n 0 with h0 | h0
  · rw [h0]; simpa using roundQ_zero
  have hnq : (0 : ℚ) < |(n : ℚ)| := abs_pos.2 (by exact_mod_cast h0)
  have hn1 : (1 : ℚ) ≤ |(n : ℚ)| := by
    have : (1 : ℤ) ≤ |n| := Int.one_le_abs h0
    exact_mod_cast this
  have hn24 : |(n : ℚ)| < 16777216 := by exact_mod_cast hn
  have hk0 := ulp_pos k
  have habs : |(n : ℚ) * 2 ^ k| = |(n : ℚ)| * 2 ^ k := by
    rw [abs_mul, abs_of_pos hk0]
  have e0 : (0 : ℤ) ≤ Int.log 2 |(n : ℚ)| := by
    rw [← Int.zpow_le_iff_le_log (by norm_num) hnq]
    simpa using hn1
  have e24 : Int.log 2 |(n : ℚ)| < 24 := by
    rw [← Int.lt_zpow_iff_log_lt (by norm_num) hnq]
    exact lt_of_lt_of_le hn24 (by norm_num)
  have hlo : (2 : ℚ) ^ Int.log 2 |(n : ℚ)| ≤ |(n : ℚ)| := by
    have := Int.zpow_log_le_self (b := 2) (by norm_num) hnq
    exact_mod_cast this
  have hhi : |(n : ℚ)| < (2 : ℚ) ^ (Int.log 2 |(n : ℚ)| + 1) := by
    have := Int.lt_zpow_succ_log_self (b := 2) (by norm_num) |(n : ℚ)|
    exact_mod_cast this
  by_cases hc : -126 ≤ Int.log 2 |(n : ℚ)| + k
  · obtain ⟨j, hj⟩ : ∃ j : ℕ, (j : ℤ) = 23 - Int.log 2 |(n : ℚ)| :=
      ⟨(23 - Int.log 2 |(n : ℚ)|).toNat, by omega⟩
    apply roundQ_exact (Int.log 2 |(n : ℚ)| + k) (n * 2 ^ j) hc
    · rw [habs, zpow_add₀ (by norm_num : (2 : ℚ) ≠ 0)]
      exact mul_le_mul_of_nonneg_right hlo hk0.le
    · rw [habs]
      have : Int.log 2 |(n : ℚ)| + k + 1 = (Int.log 2 |(n : ℚ)| + 1) + k := by ring
      rw [this, zpow_add₀ (by norm_num : (2 : ℚ) ≠ 0)]
      exact mul_lt_mul_of_pos_right hhi hk0
    · have : Int.log 2 |(n : ℚ)| + k - 23 = -(j : ℤ) + k := by omega
      rw [this, zpow_add₀ (by norm_num : (2 : ℚ) ≠ 0), zpow_neg, zpow_natCast]
      push_cast
      field_simp
      ring
  · push_neg at hc
    have hx : (n : ℚ) * 2 ^ k ≠ 0 := mul_ne_zero (by exact_mod_cast h0) hk0.ne'
    have hsmall : |(n : ℚ) * 2 ^ k| < 2 ^ (-126 : ℤ) := by
      rw [habs]
      calc |(n : ℚ)| * 2 ^ k < 2 ^ (Int.log 2 |(n : ℚ)| + 1) * 2 ^ k :=
            mul_lt_mul_of_pos_right hhi hk0
        _ = 2 ^ (Int.log 2 |(n : ℚ)| + 1 + k) :=
            (zpow_add₀ (by norm_num : (2 : ℚ) ≠ 0) _ _).symm
        _ ≤ 2 ^ (-126 : ℤ) := zpow_le_zpow_right₀ (by norm_num) (by omega)
    obtain ⟨j, hj⟩ : ∃ j : ℕ, (j : ℤ) = k + 149 := ⟨(k + 149).toNat, by omega⟩
    unfold roundQ
    rw [binade_small hx hsmall]
    have hdiv : (n : ℚ) * 2 ^ k / 2 ^ ((-126 : ℤ) - 23) = ((n * 2 ^ j : ℤ) : ℚ) := by
      have : k = (j : ℤ) + (-126 - 23) := by omega
      rw [this, zpow_add₀ (by norm_num : (2 : ℚ) ≠ 0), zpow_natCast]
      push_cast
      field_simp
    rw [hdiv, roundEven_intCast, ← hdiv]
    field_simp

theorem roundQ_int (n : ℤ) (hn : |n| < 16777216) : roundQ (n : ℚ) = n := by
  simpa using roundQ_dyadic n 0 hn (by norm_num)

theorem scale_mul_int (scale : Int) (h : 0 < scale) (hr : scale < 2147483648) :
    F32.div (F32.fin (1 / 4)) (F32.ofInt scale) = F32.fin (scale_mul scale) ∧
      0 ≤ scale_mul scale ∧ scale_mul scale ≤ 1 / 4 := by
  have hs : (1 : ℚ) ≤ (scale : ℚ) := by exact_mod_cast h
  have hs' : (scale : ℚ) ≤ 2147483648 := by exact_mod_cast hr.le
  have hr1 : 1 ≤ roundQ scale := le_roundQ roundQ_one (by norm_num) hs
  have hne : roundQ scale ≠ 0 := by linarith
  have hpos : (0 : ℚ) < 1 / 4 / roundQ scale := by positivity
  have hle : 1 / 4 / roundQ scale ≤ 1 / 4 := by
    rw [div_le_iff₀ (by linarith)]; nlinarith
  refine ⟨?_, roundQ_nonneg hpos.le, roundQ_le roundQ_quarter hpos.le hle⟩
  unfold F32.ofInt scale_mul
  rw [round_fin (by rw [abs_of_pos (by linarith)]; exact le_trans hs' (by norm_num))]
  show (if roundQ scale = 0 then _ else F32.round (1 / 4 / roundQ scale)) = _
  rw [if_neg hne]
  apply round_fin
  rw [abs_of_pos hpos]
  exact le_trans hle (by norm_num)

theorem hillshade_eq (hN hS hE hW scale : Int) (h : 0 < scale) (hr : scale < 2147483648) :
    calculate_hillshade hN hS hE hW (F32.ofInt scale)
      = F32.fin (hillshade_q hN hS hE hW scale) := by
  obtain ⟨e, m0, m1⟩ := scale_mul_int scale h hr
  exact hillshade_fin hN hS hE hW (F32.ofInt scale) (scale_mul scale) e m0 m1

theorem hillshade_flat (hN hS hE hW scale : Int) (hd : iadd hN hW = iadd hE hS) :
    hillshade_q hN hS hE hW scale = 1 := by
  unfold hillshade_q light_raw
  rw [hd, sub_self, roundQ_zero, zero_mul, roundQ_zero, add_zero, roundQ_one]
  norm_num

/-! ## C6: the range of the hillshade multiplier -/

/-- C6: for all `int` neighbour heights and every `int` scale `> 0`,
`calculate_hillshade(hN, hS, hE, hW, (float)scale)` is a finite `float` of the closed
interval `[0.5, 1.5]`. -/
theorem hillshade_range (hN hS hE hW scale : Int) (hs : 0 < scale) :
    ∃ l : ℚ, calculate_hillshade hN hS hE hW (F32.ofInt scale) = F32.fin l ∧
      1 / 2 ≤ l ∧ l ≤ 3 / 2 := by
  obtain ⟨mq, hmq, m0, m1⟩ := scale_mul_fin scale hs
  exact ⟨_, hillshade_fin hN hS hE hW (F32.ofInt scale) mq hmq m0 m1,
    le_min (le_max_right _ _) (by norm_num), min_le_right _ _⟩

/-- C6 (witness): heights 0, 0, 1, 0 at scale 3. -/
theorem hillshade_range_witness :
    (0 : Int) < 3 ∧ ∃ l : ℚ, calculate_hillshade 0 0 1 0 (F32.ofInt 3) = F32.fin l ∧
      1 / 2 ≤ l ∧ l ≤ 3 / 2 :=
  ⟨by decide, hillshade_range 0 0 1 0 3 (by decide)⟩

/-- For a scale `2^k` up to `2^21` and heights of magnitude at most 1024 no operation of
`calculate_hillshade` rounds: the result is the exact rational value. -/
theorem hillshade_q_pow2 (hN hS hE hW : Int) (k : Nat) (hk : k ≤ 21)
    (bN : |hN| ≤ 1024) (bS : |hS| ≤ 1024) (bE : |hE| ≤ 1024) (bW : |hW| ≤ 1024) :
    hillshade_q hN hS hE hW (2 ^ k)
      = min (max (1 + (((hE + hS : Int) : ℚ) - ((hN + hW : Int) : ℚ)) * (1 / 4) / 2 ^ k)
          (1 / 2)) (3 / 2) := by
  rw [abs_le] at bN bS bE bW
  have e0 : iadd hN hW = hN + hW := wrap32_id (by omega) (by omega)
  have e1 : iadd hE hS = hE + hS := wrap32_id (by omega) (by omega)
  have hD : |hE + hS - (hN + hW)| < 16777216 := by rw [abs_lt]; constructor <;> omega
  have r0 : roundQ ((hN + hW : Int) : ℚ) = ((hN + hW : Int) : ℚ) :=
    roundQ_int _ (by rw [abs_lt]; constructor <;> omega)
  have r1 : roundQ ((hE + hS : Int) : ℚ) = ((hE + hS : Int) : ℚ) :=
    roundQ_int _ (by rw [abs_lt]; constructor <;> omega)
  have rD : roundQ (((hE + hS : Int) : ℚ) - ((hN + hW : Int) : ℚ))
      = ((hE + hS - (hN + hW) : Int) : ℚ) := by
    rw [← Int.cast_sub]; exact roundQ_int _ hD
  have hs : roundQ (((2 ^ k : Int)) : ℚ) = 2 ^ (k : ℤ) := by
    have := roundQ_pow (k : ℤ) (by omega)
    rw [← this]; congr 1; push_cast; rw [zpow_natCast]
  have hm : scale_mul (2 ^ k) = 2 ^ (-(k + 2 : ℤ)) := by
    unfold scale_mul
    rw [hs]
    have : (1 : ℚ) / 4 / 2 ^ (k : ℤ) = 2 ^ (-(k + 2 : ℤ)) := by
      rw [zpow_neg, zpow_add₀ (by norm_num : (2 : ℚ) ≠ 0)]
      field_simp; norm_num; ring
    rw [this]
    exact roundQ_pow _ (by omega)
  have hP : roundQ (((hE + hS - (hN + hW) : Int) : ℚ) * 2 ^ (-(k + 2 : ℤ)))
      = ((hE + hS - (hN + hW) : Int) : ℚ) * 2 ^ (-(k + 2 : ℤ)) :=
    roundQ_dyadic _ _ hD (by omega)
  have hpow : (2 : ℤ) ^ (k + 2) ≤ 8388608 := by
    have : (2 : ℤ) ^ (k + 2) ≤ 2 ^ 23 := pow_le_pow_right₀ (by norm_num) (by omega)
    simpa using this
  have hpos : (0 : ℤ) < 2 ^ (k + 2) := by positivity
  have hsum : (1 : ℚ) + ((hE + hS - (hN + hW) : Int) : ℚ) * 2 ^ (-(k + 2 : ℤ))
      = ((2 ^ (k + 2) + (hE + hS - (hN + hW)) : Int) : ℚ) * 2 ^ (-(k + 2 : ℤ)) := by
    push_cast
    rw [add_mul, zpow_neg]
    congr 1
    have : ((2 : ℚ) ^ (k + 2)) = 2 ^ ((k : ℤ) + 2) := by
      rw [← zpow_natCast]; push_cast; rfl
    rw [this]
    field_simp
  have hL : roundQ ((1 : ℚ) + ((hE + hS - (hN + hW) : Int) : ℚ) * 2 ^ (-(k + 2 : ℤ)))
      = (1 : ℚ) + ((hE + hS - (hN + hW) : Int) : ℚ) * 2 ^ (-(k + 2 : ℤ)) := by
    rw [hsum]
    exact roundQ_dyadic _ _ (by rw [abs_lt] at hD ⊢; constructor <;> omega) (by omega)
  unfold hillshade_q light_raw
  rw [hm, e0, e1, r0, r1, rD, hP, hL]
  congr 2
  push_cast
  rw [zpow_neg, zpow_add₀ (by norm_num : (2 : ℚ) ≠ 0), zpow_natCast]
  field_simp
  ring

/-! ## The light multipliers of a call -/

theorem roundQ_of_dyadic {x : ℚ} (n k : ℤ) (hn : |n| < 16777216) (hk : -149 ≤ k)
    (hx : x = (n : ℚ) * 2 ^ k) : roundQ x = x := by
  rw [hx]; exact roundQ_dyadic n k hn hk

/-- In a call with shading that returns, the heights array holds `cell_height`, and the
light multiplier of every pixel is `light_at`. -/
theorem generate_lights (W : World) (hp : Heap) (m : Mem) (seed_lo seed_hi : Nat)
    (x z : Int) (w h : Nat) (scale mc shader_kind y_level : Int) (res : Mem × Nat)
    (hw : 0 < w) (hh : 0 < h) (hwr : w < 2147483648) (hhr : h < 2147483648)
    (hk : shader_kind > 0)
    (hret : generate_biome_image W hp m seed_lo seed_hi x z (w : Int) (h : Int) scale mc
      shader_kind y_level = some res) :
    ∃ g hts, fill_grid W hp (seed64 seed_lo seed_hi) x z (w : Int) (h : Int) scale mc
        shader_kind y_level = some g ∧ g.heights = some hts ∧
      (∀ i j : Nat, i < w + 2 → j < h + 2 →
        hts.read (iadd (imul (j : Int) (iadd (w : Int) 2)) (i : Int))
          = some (cell_height W mc (seed64 seed_lo seed_hi) x z scale i j)) ∧
      ∀ (sk : Int) (px py : Nat), px < w → py < h →
        pixel_light hts (iadd (w : Int) 2) scale sk py px
          = some (light_at W mc (seed64 seed_lo seed_hi) x z scale sk px py) := by
  obtain ⟨_, hpad, _, _⟩ := generate_some W hp m seed_lo seed_hi x z w h scale mc shader_kind
    y_level res hw hh hwr hhr hret
  obtain ⟨g, hg, ginv⟩ := fill_grid_ok W hp (seed64 seed_lo seed_hi) x z scale mc shader_kind
    y_level w h hpad
  obtain ⟨hts, hh', hsz, hdat⟩ := ginv.hsome hk
  obtain ⟨hw2, _⟩ := pad_lt hpad
  refine ⟨g, hts, hg, hh', fun i j hi hj => ?_, fun sk px py hx hy => ?_⟩
  · rw [iadd_two w (by omega)]
    exact grid_read (w + 2) (h + 2) hts (cell_height W mc (seed64 seed_lo seed_hi) x z scale)
      hpad hsz hdat j i hj hi
  · rw [iadd_two w (by omega)]
    exact pixel_light_eq W mc (seed64 seed_lo seed_hi) x z scale sk w h hts hpad hsz hdat px py
      hx hy

/-! ## C7: the range of the applied multiplier -/

theorem light_at_simple (W : World) (mc seed x z scale : Int) (px py : Nat) :
    light_at W mc seed x z scale 1 px py = calculate_hillshade
      (cell_height W mc seed x z scale (px + 1) py)
      (cell_height W mc seed x z scale (px + 1) (py + 2))
      (cell_height W mc seed x z scale (px + 2) (py + 1))
      (cell_height W mc seed x z scale px (py + 1)) (F32.ofInt scale) := by
  simp only [light_at]
  rw [if_neg (show ¬ ((1 : Int) = 2) by decide)]

/-- In a call that returns, the biomes array holds `cell_biome`. -/
theorem generate_biomes (W : World) (hp : Heap) (m : Mem) (seed_lo seed_hi : Nat)
    (x z : Int) (w h : Nat) (scale mc shader_kind y_level : Int) (res : Mem × Nat)
    (hw : 0 < w) (hh : 0 < h) (hwr : w < 2147483648) (hhr : h < 2147483648)
    (hret : generate_biome_image W hp m seed_lo seed_hi x z (w : Int) (h : Int) scale mc
      shader_kind y_level = some res) :
    ∃ g, fill_grid W hp (seed64 seed_lo seed_hi) x z (w : Int) (h : Int) scale mc
        shader_kind y_level = some g ∧
      ∀ i j : Nat, i < w + 2 → j < h + 2 →
        g.biomes.read (iadd (imul (j : Int) (iadd (w : Int) 2)) (i : Int))
          = some (cell_biome W mc (seed64 seed_lo seed_hi) x z scale y_level i j) := by
  obtain ⟨_, hpad, _, _⟩ := generate_some W hp m seed_lo seed_hi x z w h scale mc shader_kind
    y_level res hw hh hwr hhr hret
  obtain ⟨g, hg, ginv⟩ := fill_grid_ok W hp (seed64 seed_lo seed_hi) x z scale mc shader_kind
    y_level w h hpad
  obtain ⟨hw2, _⟩ := pad_lt hpad
  refine ⟨g, hg, fun i j hi hj => ?_⟩
  rw [iadd_two w (by omega)]
  exact grid_read (w + 2) (h + 2) g.biomes
    (cell_biome W mc (seed64 seed_lo seed_hi) x z scale y_level) hpad ginv.bsize ginv.bdata
    j i hj hi

set_option maxRecDepth 100000 in
theorem ramp_light_simple :
    light_at rampWorld 22 (seed64 0 0) 0 0 32 1 0 0 = F32.fin (17 / 16) := by
  have cN : cell_height rampWorld 22 (seed64 0 0) 0 0 32 (0 + 1) 0 = 99 := by decide
  have cS : cell_height rampWorld 22 (seed64 0 0) 0 0 32 (0 + 1) (0 + 2) = 99 := by decide
  have cE : cell_height rampWorld 22 (seed64 0 0) 0 0 32 (0 + 2) (0 + 1) = 103 := by decide
  have cW : cell_height rampWorld 22 (seed64 0 0) 0 0 32 0 (0 + 1) = 95 := by decide
  have hq : hillshade_q 99 99 103 95 32 = 17 / 16 := by
    have := hillshade_q_pow2 99 99 103 95 5 (by norm_num) (by decide) (by decide) (by decide)
      (by decide)
    norm_num at this
    exact this
  rw [light_at_simple, cN, cS, cE, cW, hillshade_eq _ _ _ _ _ (by decide) (by decide), hq]

theorem cell_coord_eq (origin scale : Int) (i : Nat) :
    cell_coord origin scale i = wrap32 (origin + ((i : Int) - 1) * scale) := by
  have e : ((i : Int) - 1) * scale = (i : Int) * scale - scale := by ring
  unfold cell_coord iadd isub imul
  rw [e]
  generalize (i : Int) * scale = t
  unfold wrap32
  omega

/-- C11 (counterexample): with `x = 2147483647` and `scale = 1` the world coordinate of
cell `(2, 1)` of the padded grid wraps to `-2147483648`: the entry `1 * 3 + 2` holds the
biome there (id 2), not the biome at `x + (i - 1) * scale = 2147483648` (id 1).  And for
`width = 1`, `height = 357913940` the byte size of the padded arrays wraps: they have 2
cells, not `3 * 357913942`. -/
theorem grid_coordinate_wraps :
    ∃ g, fill_grid signWorld junkHeap (seed64 0 0) 2147483647 0 ((1 : Nat) : Int)
        ((1 : Nat) : Int) 1 22 0 64 = some g ∧
      g.biomes.read (iadd (imul ((1 : Nat) : Int) (iadd ((1 : Nat) : Int) 2)) ((2 : Nat) : Int))
        = some 2 ∧
      signWorld.getBiomeAt 22 (seed64 0 0) 1 (2147483647 + (2 - 1) * 1) 64 (0 + (1 - 1) * 1)
        = 1 ∧
      grid_cells (iadd ((1 : Nat) : Int) 2) (iadd ((357913940 : Nat) : Int) 2) = 2 ∧
      (1 + 2) * (357913940 + 2) = 1073741826 := by
  obtain ⟨g, hg, ginv⟩ := fill_grid_ok signWorld junkHeap (seed64 0 0) 2147483647 0 1 22 0 64
    1 1 (by norm_num)
  refine ⟨g, hg, ?_, by decide, by decide, by decide⟩
  rw [iadd_two 1 (by norm_num), grid_read (1 + 2) (1 + 2) g.biomes
    (cell_biome signWorld 22 (seed64 0 0) 2147483647 0 1 64) (by norm_num) ginv.bsize
    ginv.bdata 1 2 (by norm_num) (by norm_num)]
  decide

/-- C11 (amended): when the padded grid has fewer than `2^30` cells, as it has in every
call of `generate_biome_image` with positive dimensions that returns, the grid is built,
its arrays have exactly `(width + 2) * (height + 2)` cells, and for every cell `(i, j)`
with `i < width + 2` and `j < height + 2` the row-major entry `j * (width + 2) + i` of
`biomes` holds the id that the world model returns at `(X, y_level, Z)`, unchanged, where
`X` and `Z` are `x + (i - 1) * scale` and `z + (j - 1) * scale` reduced to the 32-bit
`int` range (and equal to them when they fit it). -/
theorem grid_contents (W : World) (hp : Heap) (m : Mem) (seed_lo seed_hi : Nat)
    (x z : Int) (w h : Nat) (scale mc shader_kind y_level : Int)
    (hw : 0 < w) (hh : 0 < h) (hwr : w < 2147483648) (hhr : h < 2147483648)
    (hfit : (w + 2) * (h + 2) < 1073741824 ∨
      ∃ res, generate_biome_image W hp m seed_lo seed_hi x z (w : Int) (h : Int) scale mc
        shader_kind y_level = some res) :
    (∃ g, fill_grid W hp (seed64 seed_lo seed_hi) x z (w : Int) (h : Int) scale mc
        shader_kind y_level = some g ∧
      g.biomes.size = (w + 2) * (h + 2) ∧
      (∀ hts, g.heights = some hts → hts.size = (w + 2) * (h + 2)) ∧
      ∀ i j : Nat, i < w + 2 → j < h + 2 →
        iadd (imul (j : Int) (iadd (w : Int) 2)) (i : Int) = ((j * (w + 2) + i : Nat) : Int) ∧
        j * (w + 2) + i < (w + 2) * (h + 2) ∧
        g.biomes.read (iadd (imul (j : Int) (iadd (w : Int) 2)) (i : Int))
          = some (W.getBiomeAt mc (seed64 seed_lo seed_hi) scale
              (wrap32 (x + ((i : Int) - 1) * scale)) y_level
              (wrap32 (z + ((j : Int) - 1) * scale)))) ∧
    (∀ n : Int, -2147483648 ≤ n → n < 2147483648 → wrap32 n = n) := by
  refine ⟨?_, fun n h1 h2 => wrap32_id h1 h2⟩
  have hpad : (w + 2) * (h + 2) < 1073741824 := by
    rcases hfit with hp' | ⟨res, hret⟩
    · exact hp'
    · exact (generate_some W hp m seed_lo seed_hi x z w h scale mc shader_kind y_level res
        hw hh hwr hhr hret).2.1
  obtain ⟨g, hg, ginv⟩ := fill_grid_ok W hp (seed64 seed_lo seed_hi) x z scale mc
    shader_kind y_level w h hpad
  obtain ⟨hw2, _⟩ := pad_lt hpad
  refine ⟨g, hg, ginv.bsize, fun hts hh' => ?_, fun i j hi hj => ?_⟩
  · by_cases hk : shader_kind > 0
    · obtain ⟨hts', e, hsz, _⟩ := ginv.hsome hk
      rw [hh'] at e
      rw [Option.some.inj e]; exact hsz
    · rw [ginv.hnone hk] at hh'
      exact absurd hh' (by simp)
  · have hlt := lin_lt hj hi
    refine ⟨?_, by rw [Nat.mul_comm (w + 2) (h + 2)] at hlt ⊢; nlinarith, ?_⟩
    · rw [iadd_two w (by omega), idx_eq j (w + 2) i (by omega)]
    · rw [iadd_two w (by omega), grid_read (w + 2) (h + 2) g.biomes
        (cell_biome W mc (seed64 seed_lo seed_hi) x z scale y_level) hpad ginv.bsize
        ginv.bdata j i hj hi]
      unfold cell_biome
      rw [cell_coord_eq, cell_coord_eq]

/-- C11 (witness): the padded grid of a 2×2 image of the stub world. -/
theorem grid_contents_witness :
    (0 < 2 ∧ 2 < 2147483648 ∧ (2 + 2) * (2 + 2) < 1073741824) ∧
    ((∃ g, fill_grid stubWorld junkHeap (seed64 0 0) 0 0 ((2 : Nat) : Int) ((2 : Nat) : Int)
        1 22 0 64 = some g ∧
      g.biomes.size = (2 + 2) * (2 + 2) ∧
      (∀ hts, g.heights = some hts → hts.size = (2 + 2) * (2 + 2)) ∧
      ∀ i j : Nat, i < 2 + 2 → j < 2 + 2 →
        iadd (imul (j : Int) (iadd ((2 : Nat) : Int) 2)) (i : Int)
          = ((j * (2 + 2) + i : Nat) : Int) ∧
        j * (2 + 2) + i < (2 + 2) * (2 + 2) ∧
        g.biomes.read (iadd (imul (j : Int) (iadd ((2 : Nat) : Int) 2)) (i : Int))
          = some (stubWorld.getBiomeAt 22 (seed64 0 0) 1
              (wrap32 (0 + ((i : Int) - 1) * 1)) 64 (wrap32 (0 + ((j : Int) - 1) * 1)))) ∧
    (∀ n : Int, -2147483648 ≤ n → n < 2147483648 → wrap32 n = n)) :=
  ⟨⟨by decide, by decide, by decide⟩,
    grid_contents stubWorld junkHeap Mem.init 0 0 0 0 2 2 1 22 0 64 (by decide) (by decide)
      (by decide) (by decide) (Or.inl (by decide))⟩

/-! ## C12: the surface probe -/

/-- C13: for every `int` biome id `b` the palette index `b & 0xFF` lies in `0 .. 255` and
is `b mod 256` (the non-negative remainder), so the sentinel `-1` has index 255 and the ids
`b` and `b + 256` have the same index; and with `shader_kind = 0` every pixel of a call
that returns holds the palette entry at index `biome & 0xFF` of its biome id `biome`, the
centre cell of the padded grid, with alpha 255: entry 255 for the undefined id `-1`. -/
theorem palette_lookup (W : World) (hp : Heap) (m : Mem) (seed_lo seed_hi : Nat)
    (x z : Int) (w h : Nat) (scale mc y_level : Int)
    (hw : 0 < w) (hh : 0 < h) (hwr : w < 2147483648) (hhr : h < 2147483648) :
    (∀ b : Int, 0 ≤ mask_ff b ∧ mask_ff b < 256 ∧ mask_ff b = b % 256 ∧
      mask_ff (b + 256) = mask_ff b ∧ mask_ff (iadd b 256) = mask_ff b) ∧
    mask_ff (-1) = 255 ∧
    (Fits w h → m.wf → ∃ res, generate_biome_image W hp m seed_lo seed_hi x z (w : Int)
      (h : Int) scale mc 0 y_level = some res) ∧
    ∀ res, generate_biome_image W hp m seed_lo seed_hi x z (w : Int) (h : Int) scale mc
      0 y_level = some res →
      ∃ g buf, fill_grid W hp (seed64 seed_lo seed_hi) x z (w : Int) (h : Int) scale mc
          0 y_level = some g ∧ res.1.image_buffer = some buf ∧
        ∀ px py : Nat, px < w → py < h → ∃ biome : Int,
          g.biomes.read (iadd (imul ((py + 1 : Nat) : Int) (iadd (w : Int) 2))
            ((px + 1 : Nat) : Int)) = some biome ∧
          (∀ c, c < 3 → buf.data ((py * w + px) * 4 + c)
            = W.biomeColors (mask_ff biome).toNat c) ∧
          buf.data ((py * w + px) * 4 + 3) = 255 ∧
          (biome = -1 → ∀ c, c < 3 → buf.data ((py * w + px) * 4 + c) = W.biomeColors 255 c) := by
  have hmask : ∀ b : Int, 0 ≤ mask_ff b ∧ mask_ff b < 256 ∧ mask_ff b = b % 256 ∧
      mask_ff (b + 256) = mask_ff b ∧ mask_ff (iadd b 256) = mask_ff b := by
    intro b
    refine ⟨?_, ?_, mask_ff_eq b, ?_, ?_⟩
    · rw [mask_ff_eq]; omega
    · rw [mask_ff_eq]; omega
    · rw [mask_ff_eq, mask_ff_eq]; omega
    · rw [mask_ff_eq, mask_ff_eq]; unfold iadd wrap32; omega
  have hneg : mask_ff (-1) = 255 := by rw [mask_ff_eq]; decide
  refine ⟨hmask, hneg, ?_, ?_⟩
  · intro hfit hm
    obtain ⟨m', hm'⟩ := generate_total W hp m seed_lo seed_hi x z w h scale mc 0
      y_level hfit hm (fun c => absurd c (by decide))
    exact ⟨_, hm'⟩
  · intro res hret
    obtain ⟨_, b1, buf, _, hres, _, _, hpix, _⟩ := generate_post W hp m seed_lo seed_hi x z
      w h scale mc 0 y_level res hw hh hwr hhr hret
    obtain ⟨g, hg, hbio⟩ := generate_biomes W hp m seed_lo seed_hi x z w h scale
      mc 0 y_level res hw hh hwr hhr hret
    refine ⟨g, buf, hg, by rw [hres], fun px py hx hy => ?_⟩
    obtain ⟨col, hcol, a0, a1, a2, a3⟩ := hpix px py hx hy
    simp only [pixel_spec] at hcol
    rw [if_neg (by decide), ← mask_ff_eq] at hcol
    have hk := Option.some.inj hcol
    have e : (py * w + px) * 4 = 4 * (py * w + px) := by ring
    have bytes : ∀ c, c < 3 → buf.data ((py * w + px) * 4 + c)
        = W.biomeColors (mask_ff (cell_biome W mc (seed64 seed_lo seed_hi) x z scale y_level
            (px + 1) (py + 1))).toNat c := by
      intro c hc
      rw [e]
      have hc' : c = 0 ∨ c = 1 ∨ c = 2 := by omega
      rcases hc' with c0 | c0 | c0 <;> subst c0
      · rw [Nat.add_zero, a0, ← hk]
      · rw [a1, ← hk]
      · rw [a2, ← hk]
    refine ⟨_, hbio (px + 1) (py + 1) (by omega) (by omega), bytes, by rw [e]; exact a3, ?_⟩
    intro hb c hc
    rw [bytes c hc, hb, hneg]
    rfl

/-- C13 (witness): an unshaded 2×2 image of the world model that is undefined
everywhere. -/
theorem palette_lookup_witness :
    (0 < 2 ∧ 2 < 2147483648) ∧
    ((∀ b : Int, 0 ≤ mask_ff b ∧ mask_ff b < 256 ∧ mask_ff b = b % 256 ∧
      mask_ff (b + 256) = mask_ff b ∧ mask_ff (iadd b 256) = mask_ff b) ∧
    mask_ff (-1) = 255 ∧
    (Fits 2 2 → Mem.init.wf → ∃ res, generate_biome_image voidWorld junkHeap Mem.init 0 0 0 0
      ((2 : Nat) : Int) ((2 : Nat) : Int) 1 22 0 64 = some res) ∧
    ∀ res, generate_biome_image voidWorld junkHeap Mem.init 0 0 0 0 ((2 : Nat) : Int)
      ((2 : Nat) : Int) 1 22 0 64 = some res →
      ∃ g buf, fill_grid voidWorld junkHeap (seed64 0 0) 0 0 ((2 : Nat) : Int)
          ((2 : Nat) : Int) 1 22 0 64 = some g ∧ res.1.image_buffer = some buf ∧
        ∀ px py : Nat, px < 2 → py < 2 → ∃ biome : Int,
          g.biomes.read (iadd (imul ((py + 1 : Nat) : Int) (iadd ((2 : Nat) : Int) 2))
            ((px + 1 : Nat) : Int)) = some biome ∧
          (∀ c, c < 3 → buf.data ((py * 2 + px) * 4 + c)
            = voidWorld.biomeColors (mask_ff biome).toNat c) ∧
          buf.data ((py * 2 + px) * 4 + 3) = 255 ∧
          (biome = -1 → ∀ c, c < 3 →
            buf.data ((py * 2 + px) * 4 + c) = voidWorld.biomeColors 255 c)) :=
  ⟨⟨by decide, by decide⟩,
    palette_lookup voidWorld junkHeap Mem.init 0 0 0 0 2 2 1 22 64 (by decide) (by decide)
      (by decide) (by decide)⟩

/-! ## C14: the shaded byte -/

theorem shade_red_ramp : shade_q 255 (17 / 16) = 14 := by
  have hr : roundQ ((255 : ℕ) * (17 / 16 : ℚ)) = 4335 / 16 := by
    rw [roundQ_of_dyadic 4335 (-4) (by norm_num) (by norm_num) (by norm_num)]
    norm_num
  have hf : ⌊(4335 / 16 : ℚ)⌋ = 270 := by
    rw [Int.floor_eq_iff]; norm_num
  unfold shade_q
  rw [hr, hf]
  decide

/-- C14 (failing input): a 1×1 image at scale 32 with simple shading, of a world whose
heights around the pixel are north = south = 99, east = 103, west = 95 and whose palette
entry has red 255.  The multiplier is `17/16`, inside `[0.5, 1.5]`; the product
`255 * 17/16 = 270.9375` truncates to 270, which is not an 8-bit value, and the byte that
the unclamped conversion `(uint8_t)(r * light)` leaves in the buffer is 14. -/
theorem shaded_byte_wraps :
    ∃ m1 b1 g hts,
      generate_biome_image rampWorld junkHeap Mem.init 0 0 0 0 ((1 : Nat) : Int)
        ((1 : Nat) : Int) 32 22 1 64 = some (m1, 4) ∧
      m1.image_buffer = some b1 ∧
      fill_grid rampWorld junkHeap (seed64 0 0) 0 0 ((1 : Nat) : Int) ((1 : Nat) : Int)
        32 22 1 64 = some g ∧ g.heights = some hts ∧
      g.biomes.read (iadd (imul ((0 + 1 : Nat) : Int) (iadd ((1 : Nat) : Int) 2))
        ((0 + 1 : Nat) : Int)) = some 1 ∧
      rampWorld.biomeColors (mask_ff 1).toNat 0 = 255 ∧
      pixel_light hts (iadd ((1 : Nat) : Int) 2) 32 1 0 0 = some (F32.fin (17 / 16)) ∧
      ⌊((255 : Nat) : ℚ) * (17 / 16)⌋ = 270 ∧
      b1.data ((0 * 1 + 0) * 4 + 0) = 14 := by
  have hfit : Fits 1 1 := by unfold Fits; constructor <;> norm_num
  obtain ⟨m1, h1⟩ := generate_total rampWorld junkHeap Mem.init 0 0 0 0 1 1 32 22 1 64 hfit
    init_wf (fun _ => by decide)
  obtain ⟨_, _, b1, _, hres1, _, _, hpix1, _⟩ := generate_post rampWorld junkHeap Mem.init 0
    0 0 0 1 1 32 22 1 64 _ (by decide) (by decide) (by decide) (by decide) h1
  obtain ⟨g, hts, hg, hh', _, hl⟩ := generate_lights rampWorld junkHeap Mem.init 0 0 0 0 1 1
    32 22 1 64 _ (by decide) (by decide) (by decide) (by decide) (by decide) h1
  obtain ⟨g', hg', hbio⟩ := generate_biomes rampWorld junkHeap Mem.init 0 0 0 0 1 1
    32 22 1 64 _ (by decide) (by decide) (by decide) (by decide) h1
  have hgg : g' = g := by rw [hg] at hg'; exact (Option.some.inj hg').symm
  rw [hgg] at hbio
  obtain ⟨c1, hc1, a0, _, _, _⟩ := hpix1 0 0 (by decide) (by decide)
  rw [pixel_spec_shaded rampWorld 22 (seed64 0 0) 0 0 32 1 64 0 0 (17 / 16) (by decide)
    ramp_light_simple (by norm_num) (by norm_num)] at hc1
  have em1 : m1 = ⟨some b1, (ensure_buffer junkHeap Mem.init ((1 : Nat) : Int)
      ((1 : Nat) : Int)).image_buffer_size⟩ := congrArg Prod.fst hres1
  have a0' : b1.data (4 * (0 * 1 + 0) + 0) = c1.1 := a0
  refine ⟨m1, b1, g, hts, h1, by rw [em1], hg, hh', ?_, ?_, ?_, ?_, ?_⟩
  · rw [hbio (0 + 1) (0 + 1) (by decide) (by decide)]
    rfl
  · rw [mask_ff_eq]; rfl
  · rw [hl 1 0 0 (by decide) (by decide), ramp_light_simple]
  · rw [Int.floor_eq_iff]; norm_num
  · have e : (0 * 1 + 0) * 4 + 0 = 4 * (0 * 1 + 0) + 0 := by norm_num
    rw [e, a0', ← Option.some.inj hc1]
    exact shade_red_ramp

/-! ## C15: reuse of the buffer -/

/-- C15: when `generate_biome_image` is called with a live buffer whose capacity is at
least `img_size = width * height * 4`, the allocation check leaves the statics as they
are (no `free`, no `malloc`), and a call that returns leaves the same capacity and a buffer
of the same size in which every byte at an offset `≥ width * height * 4` has the value it
had before the call. -/
theorem buffer_reused (W : World) (hp : Heap) (m : Mem) (seed_lo seed_hi : Nat)
    (x z : Int) (w h : Nat) (scale mc shader_kind y_level : Int) (b : Block Nat)
    (hwr : w < 2147483648) (hhr : h < 2147483648)
    (hb : m.image_buffer = some b)
    (hcap : img_size (w : Int) (h : Int) ≤ m.image_buffer_size) :
    (Fits w h → m.wf → (shader_kind > 0 → 0 < scale) → ∃ res, generate_biome_image W hp m
      seed_lo seed_hi x z (w : Int) (h : Int) scale mc shader_kind y_level = some res) ∧
    ensure_buffer hp m (w : Int) (h : Int) = m ∧
    ∀ res, generate_biome_image W hp m seed_lo seed_hi x z (w : Int) (h : Int) scale mc
      shader_kind y_level = some res →
      res.2 = img_size (w : Int) (h : Int) ∧
      res.1.image_buffer_size = m.image_buffer_size ∧
      ∃ buf, get_buffer res.1 = some buf ∧ buf.size = b.size ∧
        ∀ q, w * h * 4 ≤ q → buf.data q = b.data q := by
  have hidle := ensure_idle hp m (w : Int) (h : Int) b hb hcap
  refine ⟨?_, hidle, ?_⟩
  · intro hfit hm hs
    obtain ⟨m', hm'⟩ := generate_total W hp m seed_lo seed_hi x z w h scale mc shader_kind
      y_level hfit hm hs
    exact ⟨_, hm'⟩
  · intro res hret
    obtain ⟨hr, hcap, _, hlive⟩ := generate_shape W hp m seed_lo seed_hi x z
      (w : Int) (h : Int) scale mc shader_kind y_level res hret
    rw [hidle] at hcap hlive
    obtain ⟨buf, hbuf, hsize, hzero⟩ := hlive b hb
    refine ⟨hr, hcap, buf, hbuf, hsize, ?_⟩
    by_cases hpos : 0 < w ∧ 0 < h
    · obtain ⟨_, b1', buf', hb1', hres', _, _, _, hrest⟩ := generate_post W hp m seed_lo
        seed_hi x z w h scale mc shader_kind y_level res hpos.1 hpos.2 hwr hhr hret
      rw [hidle, hb] at hb1'
      have eb' : b1' = b := (Option.some.inj hb1').symm
      have ebuf : buf = buf' := by
        rw [hres'] at hbuf
        exact (Option.some.inj hbuf).symm
      intro q hq
      rw [ebuf, hrest q (by omega), eb']
    · have hz : (w : Int) ≤ 0 ∨ (h : Int) ≤ 0 := by omega
      intro q _
      rw [hzero hz]

/-- C15 (witness): a 1×1 image rendered into a live buffer of 16 bytes. -/
theorem buffer_reused_witness :
    (1 < 2147483648 ∧
      (⟨some ⟨16, fun _ => 7⟩, 16⟩ : Mem).image_buffer = some ⟨16, fun _ => 7⟩ ∧
      img_size ((1 : Nat) : Int) ((1 : Nat) : Int)
        ≤ (⟨some ⟨16, fun _ => 7⟩, 16⟩ : Mem).image_buffer_size) ∧
    ((Fits 1 1 → (⟨some ⟨16, fun _ => 7⟩, 16⟩ : Mem).wf → ((0 : Int) > 0 → (0 : Int) < 1) →
      ∃ res, generate_biome_image stubWorld junkHeap ⟨some ⟨16, fun _ => 7⟩, 16⟩ 0 0 0 0
        ((1 : Nat) : Int) ((1 : Nat) : Int) 1 22 0 64 = some res) ∧
    ensure_buffer junkHeap ⟨some ⟨16, fun _ => 7⟩, 16⟩ ((1 : Nat) : Int) ((1 : Nat) : Int)
      = ⟨some ⟨16, fun _ => 7⟩, 16⟩ ∧
    ∀ res, generate_biome_image stubWorld junkHeap ⟨some ⟨16, fun _ => 7⟩, 16⟩ 0 0 0 0
      ((1 : Nat) : Int) ((1 : Nat) : Int) 1 22 0 64 = some res →
      res.2 = img_size ((1 : Nat) : Int) ((1 : Nat) : Int) ∧
      res.1.image_buffer_size = (⟨some ⟨16, fun _ => 7⟩, 16⟩ : Mem).image_buffer_size ∧
      ∃ buf, get_buffer res.1 = some buf ∧ buf.size = (⟨16, fun _ => 7⟩ : Block Nat).size ∧
        ∀ q, 1 * 1 * 4 ≤ q → buf.data q = (⟨16, fun _ => 7⟩ : Block Nat).data q) :=
  ⟨⟨by decide, rfl, by decide⟩,
    buffer_reused stubWorld junkHeap ⟨some ⟨16, fun _ => 7⟩, 16⟩ 0 0 0 0 1 1 1 22 0 64
      ⟨16, fun _ => 7⟩ (by decide) (by decide) rfl (by decide)⟩

/-! ## C16: the wrapper before `cubiomes_init` -/

/-- C16: in every state of the wrapper with `initialized = 0`, `cubiomes_gen_biomes`,
`cubiomes_gen_heightmap`, `cubiomes_get_biome_at`, `cubiomes_get_bastion_type` and
`cubiomes_end_city_has_ship` return `-1`, `cubiomes_biome_to_str` returns the empty
string, and `cubiomes_set_seed` leaves the statics as they are; the two generating
functions leave the block behind `outPtr` as it is.  In every state, they return `-1` for a
null `outPtr`.  None of these results depends on the library. -/
theorem not_initialized_policy {γ σ : Type} (L : Cubiomes γ σ) (s : Wrapper γ σ)
    (hinit : s.initialized = 0) :
    (∀ (blockX blockZ width height scale yLevel : Int) (outPtr : Option (Block Int)),
      cubiomes_gen_biomes L s blockX blockZ width height scale yLevel outPtr
        = some (outPtr, -1)) ∧
    (∀ (quartX quartZ width height : Int) (outPtr : Option (Block F32)),
      cubiomes_gen_heightmap L s quartX quartZ width height outPtr = (outPtr, -1)) ∧
    (∀ blockX blockZ yLevel : Int, cubiomes_get_biome_at L s blockX blockZ yLevel = -1) ∧
    (∀ blockX blockZ : Int, cubiomes_get_bastion_type L s blockX blockZ = -1) ∧
    (∀ chunkX chunkZ : Int, cubiomes_end_city_has_ship L s chunkX chunkZ = -1) ∧
    (∀ biomeId : Int, cubiomes_biome_to_str L s biomeId = "") ∧
    (∀ (seedLo seedHi : Nat) (dimension : Int),
      cubiomes_set_seed L s seedLo seedHi dimension = s) ∧
    (∀ (t : Wrapper γ σ) (blockX blockZ width height scale yLevel : Int),
      cubiomes_gen_biomes L t blockX blockZ width height scale yLevel none
        = some (none, -1)) ∧
    (∀ (t : Wrapper γ σ) (quartX quartZ width height : Int),
      cubiomes_gen_heightmap L t quartX quartZ width height none = (none, -1)) := by
  refine ⟨?_, ?_, ?_, ?_, ?_, ?_, ?_, ?_, ?_⟩
  · intro blockX blockZ width height scale yLevel outPtr
    cases outPtr with
    | none => rfl
    | some out => simp only [cubiomes_gen_biomes]; rw [if_pos hinit]
  · intro quartX quartZ width height outPtr
    cases outPtr with
    | none => rfl
    | some out => simp only [cubiomes_gen_heightmap]; rw [if_pos hinit]
  · intro blockX blockZ yLevel
    unfold cubiomes_get_biome_at; rw [if_pos hinit]
  · intro blockX blockZ
    unfold cubiomes_get_bastion_type; rw [if_pos hinit]
  · intro chunkX chunkZ
    unfold cubiomes_end_city_has_ship; rw [if_pos hinit]
  · intro biomeId
    unfold cubiomes_biome_to_str; rw [if_pos hinit]
  · intro seedLo seedHi dimension
    unfold cubiomes_set_seed; rw [if_pos hinit]
  · intro t blockX blockZ width height scale yLevel
    rfl
  · intro t quartX quartZ width height
    rfl

/-- C16 (witness): the wrapper at program start, on a stub of the library. -/
theorem not_initialized_policy_witness :
    Wrapper.init.initialized = 0 ∧
    ((∀ (blockX blockZ width height scale yLevel : Int) (outPtr : Option (Block Int)),
      cubiomes_gen_biomes stubLib Wrapper.init blockX blockZ width height scale yLevel outPtr
        = some (outPtr, -1)) ∧
    (∀ (quartX quartZ width height : Int) (outPtr : Option (Block F32)),
      cubiomes_gen_heightmap stubLib Wrapper.init quartX quartZ width height outPtr
        = (outPtr, -1)) ∧
    (∀ blockX blockZ yLevel : Int,
      cubiomes_get_biome_at stubLib Wrapper.init blockX blockZ yLevel = -1) ∧
    (∀ blockX blockZ : Int, cubiomes_get_bastion_type stubLib Wrapper.init blockX blockZ = -1) ∧
    (∀ chunkX chunkZ : Int, cubiomes_end_city_has_ship stubLib Wrapper.init chunkX chunkZ = -1) ∧
    (∀ biomeId : Int, cubiomes_biome_to_str stubLib Wrapper.init biomeId = "") ∧
    (∀ (seedLo seedHi : Nat) (dimension : Int),
      cubiomes_set_seed stubLib Wrapper.init seedLo seedHi dimension = Wrapper.init) ∧
    (∀ (t : Wrapper Unit Unit) (blockX blockZ width height scale yLevel : Int),
      cubiomes_gen_biomes stubLib t blockX blockZ width height scale yLevel none
        = some (none, -1)) ∧
    (∀ (t : Wrapper Unit Unit) (quartX quartZ width height : Int),
      cubiomes_gen_heightmap stubLib t quartX quartZ width height none = (none, -1))) :=
  ⟨rfl, not_initialized_policy stubLib Wrapper.init rfl⟩

/-! ## C17: the version resolver -/

/-- C17: `parseVersion` resolves every unrecognised combination (`major ≠ 1`, or `minor`
outside of 18, 19, 20, 21) to `MC_NEWEST`, and for `major = 1` selects by the patch,
highest threshold first: minor 18 gives `MC_1_18`; minor 19 gives `MC_1_19_4` for
`patch ≥ 4`, `MC_1_19_2` for `2 ≤ patch < 4`, `MC_1_19` for `patch < 2`; minor 20 gives
`MC_1_20_6` for `patch ≥ 6`, else `MC_1_20`; minor 21 gives `MC_1_21_WD` for `patch ≥ 3`,
`MC_1_21_3` for `1 ≤ patch < 3`, `MC_1_21_1` for `patch < 1`. -/
theorem parse_version_table (V : Versions) (major minor patch : Int) :
    ((major ≠ 1 ∨ (minor ≠ 18 ∧ minor ≠ 19 ∧ minor ≠ 20 ∧ minor ≠ 21)) →
      parseVersion V major minor patch = V.MC_NEWEST) ∧
    (major = 1 → minor = 18 → parseVersion V major minor patch = V.MC_1_18) ∧
    (major = 1 → minor = 19 →
      (patch ≥ 4 → parseVersion V major minor patch = V.MC_1_19_4) ∧
      (2 ≤ patch → patch < 4 → parseVersion V major minor patch = V.MC_1_19_2) ∧
      (patch < 2 → parseVersion V major minor patch = V.MC_1_19)) ∧
    (major = 1 → minor = 20 →
      (patch ≥ 6 → parseVersion V major minor patch = V.MC_1_20_6) ∧
      (patch < 6 → parseVersion V major minor patch = V.MC_1_20)) ∧
    (major = 1 → minor = 21 →
      (patch ≥ 3 → parseVersion V major minor patch = V.MC_1_21_WD) ∧
      (1 ≤ patch → patch < 3 → parseVersion V major minor patch = V.MC_1_21_3) ∧
      (patch < 1 → parseVersion V major minor patch = V.MC_1_21_1)) := by
  refine ⟨?_, ?_, ?_, ?_, ?_⟩
  · intro hcase
    unfold parseVersion
    rcases hcase with hm | ⟨h18, h19, h20, h21⟩
    · rw [if_pos hm]
    · by_cases hm : major ≠ 1
      · rw [if_pos hm]
      · rw [if_neg hm, if_neg h18, if_neg h19, if_neg h20, if_neg h21]
  · intro hm h18
    unfold parseVersion
    rw [if_neg (by simp [hm]), if_pos h18]
  · intro hm h19
    unfold parseVersion
    rw [if_neg (by simp [hm]), if_neg (by omega), if_pos h19]
    refine ⟨fun h4 => by rw [if_pos h4], fun h2 h4 => ?_, fun h2 => ?_⟩
    · rw [if_neg (by omega), if_pos (by omega)]
    · rw [if_neg (by omega), if_neg (by omega)]
  · intro hm h20
    unfold parseVersion
    rw [if_neg (by simp [hm]), if_neg (by omega), if_neg (by omega), if_pos h20]
    exact ⟨fun h6 => by rw [if_pos h6], fun h6 => by rw [if_neg (by omega)]⟩
  · intro hm h21
    unfold parseVersion
    rw [if_neg (by simp [hm]), if_neg (by omega), if_neg (by omega), if_neg (by omega),
      if_pos h21]
    refine ⟨fun h3 => by rw [if_pos h3], fun h1 h3 => ?_, fun h1 => ?_⟩
    · rw [if_neg (by omega), if_pos (by omega)]
    · rw [if_neg (by omega), if_neg (by omega)]

/-- C17 (witness): versions 1.19.3, 1.21.2 and 2.0.0 with example values of the
constants. -/
theorem parse_version_table_witness :
    parseVersion stubVersions 1 19 3 = stubVersions.MC_1_19_2 ∧
    parseVersion stubVersions 1 21 2 = stubVersions.MC_1_21_3 ∧
    parseVersion stubVersions 2 0 0 = stubVersions.MC_NEWEST :=
  ⟨((parse_version_table stubVersions 1 19 3).2.2.1 rfl rfl).2.1 (by decide) (by decide),
    ((parse_version_table stubVersions 1 21 2).2.2.2.2 rfl rfl).2.1 (by decide) (by decide),
    (parse_version_table stubVersions 2 0 0).1 (Or.inl (by decide))⟩

/-! ## C18: memory safety of the compositing loops -/

theorem cell_height_old (W : World) (mc seed x z scale : Int) (i j : Nat)
    (hmc : mc < W.MC_1_18) : cell_height W mc seed x z scale i j = 64 := by
  unfold cell_height
  rw [if_neg (by omega)]

theorem light_at_old (W : World) (mc seed x z scale : Int) (px py : Nat)
    (hmc : mc < W.MC_1_18) (hs : 0 < scale) (hsr : scale < 2147483648) :
    light_at W mc seed x z scale 1 px py = F32.fin 1 := by
  rw [light_at_simple, cell_height_old W mc seed x z scale _ _ hmc,
    cell_height_old W mc seed x z scale _ _ hmc, cell_height_old W mc seed x z scale _ _ hmc,
    cell_height_old W mc seed x z scale _ _ hmc, hillshade_eq _ _ _ _ _ hs hsr,
    hillshade_flat _ _ _ _ _ rfl]

theorem shade_q_one (c : Nat) (hc : c < 256) : shade_q c 1 = c := by
  unfold shade_q
  rw [mul_one, roundQ_nat c (by omega), Int.floor_natCast, Int.toNat_natCast]
  exact Nat.mod_eq_of_lt hc

/-- C19: for every variant `mc_version < MC_1_18` and every `int` scale `> 0`, every
height of the padded grid is the constant 64, the simple-mode multiplier is exactly 1 at
every pixel, and `generate_biome_image` with `shader_kind = 1` leaves the same
`width * height * 4` bytes, and returns the same count, as with `shader_kind = 0` for the
same remaining arguments and world model. -/
theorem flat_before_1_18 (W : World) (hp0 hp1 : Heap) (ma mb : Mem) (seed_lo seed_hi : Nat)
    (x z : Int) (w h : Nat) (scale mc y_level : Int)
    (hw : 0 < w) (hh : 0 < h) (hwr : w < 2147483648) (hhr : h < 2147483648)
    (hs : 0 < scale) (hsr : scale < 2147483648) (hmc : mc < W.MC_1_18) :
    (Fits w h → ma.wf → mb.wf → ∃ res0 res1,
      generate_biome_image W hp0 ma seed_lo seed_hi x z (w : Int) (h : Int) scale mc 0
        y_level = some res0 ∧
      generate_biome_image W hp1 mb seed_lo seed_hi x z (w : Int) (h : Int) scale mc 1
        y_level = some res1) ∧
    ∀ res0 res1,
      generate_biome_image W hp0 ma seed_lo seed_hi x z (w : Int) (h : Int) scale mc 0
        y_level = some res0 →
      generate_biome_image W hp1 mb seed_lo seed_hi x z (w : Int) (h : Int) scale mc 1
        y_level = some res1 →
      ∃ g hts b0 b1, fill_grid W hp1 (seed64 seed_lo seed_hi) x z (w : Int) (h : Int) scale mc
          1 y_level = some g ∧ g.heights = some hts ∧
        (∀ i j : Nat, i < w + 2 → j < h + 2 →
          hts.read (iadd (imul (j : Int) (iadd (w : Int) 2)) (i : Int)) = some 64) ∧
        (∀ px py : Nat, px < w → py < h →
          pixel_light hts (iadd (w : Int) 2) scale 1 py px = some (F32.fin 1)) ∧
        res0.1.image_buffer = some b0 ∧ res1.1.image_buffer = some b1 ∧
        res1.2 = res0.2 ∧ ∀ q, q < w * h * 4 → b1.data q = b0.data q := by
  constructor
  · intro hfit hma hmb
    obtain ⟨m0, h0⟩ := generate_total W hp0 ma seed_lo seed_hi x z w h scale mc 0
      y_level hfit hma (fun _ => hs)
    obtain ⟨m1, h1⟩ := generate_total W hp1 mb seed_lo seed_hi x z w h scale mc 1
      y_level hfit hmb (fun _ => hs)
    exact ⟨_, _, h0, h1⟩
  · intro res0 res1 h0 h1
    obtain ⟨_, _, b0, _, hres0, _, _, hpix0, _⟩ := generate_post W hp0 ma seed_lo seed_hi x z
      w h scale mc 0 y_level res0 hw hh hwr hhr h0
    obtain ⟨_, _, b1, _, hres1, _, _, hpix1, _⟩ := generate_post W hp1 mb seed_lo seed_hi x z
      w h scale mc 1 y_level res1 hw hh hwr hhr h1
    obtain ⟨g, hts, hg, hh', hrd, hl⟩ := generate_lights W hp1 mb seed_lo seed_hi x z w h scale
      mc 1 y_level res1 hw hh hwr hhr (by decide) h1
    refine ⟨g, hts, b0, b1, hg, hh', fun i j hi hj => ?_, fun px py hx hy => ?_, by rw [hres0],
      by rw [hres1], by rw [hres0, hres1], fun q hq => ?_⟩
    · rw [hrd i j hi hj, cell_height_old W mc _ x z scale i j hmc]
    · rw [hl 1 px py hx hy, light_at_old W mc _ x z scale px py hmc hs hsr]
    · obtain ⟨hy, hx, hsum⟩ := pixel_of_offset hw hq
      obtain ⟨c0, e0, a0, a1, a2, a3⟩ := hpix0 (q / 4 % w) (q / 4 / w) hx hy
      obtain ⟨c1, e1, d0, d1, d2, d3⟩ := hpix1 (q / 4 % w) (q / 4 / w) hx hy
      rw [pixel_spec_shaded W mc (seed64 seed_lo seed_hi) x z scale 1 y_level _ _ 1
        (by decide) (light_at_old W mc _ x z scale _ _ hmc hs hsr) (by norm_num)
        (by norm_num), shade_q_one _ (W.color_lt _ _), shade_q_one _ (W.color_lt _ _),
        shade_q_one _ (W.color_lt _ _)] at e1
      simp only [pixel_spec] at e0
      rw [if_neg (by decide), e1] at e0
      have ec : c1 = c0 := Option.some.inj e0
      have hc : q % 4 = 0 ∨ q % 4 = 1 ∨ q % 4 = 2 ∨ q % 4 = 3 := by omega
      rcases hc with c | c | c | c <;> rw [c] at hsum
      · rw [Nat.add_zero] at hsum
        rw [← hsum, a0, d0, ec]
      · rw [← hsum, a1, d1, ec]
      · rw [← hsum, a2, d2, ec]
      · rw [← hsum, a3, d3]

/-- C19 (witness): 2×2 images of the stub world for the variant before `MC_1_18`. -/
theorem flat_before_1_18_witness :
    (0 < 2 ∧ 2 < 2147483648 ∧ (0 : Int) < 1 ∧ (1 : Int) < 2147483648 ∧
      (21 : Int) < stubWorld.MC_1_18) ∧
    ((Fits 2 2 → Mem.init.wf → Mem.init.wf → ∃ res0 res1,
      generate_biome_image stubWorld junkHeap Mem.init 0 0 0 0 ((2 : Nat) : Int)
        ((2 : Nat) : Int) 1 21 0 64 = some res0 ∧
      generate_biome_image stubWorld zeroHeap Mem.init 0 0 0 0 ((2 : Nat) : Int)
        ((2 : Nat) : Int) 1 21 1 64 = some res1) ∧
    ∀ res0 res1,
      generate_biome_image stubWorld junkHeap Mem.init 0 0 0 0 ((2 : Nat) : Int)
        ((2 : Nat) : Int) 1 21 0 64 = some res0 →
      generate_biome_image stubWorld zeroHeap Mem.init 0 0 0 0 ((2 : Nat) : Int)
        ((2 : Nat) : Int) 1 21 1 64 = some res1 →
      ∃ g hts b0 b1, fill_grid stubWorld zeroHeap (seed64 0 0) 0 0 ((2 : Nat) : Int)
          ((2 : Nat) : Int) 1 21 1 64 = some g ∧ g.heights = some hts ∧
        (∀ i j : Nat, i < 2 + 2 → j < 2 + 2 →
          hts.read (iadd (imul (j : Int) (iadd ((2 : Nat) : Int) 2)) (i : Int)) = some 64) ∧
        (∀ px py : Nat, px < 2 → py < 2 →
          pixel_light hts (iadd ((2 : Nat) : Int) 2) 1 1 py px = some (F32.fin 1)) ∧
        res0.1.image_buffer = some b0 ∧ res1.1.image_buffer = some b1 ∧
        res1.2 = res0.2 ∧ ∀ q, q < 2 * 2 * 4 → b1.data q = b0.data q) :=
  ⟨⟨by decide, by decide, by decide, by decide, by decide⟩,
    flat_before_1_18 stubWorld junkHeap zeroHeap Mem.init Mem.init 0 0 0 0 2 2 1 21 64
      (by decide) (by decide) (by decide) (by decide) (by decide) (by decide) (by decide)⟩

/-! ## C20: the seed -/

theorem halves_or (a b : Nat) (hb : b < 4294967296) :
    (a <<< 32) ||| b = a * 4294967296 + b := by
  have h := Nat.mul_add_lt_is_or (i := 32) (b := b) (by norm_num; exact hb) a
  rw [Nat.shiftLeft_eq, ← Nat.mul_comm (2 ^ 32) a, ← h]

theorem seed_u64_eq (seedLo seedHi : Nat) :
    seed_u64 seedLo seedHi = seedHi % 4294967296 * 4294967296 + seedLo % 4294967296 := by
  have hlo : seedLo % 4294967296 < 4294967296 := Nat.mod_lt _ (by norm_num)
  have hhi : seedHi % 4294967296 < 4294967296 := Nat.mod_lt _ (by norm_num)
  have hs : (seedHi % 4294967296) <<< 32 % 18446744073709551616
      = (seedHi % 4294967296) <<< 32 := by
    rw [Nat.shiftLeft_eq]
    apply Nat.mod_eq_of_lt
    norm_num
    omega
  unfold seed_u64
  rw [hs, halves_or _ _ hlo]

theorem seed64_eq (seed_lo seed_hi : Nat) :
    seed64 seed_lo seed_hi
      = wrap64 ((seed_hi % 4294967296 * 4294967296 + seed_lo % 4294967296 : Nat) : Int) := by
  unfold seed64
  rw [halves_or _ _ (Nat.mod_lt _ (by norm_num))]

/-- C20: for every pair of 32-bit values `(seedLo, seedHi)`, the `int64_t` seed of
`generate_biome_image` and `get_biome_at` and the `uint64_t` seed of `cubiomes_set_seed`
have the same bit pattern (the same value modulo `2^64`), `seedHi * 2^32 + seedLo`, whose
low 32 bits are `seedLo` and whose high 32 bits are `seedHi`; the map from `(seedLo,
seedHi)` to the seed is injective.  `seed64` is the seed that `get_biome_at` and
`generate_biome_image` hand to the world model, `seed_u64` the one that
`cubiomes_set_seed` hands to `applySeed` and `initSurfaceNoise`. -/
theorem seed_bits (seedLo seedHi : Nat) (hlo : seedLo < 4294967296)
    (hhi : seedHi < 4294967296) :
    seed_u64 seedLo seedHi = seedHi * 4294967296 + seedLo ∧
    seed64 seedLo seedHi % 18446744073709551616 = ((seed_u64 seedLo seedHi : Nat) : Int) ∧
    -9223372036854775808 ≤ seed64 seedLo seedHi ∧ seed64 seedLo seedHi < 9223372036854775808 ∧
    seed_u64 seedLo seedHi < 18446744073709551616 ∧
    seed_u64 seedLo seedHi % 4294967296 = seedLo ∧
    seed_u64 seedLo seedHi / 4294967296 = seedHi ∧
    (∀ lo hi : Nat, lo < 4294967296 → hi < 4294967296 →
      (seed64 lo hi = seed64 seedLo seedHi ∨ seed_u64 lo hi = seed_u64 seedLo seedHi) →
      lo = seedLo ∧ hi = seedHi) ∧
    (∀ (W : World) (x y z scale mc_version : Int),
      get_biome_at W seedLo seedHi x y z scale mc_version
        = W.getBiomeAt mc_version (seed64 seedLo seedHi) scale x y z) ∧
    (∀ (W : World) (hp : Heap) (m : Mem) (lo hi : Nat)
        (x z width height scale mc shader_kind y_level : Int),
      seed64 lo hi = seed64 seedLo seedHi →
      generate_biome_image W hp m lo hi x z width height scale mc shader_kind y_level
        = generate_biome_image W hp m seedLo seedHi x z width height scale mc shader_kind
            y_level) ∧
    (∀ (γ σ : Type) (L : Cubiomes γ σ) (s : Wrapper γ σ) (dimension : Int),
      s.initialized ≠ 0 →
      (cubiomes_set_seed L s seedLo seedHi dimension).g
          = L.applySeed s.g dimension (seed_u64 seedLo seedHi) ∧
        (cubiomes_set_seed L s seedLo seedHi dimension).g_sn
          = L.initSurfaceNoise s.g_sn dimension (seed_u64 seedLo seedHi)) := by
  have hu : seed_u64 seedLo seedHi = seedHi * 4294967296 + seedLo := by
    rw [seed_u64_eq, Nat.mod_eq_of_lt hlo, Nat.mod_eq_of_lt hhi]
  have hi64 : seed64 seedLo seedHi
      = wrap64 ((seedHi * 4294967296 + seedLo : Nat) : Int) := by
    rw [seed64_eq, Nat.mod_eq_of_lt hlo, Nat.mod_eq_of_lt hhi]
  refine ⟨hu, ?_, ?_, ?_, ?_, ?_, ?_, ?_, ?_, ?_, ?_⟩
  · rw [hu, hi64]; unfold wrap64; omega
  · rw [hi64]; unfold wrap64; omega
  · rw [hi64]; unfold wrap64; omega
  · rw [hu]; omega
  · rw [hu]; omega
  · rw [hu]; omega
  · intro lo hi hlo' hhi' hcase
    have hu' : seed_u64 lo hi = hi * 4294967296 + lo := by
      rw [seed_u64_eq, Nat.mod_eq_of_lt hlo', Nat.mod_eq_of_lt hhi']
    rcases hcase with he | he
    · rw [hi64, seed64_eq, Nat.mod_eq_of_lt hlo', Nat.mod_eq_of_lt hhi'] at he
      unfold wrap64 at he
      omega
    · rw [hu, hu'] at he
      omega
  · intro W x y z scale mc_version
    rfl
  · intro W hp m lo hi x z width height scale mc shader_kind y_level he
    simp only [generate_biome_image]
    rw [he]
  · intro γ σ L s dimension hinit
    unfold cubiomes_set_seed
    rw [if_neg hinit]
    exact ⟨rfl, rfl⟩

/-- C20 (witness): the halves `seedLo = 0x9ABCDEF0`, `seedHi = 0x12345678`. -/
theorem seed_bits_witness :
    (2596069104 < 4294967296 ∧ 305419896 < 4294967296) ∧
    (seed_u64 2596069104 305419896 = 305419896 * 4294967296 + 2596069104 ∧
    seed64 2596069104 305419896 % 18446744073709551616
      = ((seed_u64 2596069104 305419896 : Nat) : Int) ∧
    -9223372036854775808 ≤ seed64 2596069104 305419896 ∧
    seed64 2596069104 305419896 < 9223372036854775808 ∧
    seed_u64 2596069104 305419896 < 18446744073709551616 ∧
    seed_u64 2596069104 305419896 % 4294967296 = 2596069104 ∧
    seed_u64 2596069104 305419896 / 4294967296 = 305419896 ∧
    (∀ lo hi : Nat, lo < 4294967296 → hi < 4294967296 →
      (seed64 lo hi = seed64 2596069104 305419896 ∨
        seed_u64 lo hi = seed_u64 2596069104 305419896) →
      lo = 2596069104 ∧ hi = 305419896) ∧
    (∀ (W : World) (x y z scale mc_version : Int),
      get_biome_at W 2596069104 305419896 x y z scale mc_version
        = W.getBiomeAt mc_version (seed64 2596069104 305419896) scale x y z) ∧
    (∀ (W : World) (hp : Heap) (m : Mem) (lo hi : Nat)
        (x z width height scale mc shader_kind y_level : Int),
      seed64 lo hi = seed64 2596069104 305419896 →
      generate_biome_image W hp m lo hi x z width height scale mc shader_kind y_level
        = generate_biome_image W hp m 2596069104 305419896 x z width height scale mc
            shader_kind y_level) ∧
    (∀ (γ σ : Type) (L : Cubiomes γ σ) (s : Wrapper γ σ) (dimension : Int),
      s.initialized ≠ 0 →
      (cubiomes_set_seed L s 2596069104 305419896 dimension).g
          = L.applySeed s.g dimension (seed_u64 2596069104 305419896) ∧
        (cubiomes_set_seed L s 2596069104 305419896 dimension).g_sn
          = L.initSurfaceNoise s.g_sn dimension (seed_u64 2596069104 305419896))) :=
  ⟨⟨by decide, by decide⟩, seed_bits 2596069104 305419896 (by decide) (by decide)⟩

end SeedMarker
